import Mathlib

/-!
# Token Action HUD: the refresh scheduler, the character resolver and the
group interaction state machine of `scripts/token-action-hud.js`

The class `TokenActionHud` is embedded as a record `Hud` of the fields the
methods read and write, together with the part of the host environment they
consult (the user, the canvas, the document) and a trace of the calls made to
external collaborators.  An `async` method is split at its `await`s: each
segment is a pure function on `Hud`, and the event loop `step` resumes the
suspended segments.
-/

set_option autoImplicit false

namespace TokenActionHud

/-! ## Data model -/

/-- An actor of the host game. `isOwner` is the value of
`actor.testUserPermission(game.user, 'OWNER')`. -/
structure Actor where
  id : String
  name : String
  isOwner : Bool
deriving DecidableEq, Repr

/-- A token placed on the canvas; `actor` is `token.actor`, possibly absent. -/
structure Token where
  id : String
  name : String
  actor : Option Actor
deriving DecidableEq, Repr

/-- The acting user, `game.user`. -/
structure User where
  isGM : Bool := false
  character : Option Actor := none
deriving DecidableEq, Repr

/-- The object `{ token, actor }` built by `_getCharacter`. -/
structure Character where
  token : Option Token
  actor : Option Actor
deriving DecidableEq, Repr

/-- The fields of the action handler written by the HUD. -/
structure ActionHandler where
  characterName : String := ""
  actor : Option Actor := none
  token : Option Token := none
deriving DecidableEq, Repr

/-- The fields of the roll handler written by the HUD. -/
structure RollHandler where
  actor : Option Actor := none
  token : Option Token := none
deriving DecidableEq, Repr

/-- The argument of `update`: `null`, a string such as `'controlToken'`, or an
object naming the calling method. -/
inductive Trigger where
  | null
  | text (s : String)
  | method (name : String)
deriving DecidableEq, Repr

/-- The value the action source resolves to; the HUD reads its `length`,
`actorId` and `tokenId`. -/
structure HudTree where
  length : Nat
  actorId : Option String := none
  tokenId : Option String := none
deriving DecidableEq, Repr

/-- Calls to external collaborators, in the order they are made. -/
inductive Effect where
  | debug (msg : String) (trigger : Option Trigger)
  | close
  | render
  | buildHud (saveActor : Bool)
  | hook (name : String)
  | unhandledRejection (reason : String)
  | resizeCategory (groupId : String)
  | bringToTop
  | blur (element : Nat)
  | handleActionEvent (target : Nat)
  | error (msg : String)
  | setUserFlag (key : String) (value : Bool)
  | retryLater
deriving DecidableEq, Repr

/-- Modelled from the spec: the cancellable debounce timer `Timer` of
`utilities/utils.js`, which is not among the sources.  It holds at most one
live handle, kept with the call that waits for it; starting a new window
aborts any outstanding handle, and the waiter of an aborted handle never
resumes. -/
structure Timer (α : Type) where
  live : Option α := none
deriving DecidableEq, Repr

/-- Modelled from the spec: `Timer.abort`, which is not among the sources; it
cancels the outstanding handle. -/
def Timer.abort {α : Type} (_t : Timer α) : Timer α := { live := none }

/-- Modelled from the spec: `Timer.start`, which is not among the sources; it
aborts any outstanding handle and schedules a new one for the caller `k`. -/
def Timer.start {α : Type} (t : Timer α) (k : α) : Timer α :=
  { t.abort with live := some k }

/-- An element of the rendered document: its `id`, its class list, its
parent element, its `tagName` and its `data-show-title` attribute.  Elements
are listed in document order. -/
structure Node where
  id : String
  classes : List String
  parent : Option Nat
  tagName : String := "DIV"
  showTitle : Option String := none
deriving DecidableEq, Repr

/-- A stored position of the HUD frame, the user flag `position`. -/
structure Position where
  top : Int
  left : Int
deriving DecidableEq, Repr

/-- The rendered document, elements in document order; an element is referred
to by its position. -/
abbrev Dom := List Node

/-- The class field `defaultLeftPos`, which is never assigned again. -/
def defaultLeftPos : Int := 150

/-- The class field `defaultTopPos`, which is never assigned again. -/
def defaultTopPos : Int := 80

/-- The HUD object together with the host environment it reads. -/
structure Hud where
  hoveredGroups : List String := []
  /-- Which array object `hoveredGroups` holds: the number changes whenever the
  field is assigned a newly created array, and stays when the array it holds
  is pushed to. -/
  hoveredGroupsId : Nat := 0
  leftPos : Int := 150
  topPos : Int := 80
  direction : String := "down"
  isCustomizationEnabled : Bool := false
  isDraggable : Bool := false
  isUnlocked : Bool := false
  rendering : Bool := false
  isUpdatePending : Bool := false
  isUpdating : Bool := false
  updateTimer : Timer Trigger := {}
  isAlwaysShow : Bool := false
  isClickOpen : Bool := false
  isHudEnabled : Bool := false
  actor : Option Actor := none
  token : Option Token := none
  hud : Option HudTree := none
  actionHandler : ActionHandler := {}
  rollHandler : RollHandler := {}
  /-- The acting user, `game.user`. -/
  user : User := {}
  /-- The tokens of the canvas, `canvas.tokens.placeables`. -/
  placeables : List Token := []
  /-- The current selection, `Utils.getControlledTokens()`. -/
  controlledTokens : List Token := []
  /-- The rendered document. -/
  dom : Dom := []
  /-- The user flag `position`, `Utils.getUserFlag('position')`. -/
  positionFlag : Option Position := none
  /-- The viewport, `window.innerHeight` and `window.innerWidth`. -/
  innerHeight : Int := 0
  innerWidth : Int := 0
  /-- The inline `top` and `left` of the element `#token-action-hud`, in pixels. -/
  styleTop : Option Int := none
  styleLeft : Option Int := none
  /-- Calls of `_updateHud` suspended at `await this.updateTimer.abort()`. -/
  abortWaiters : List Trigger := []
  /-- Calls of `_updateHud` suspended at `await this.actionHandler.buildHud(options)`. -/
  buildWaiters : Nat := 0
  /-- The trace of collaborator calls. -/
  effects : List Effect := []
deriving DecidableEq, Repr

/-! ## Character resolver -/

/-- The method `_isValidCharacter`: `game.user.isGM || actor?.testUserPermission(user, 'OWNER')`. -/
def _isValidCharacter (s : Hud) (token : Token) : Bool :=
  s.user.isGM ||
    (match token.actor with
     | some actor => actor.isOwner
     | none => false)

/-- The tail of `_getCharacter` from `if (!character.actor) return null` on. -/
def _getCharacter.finish (s : Hud) (character : Character) : Option Character × Hud :=
  match character.actor with
  | none => (none, s)
  | some actor =>
    (some character,
      { s with
        actor := some actor
        token := character.token
        actionHandler :=
          { s.actionHandler with
            characterName := (character.token.map (fun t => t.name)).getD actor.name
            actor := some actor
            token := character.token }
        rollHandler := { s.rollHandler with actor := some actor, token := character.token } })

/-- The method `_getCharacter`: the character for the controlled tokens, and
the HUD after the assignments the method makes. -/
def _getCharacter (s : Hud) (controlled : List Token) : Option Character × Hud :=
  if controlled.length > 1 then
    (none,
      { s with
        actor := none
        token := none
        actionHandler :=
          { s.actionHandler with characterName := "Multiple", actor := none, token := none }
        rollHandler := { s.rollHandler with actor := none, token := none } })
  else
    match controlled with
    | [token] =>
      if !(_isValidCharacter s token) then (none, s)
      else _getCharacter.finish s { token := some token, actor := token.actor }
    | _ =>
      match s.user.character with
      | some userCharacter =>
        if controlled.length = 0 ∧ s.isAlwaysShow = true then
          _getCharacter.finish s
            { actor := some userCharacter
              token := s.placeables.find?
                (fun t => t.actor.map (fun a => a.id) == some userCharacter.id) }
        else _getCharacter.finish s { token := none, actor := none }
      | none => _getCharacter.finish s { token := none, actor := none }

/-! ## Debounced update scheduler -/

/-- Lines 980-981 of `_updateHud`: mark the update pending and start the
debounce timer, on which the call suspends. -/
def _updateHud.schedule (s : Hud) (trigger : Trigger) : Hud :=
  { s with isUpdatePending := true, updateTimer := s.updateTimer.start trigger }

/-- The method `_updateHud` from its call to its first suspension. -/
def _updateHud (s : Hud) (trigger : Trigger) : Hud :=
  if s.isUpdating then s
  else if s.isUpdatePending then
    { s with updateTimer := s.updateTimer.abort, abortWaiters := s.abortWaiters ++ [trigger] }
  else _updateHud.schedule s trigger

/-- The method `update`. -/
def update (s : Hud) (trigger : Trigger) : Hud :=
  _updateHud s trigger

/-- The method `_updateHud` from the moment the debounce timer resolves up to
its next suspension.  The second component is `none` when the method has
returned, and `some saveActor` when it is suspended at
`await this.actionHandler.buildHud(options)`, `saveActor` telling whether
`options` is `{ saveActor: true }`. -/
def _updateHud.rebuild (s : Hud) (trigger : Trigger) : Hud × Option Bool :=
  let s1 : Hud :=
    { s with
      isUpdatePending := false
      isUpdating := true
      effects := s.effects ++ [Effect.debug "Updating hud..." (some trigger)] }
  let previousActorId : Option String := s1.actor.map (fun a => a.id)
  let controlledTokens := s1.controlledTokens
  let r := _getCharacter s1 controlledTokens
  let character := r.1
  let s2 := r.2
  let multipleTokens := decide (controlledTokens.length > 1) && character.isNone
  if (character.isNone && !multipleTokens) || !s2.isHudEnabled then
    ({ s2 with
        hoveredGroups := []
        hoveredGroupsId := s2.hoveredGroupsId + 1
        isUpdating := false
        effects := s2.effects ++
          [Effect.close,
           Effect.debug "Hud update aborted as no character(s) found or hud is disabled" none] },
      none)
  else
    let saveActor :=
      decide (trigger = Trigger.text "controlToken") &&
        decide (previousActorId ≠ s2.actor.map (fun a => a.id))
    ({ s2 with effects := s2.effects ++ [Effect.buildHud saveActor] }, some saveActor)

/-- The method `_updateHud` from the moment the promise of `buildHud` settles
to its end.  A rejected promise makes the `await` throw; the method has no
handler, so the exception leaves it at once. -/
def _updateHud.complete (s : Hud) (result : Except String HudTree) : Hud × Except String Unit :=
  match result with
  | Except.error e => (s, Except.error e)
  | Except.ok hud =>
    let s1 : Hud := { s with hud := some hud }
    if hud.length = 0 then
      ({ s1 with
          hoveredGroups := []
          hoveredGroupsId := s1.hoveredGroupsId + 1
          isUpdating := false
          effects := s1.effects ++
            [Effect.close, Effect.debug "Hud update aborted as action list empty" none] },
        Except.ok ())
    else
      ({ s1 with
          rendering := true
          isUpdating := false
          effects := s1.effects ++
            [Effect.render, Effect.hook "tokenActionHudCoreHudUpdated",
             Effect.debug "Hud updated" none] },
        Except.ok ())

/-- The method `_updateHud` from the moment the debounce timer resolves to its
end, `result` being what the promise of `buildHud` settles to if the method
gets that far. -/
def _updateHud.afterTimer (s : Hud) (trigger : Trigger) (result : Except String HudTree) :
    Hud × Except String Unit :=
  match _updateHud.rebuild s trigger with
  | (s1, none) => (s1, Except.ok ())
  | (s1, some _) => _updateHud.complete s1 result

/-- What the host and the event loop can do to the scheduler. -/
inductive Event where
  /-- A call `update(trigger)`. -/
  | update (trigger : Trigger)
  /-- The selection on the canvas changes. -/
  | controlToken (controlled : List Token)
  /-- The microtask queue is drained. -/
  | microtasks
  /-- The debounce window elapses. -/
  | timerElapsed
  /-- The promise of the oldest pending `buildHud` call settles. -/
  | buildHudSettled (result : Except String HudTree)
deriving Repr

/-- Resume, in order, the calls suspended at `await this.updateTimer.abort()`. -/
def drain (s : Hud) : Hud :=
  s.abortWaiters.foldl _updateHud.schedule { s with abortWaiters := [] }

/-- One turn of the event loop.  Microtasks always run before the next timer
or promise callback. -/
def step (s : Hud) : Event → Hud
  | Event.update trigger => update s trigger
  | Event.controlToken controlled => { s with controlledTokens := controlled }
  | Event.microtasks => drain s
  | Event.timerElapsed =>
    let s1 := drain s
    match s1.updateTimer.live with
    | none => s1
    | some trigger =>
      match _updateHud.rebuild { s1 with updateTimer := { live := none } } trigger with
      | (s2, none) => s2
      | (s2, some _) => { s2 with buildWaiters := s2.buildWaiters + 1 }
  | Event.buildHudSettled result =>
    let s1 := drain s
    if s1.buildWaiters = 0 then s1
    else
      match _updateHud.complete { s1 with buildWaiters := s1.buildWaiters - 1 } result with
      | (s2, Except.ok _) => s2
      | (s2, Except.error e) =>
        { s2 with effects := s2.effects ++ [Effect.unhandledRejection e] }

/-- Run a sequence of events. -/
def run (s : Hud) (events : List Event) : Hud :=
  events.foldl step s

/-- Whether an entry of the trace marks the start of a rebuild. -/
def Effect.isRebuildStart : Effect → Bool
  | Effect.debug msg _ => msg == "Updating hud..."
  | _ => false

/-- The number of rebuilds started so far. -/
def rebuilds (s : Hud) : Nat :=
  s.effects.countP Effect.isRebuildStart

/-- The collaborator calls made between the state `s` and the later state `s1`. -/
def newEffects (s s1 : Hud) : List Effect :=
  s1.effects.drop s.effects.length

/-- One request of a burst: the selection at the time of the request, its
trigger, and whether the microtask queue is drained before the next request
(the request is the last of its task) or not (the next one follows in the
same task). -/
structure Request where
  controlled : List Token
  trigger : Trigger
  drained : Bool
deriving Repr

/-- The events of one request. -/
def Request.events (r : Request) : List Event :=
  [Event.controlToken r.controlled, Event.update r.trigger] ++
    (if r.drained then [Event.microtasks] else [])

/-- The events of a burst of requests. -/
def burst (rs : List Request) : List Event :=
  rs.flatMap Request.events

/-- The state in which exactly the request `r` is pending on the debounce timer. -/
def pendingOn (s : Hud) (r : Request) : Hud :=
  { s with
    controlledTokens := r.controlled
    isUpdatePending := true
    updateTimer := { live := some r.trigger }
    abortWaiters := [] }

/-! ## The rendered document -/

/-- The class list after `classList.add(c)`. -/
def classList.add (classes : List String) (c : String) : List String :=
  if c ∈ classes then classes else classes ++ [c]

/-- The class list after `classList.remove(c)`. -/
def classList.remove (classes : List String) (c : String) : List String :=
  classes.filter (fun x => x != c)

/-- The test `element.classList.contains(c)`. -/
def Dom.hasClass (d : Dom) (i : Nat) (c : String) : Bool :=
  match d[i]? with
  | some n => decide (c ∈ n.classes)
  | none => false

/-- The property `element.id`. -/
def Dom.idOf (d : Dom) (i : Nat) : String :=
  match d[i]? with
  | some n => n.id
  | none => ""

/-- The property `element.parentElement`. -/
def Dom.parentElement (d : Dom) (i : Nat) : Option Nat :=
  match d[i]? with
  | some n => n.parent
  | none => none

/-- The document after `element.classList.add(c)`. -/
def Dom.addClass (d : Dom) (i : Nat) (c : String) : Dom :=
  d.modify (fun n => { n with classes := classList.add n.classes c }) i

/-- The document after `element.classList.remove(c)`. -/
def Dom.removeClass (d : Dom) (i : Nat) (c : String) : Dom :=
  d.modify (fun n => { n with classes := classList.remove n.classes c }) i

/-- The elements reached from `element` by repeated `nextElementSibling`, in
that order: the later elements with the same parent. -/
def Dom.nextSiblings (d : Dom) (i : Nat) : List Nat :=
  match Dom.parentElement d i with
  | none => []
  | some p => (List.range d.length).filter (fun j => decide (i < j) && (Dom.parentElement d j == some p))

/-- The search of `element.closest('.c')` with at most `fuel` elements looked at. -/
def Dom.closestFrom (d : Dom) (c : String) : Nat → Nat → Option Nat
  | 0, _ => none
  | fuel + 1, i =>
    if Dom.hasClass d i c then some i
    else
      match Dom.parentElement d i with
      | none => none
      | some p => Dom.closestFrom d c fuel p

/-- The call `element.closest('.c')`: the element itself or its nearest
ancestor with class `c`.  A chain of ancestors has no more elements than the
document. -/
def Dom.closest (d : Dom) (i : Nat) (c : String) : Option Nat :=
  Dom.closestFrom d c d.length i

/-- Whether `ancestor` is among the first `fuel` proper ancestors of an element. -/
def Dom.isInsideFrom (d : Dom) (ancestor : Nat) : Nat → Nat → Bool
  | 0, _ => false
  | fuel + 1, j =>
    match Dom.parentElement d j with
    | none => false
    | some p => p == ancestor || Dom.isInsideFrom d ancestor fuel p

/-- The call `element.querySelectorAll('.c')`: the descendants of `element`
with class `c`, in document order. -/
def Dom.querySelectorAll (d : Dom) (element : Nat) (c : String) : List Nat :=
  (List.range d.length).filter
    (fun j => Dom.hasClass d j c && Dom.isInsideFrom d element d.length j)

/-! ## Group interaction -/

/-- The method `_setHoveredGroup`. -/
def _setHoveredGroup (s : Hud) (groupId : String) : Hud :=
  let s1 : Hud :=
    if s.hoveredGroups.length > 10 then
      { s with hoveredGroups := [], hoveredGroupsId := s.hoveredGroupsId + 1 }
    else s
  { s1 with hoveredGroups := s1.hoveredGroups ++ [groupId] }

/-- The method `_clearHoveredGroup`. -/
def _clearHoveredGroup (s : Hud) (groupId : String) : Hud :=
  { s with
    hoveredGroups := s.hoveredGroups.filter (fun id => id != groupId)
    hoveredGroupsId := s.hoveredGroupsId + 1 }

/-- The loop of `closeGroup` over the later siblings of `closestGroupElement`. -/
def closeGroup.showSiblings (d : Dom) (closestGroupElement : Option Nat) : Dom :=
  match closestGroupElement with
  | none => d
  | some e =>
    (Dom.nextSiblings d e).foldl
      (fun d1 sibling =>
        if Dom.hasClass d1 sibling "tah-group" then Dom.removeClass d1 sibling "tah-hidden"
        else d1)
      d

/-- The handler `closeGroup` of `_bindGroupEvents` from `group.classList.remove('hover')`
on, for the element `group`. -/
def closeGroup.body (s : Hud) (group : Nat) : Hud :=
  let d1 := Dom.removeClass s.dom group "hover"
  let closestGroupElement := Dom.closest d1 group "tah-group"
  let d2 := closeGroup.showSiblings d1 closestGroupElement
  _clearHoveredGroup { s with dom := d2 } (Dom.idOf d2 group)

/-- The handler `closeGroup` of `_bindGroupEvents`, for an event whose
`currentTarget` is given.  An error is the `TypeError` raised when `group` is
null. -/
def closeGroup (s : Hud) (currentTarget : Nat) : Except String Hud :=
  if s.rendering then Except.ok s
  else
    match (if s.isClickOpen then Dom.parentElement s.dom currentTarget else some currentTarget) with
    | none => Except.error "TypeError: group is null"
    | some group => Except.ok (closeGroup.body s group)

/-- The loop of `openGroup` over the later siblings of `closestGroupElement`. -/
def openGroup.hideSiblings (d : Dom) (closestGroupElement : Option Nat) : Dom :=
  match closestGroupElement with
  | none => d
  | some e =>
    (Dom.nextSiblings d e).foldl
      (fun d1 sibling =>
        if Dom.hasClass d1 sibling "tah-group" then Dom.addClass d1 sibling "tah-hidden"
        else d1)
      d

/-- The handler `openGroup` of `_bindGroupEvents` from `group.classList.add('hover')`
on, for the element `group`. -/
def openGroup.body (s : Hud) (group : Nat) : Hud :=
  let d1 := Dom.addClass s.dom group "hover"
  let closestGroupElement := Dom.closest d1 group "tah-group"
  let d2 := openGroup.hideSiblings d1 closestGroupElement
  let s1 : Hud :=
    { s with dom := d2, effects := s.effects ++ [Effect.resizeCategory (Dom.idOf d2 group)] }
  _setHoveredGroup s1 (Dom.idOf d2 group)

/-- The handler `openGroup` of `_bindGroupEvents`; it contains no `await`, so
it runs to its end when called.  An error is the `TypeError` raised when
`group` is null. -/
def openGroup (s : Hud) (currentTarget : Nat) : Except String Hud :=
  match (if s.isClickOpen then Dom.parentElement s.dom currentTarget else some currentTarget) with
  | none => Except.error "TypeError: group is null"
  | some group => Except.ok (openGroup.body s group)

/-- The loop of `toggleGroup` over `groupElements`. -/
def toggleGroup.closeOthers (s : Hud) (groupElements : List Nat) : Hud :=
  groupElements.foldl
    (fun s1 groupElement =>
      _clearHoveredGroup { s1 with dom := Dom.removeClass s1.dom groupElement "hover" }
        (Dom.idOf s1.dom groupElement))
    s

/-- The call `event.currentTarget.blur()`. -/
def blur (s : Hud) (currentTarget : Nat) : Hud :=
  { s with effects := s.effects ++ [Effect.blur currentTarget] }

/-- The handler `toggleGroup` of `_bindGroupEvents`.  An error is the
`TypeError` raised when `group` or `group.parentElement` is null; it is
raised before the handler has changed anything. -/
def toggleGroup (s : Hud) (currentTarget : Nat) : Except String Hud :=
  match Dom.parentElement s.dom currentTarget with
  | none => Except.error "TypeError: group is null"
  | some group =>
    if Dom.hasClass s.dom group "hover" then
      (closeGroup s currentTarget).map (fun s1 => blur s1 currentTarget)
    else
      match Dom.parentElement s.dom group with
      | none => Except.error "TypeError: group.parentElement is null"
      | some container =>
        let groupElements := Dom.querySelectorAll s.dom container "tah-tab-group"
        (openGroup (toggleGroup.closeOthers s groupElements) currentTarget).map
          (fun s1 => blur s1 currentTarget)

/-- A click on an element: the two `click` listeners bound to the group
buttons, in the order they are bound; the second one only in click mode.  An
exception raised by a listener ends that listener. -/
def clickGroupButton (s : Hud) (button : Nat) : Hud :=
  if Dom.hasClass s.dom button "tah-group-button" then
    let s1 : Hud := { s with effects := s.effects ++ [Effect.bringToTop, Effect.blur button] }
    if s1.isClickOpen then
      match toggleGroup s1 button with
      | Except.ok s2 => s2
      | Except.error _ => s1
    else s1
  else s

/-- A sequence of clicks. -/
def clicks (s : Hud) (buttons : List Nat) : Hud :=
  buttons.foldl clickGroupButton s

/-- The pointer entering a top-level group element in hover mode. -/
def mouseenter (s : Hud) (element : Nat) : Hud :=
  if !s.isClickOpen && Dom.hasClass s.dom element "tah-tab-group" then
    match openGroup s element with
    | Except.ok s1 => s1
    | Except.error _ => s
  else s

/-- The pointer leaving a top-level group element in hover mode. -/
def mouseleave (s : Hud) (element : Nat) : Hud :=
  if !s.isClickOpen && Dom.hasClass s.dom element "tah-tab-group" then
    match closeGroup s element with
    | Except.ok s1 => s1
    | Except.error _ => s
  else s

/-- Whether an element is a top-level group of the container `root`: a child
of `root` with class `tah-tab-group`. -/
def Dom.isTopLevel (d : Dom) (root : Nat) (i : Nat) : Bool :=
  (Dom.parentElement d i == some root) && Dom.hasClass d i "tah-tab-group"

/-- Whether a string is the id of a top-level group of `root`. -/
def Dom.isTopLevelId (d : Dom) (root : Nat) (x : String) : Bool :=
  (List.range d.length).any (fun i => Dom.isTopLevel d root i && (Dom.idOf d i == x))

/-- At most one top-level group of `root` is open, and `hoveredGroups` holds
at most one top-level identifier. -/
def AtMostOneOpen (s : Hud) (root : Nat) : Prop :=
  (∀ i j, Dom.isTopLevel s.dom root i = true → Dom.isTopLevel s.dom root j = true →
      Dom.hasClass s.dom i "hover" = true → Dom.hasClass s.dom j "hover" = true → i = j) ∧
    (s.hoveredGroups.filter (Dom.isTopLevelId s.dom root)).length ≤ 1

/-- No other element shares its id with a top-level group of `root`. -/
def TopLevelIdsUnique (d : Dom) (root : Nat) : Prop :=
  ∀ i j, Dom.isTopLevel d root i = true → j < d.length → Dom.idOf d i = Dom.idOf d j → i = j

/-- The elements whose visibility `openGroup` and `closeGroup` change for the
element `group`: the later siblings, with class `tah-group`, of the closest
`.tah-group` element of `group`. -/
def Dom.laterSiblingGroups (d : Dom) (group : Nat) : List Nat :=
  match Dom.closest d group "tah-group" with
  | none => []
  | some e => (Dom.nextSiblings d e).filter (fun j => Dom.hasClass d j "tah-group")

/-- Two documents with the same elements, parents and ids: they differ at most
in class lists. -/
def Dom.SameTree (d1 d2 : Dom) : Prop :=
  d1.length = d2.length ∧
    ∀ j, Dom.parentElement d1 j = Dom.parentElement d2 j ∧ Dom.idOf d1 j = Dom.idOf d2 j

/-- Two documents with the same tree and the same `.tah-tab-group` elements. -/
def Dom.SameGroups (d1 d2 : Dom) : Prop :=
  Dom.SameTree d1 d2 ∧
    ∀ j, Dom.hasClass d1 j "tah-tab-group" = Dom.hasClass d2 j "tah-tab-group"

/-! ## The set of hovered groups -/

/-- An operation on `hoveredGroups`: a call of `_setHoveredGroup` (made when a
group opens) or of `_clearHoveredGroup` (made when a group closes). -/
inductive HoverOp where
  | set (groupId : String)
  | clear (groupId : String)
deriving DecidableEq, Repr

/-- The HUD after one operation on `hoveredGroups`. -/
def HoverOp.apply (s : Hud) : HoverOp → Hud
  | HoverOp.set groupId => _setHoveredGroup s groupId
  | HoverOp.clear groupId => _clearHoveredGroup s groupId

/-- The HUD after a sequence of operations on `hoveredGroups`. -/
def applyHoverOps (s : Hud) (ops : List HoverOp) : Hud :=
  ops.foldl HoverOp.apply s

/-! ## Position and direction -/

/-- The call `document.getElementById(id)`: the first element with that id. -/
def Dom.getElementById (d : Dom) (id : String) : Option Nat :=
  (List.range d.length).find? (fun j => Dom.idOf d j == id)

/-- The method `_setPositionFromFlag`, with the first run of `check`.  When the
element is not mounted yet `check` only asks to be run again later.  The
coordinates are pixels, taken as integers. -/
def _setPositionFromFlag (s : Hud) : Hud :=
  match s.positionFlag with
  | none => s
  | some pos =>
    match Dom.getElementById s.dom "token-action-hud" with
    | some _ =>
      let topPos := if pos.top < 5 ∨ pos.top > s.innerHeight + 5 then defaultTopPos else pos.top
      let leftPos :=
        if pos.left < 5 ∨ pos.left > s.innerWidth + 5 then defaultLeftPos else pos.left
      { s with
        topPos := topPos
        styleTop := some topPos
        leftPos := leftPos
        styleLeft := some leftPos }
    | none => { s with effects := s.effects ++ [Effect.retryLater] }

/-- The method `_getAutoDirection`.  On integers `topPos > innerHeight / 2`,
with the exact division of the source, is `2 * topPos > innerHeight`. -/
def _getAutoDirection (s : Hud) : String :=
  if s.direction = "up" ∨ (s.direction = "auto" ∧ 2 * s.topPos > s.innerHeight) then "up"
  else "down"

/-- A pointer event: `clientX` and `clientY` of the mouse event or of its first
changed touch. -/
structure PointerEvent where
  clientX : Int
  clientY : Int
deriving DecidableEq, Repr

/-- The local variables of one run of `_dragEvent`. -/
structure Drag where
  pos1 : Int
  pos2 : Int
  pos3 : Int
  pos4 : Int
  originalElementTop : Int
  originalElementLeft : Int
  newElementTop : Int
  newElementLeft : Int
deriving DecidableEq, Repr

/-- The method `_dragEvent` up to the binding of the move and release
listeners, for a frame at `offsetTop`, `offsetLeft`; nothing when dragging
is disabled. -/
def _dragEvent (s : Hud) (offsetTop offsetLeft : Int) (event : PointerEvent) : Option Drag :=
  if !s.isDraggable then none
  else
    some
      { pos1 := 0
        pos2 := 0
        pos3 := event.clientX
        pos4 := event.clientY
        originalElementTop := offsetTop
        originalElementLeft := offsetLeft
        newElementTop := offsetTop
        newElementLeft := offsetLeft }

/-- The listener `mouseMoveEvent` of `_dragEvent`.  The style is the one the
requested animation frame applies. -/
def _dragEvent.mouseMoveEvent (s : Hud) (g : Drag) (event : PointerEvent) : Hud × Drag :=
  let g1 : Drag :=
    { g with
      pos1 := g.pos3 - event.clientX
      pos2 := g.pos4 - event.clientY
      pos3 := event.clientX
      pos4 := event.clientY }
  if g1.pos1 = g1.pos3 ∧ g1.pos2 = g1.pos4 then (s, g1)
  else
    let g2 : Drag :=
      { g1 with
        newElementTop := g1.newElementTop - g1.pos2
        newElementLeft := g1.newElementLeft - g1.pos1 }
    ({ s with
        topPos := g2.newElementTop
        styleTop := some g2.newElementTop
        styleLeft := some g2.newElementLeft },
      g2)

/-- A sequence of move events. -/
def _dragEvent.moves (s : Hud) (g : Drag) (events : List PointerEvent) : Hud × Drag :=
  events.foldl (fun r event => _dragEvent.mouseMoveEvent r.1 r.2 event) (s, g)

/-! ## Action clicks and update filters -/

/-- The property `element.tagName`. -/
def Dom.tagName (d : Dom) (i : Nat) : String :=
  match d[i]? with
  | some n => n.tagName
  | none => ""

/-- The element `element.children[0]`. -/
def Dom.firstChild (d : Dom) (i : Nat) : Option Nat :=
  (List.range d.length).find? (fun j => Dom.parentElement d j == some i)

/-- A click event on an action: `event.target` and `event.currentTarget`. -/
structure ClickEvent where
  target : Nat
  currentTarget : Nat
deriving DecidableEq, Repr

/-- The control `target` of `handleAction`: the event target when it is a
button, else the first child of the current target. -/
def handleAction.target (d : Dom) (event : ClickEvent) : Option Nat :=
  if Dom.tagName d event.target ≠ "BUTTON" then Dom.firstChild d event.currentTarget
  else some event.target

/-- The handler `handleAction` of `_bindActionEvents`; `outcome` is what the
call `this.rollHandler.handleActionEvent(...)` does: return, or throw.  An
error is the `TypeError` raised by `target.value` before the `try` when there
is no control. -/
def handleAction (s : Hud) (event : ClickEvent) (outcome : Except String Unit) :
    Except String Hud :=
  match handleAction.target s.dom event with
  | none => Except.error "TypeError: target is undefined"
  | some target =>
    match outcome with
    | Except.ok _ =>
      Except.ok
        { s with effects := s.effects ++ [Effect.handleActionEvent target, Effect.blur target] }
    | Except.error _ =>
      Except.ok
        { s with effects := s.effects ++ [Effect.handleActionEvent target, Effect.error "event"] }

/-- The method `isValidActorOrItemUpdate`; `dataFlags` tells whether
`data?.flags` is truthy.  The result `none` is `undefined`, the value of a call
that ends without a `return`. -/
def isValidActorOrItemUpdate (s : Hud) (actor : Option Actor) (dataFlags : Bool) : Option Bool :=
  if dataFlags then some false
  else if actor.isSome then
    if !actor.isSome then some true
    else if
      (match s.hud, actor with
       | some hud, some a => hud.actorId == some a.id
       | _, _ => false)
    then some true
    else some false
  else none

/-! ## Edit lock -/

/-- The elements `html.find('.c')`, in document order. -/
def Dom.findClass (d : Dom) (c : String) : List Nat :=
  (List.range d.length).filter (fun j => Dom.hasClass d j c)

/-- The elements `html.find('#id')`, in document order. -/
def Dom.findId (d : Dom) (id : String) : List Nat :=
  (List.range d.length).filter (fun j => Dom.idOf d j == id)

/-- The element sets collected by `activateListeners` that the lock and unlock
handlers use. -/
structure Elements where
  groups : List Nat
  editHudButton : List Nat
  listGroups : List Nat
  group : List Nat
  subtitle : List Nat
  groupButton : List Nat
  tabGroup : List Nat
  unlockButton : List Nat
  lockButton : List Nat
deriving DecidableEq, Repr

/-- The object `elements` of `activateListeners` for the rendered document. -/
def activateListeners.elements (d : Dom) : Elements :=
  { groups := Dom.findId d "tah-groups"
    editHudButton := Dom.findId d "tah-edit-hud"
    listGroups := Dom.findClass d "tah-list-groups"
    group := Dom.findClass d "tah-group"
    subtitle := Dom.findClass d "tah-subtitle"
    groupButton := Dom.findClass d "tah-group-button"
    tabGroup := Dom.findClass d "tah-tab-group"
    unlockButton := Dom.findId d "tah-unlock"
    lockButton := Dom.findId d "tah-lock" }

/-- The document after `$(set).addClass(c)`. -/
def Dom.addClassAll (d : Dom) (set : List Nat) (c : String) : Dom :=
  set.foldl (fun d1 j => Dom.addClass d1 j c) d

/-- The document after `$(set).removeClass(c)`. -/
def Dom.removeClassAll (d : Dom) (set : List Nat) (c : String) : Dom :=
  set.foldl (fun d1 j => Dom.removeClass d1 j c) d

/-- The test `element.getElementsByClassName('tah-action').length > 0`. -/
def Dom.hasActions (d : Dom) (element : Nat) : Bool :=
  !(Dom.querySelectorAll d element "tah-action").isEmpty

/-- A loop of `lockHud` that hides the elements of a set without actions. -/
def lockHud.hideEmpty (d : Dom) (set : List Nat) : Dom :=
  set.foldl
    (fun d1 element =>
      if !Dom.hasActions d1 element then Dom.addClass d1 element "tah-hidden" else d1)
    d

/-- The attribute `element.dataset.showTitle`. -/
def Dom.showTitleOf (d : Dom) (i : Nat) : Option String :=
  match d[i]? with
  | some n => n.showTitle
  | none => none

/-- The test of the subtitle loop of `lockHud`:
`subtitleElement.closest('.tah-group')?.dataset?.showTitle === 'false'`. -/
def lockHud.titleHidden (d : Dom) (subtitleElement : Nat) : Bool :=
  match Dom.closest d subtitleElement "tah-group" with
  | some groupElement => Dom.showTitleOf d groupElement == some "false"
  | none => false

/-- The loop of `lockHud` over the subtitles. -/
def lockHud.hideSubtitles (d : Dom) (set : List Nat) : Dom :=
  set.foldl
    (fun d1 subtitleElement =>
      if lockHud.titleHidden d1 subtitleElement then
        Dom.addClass d1 subtitleElement "tah-hidden"
      else d1)
    d

/-- The changes `lockHud` makes to the document; `eventTarget` is
`event.target` when the handler is called with an event. -/
def lockHud.dom (d : Dom) (elements : Elements) (eventTarget : Option Nat) : Dom :=
  let target : List Nat :=
    match eventTarget with
    | some t => [t]
    | none => elements.lockButton
  let d1 := Dom.addClassAll d target "tah-hidden"
  let d2 := Dom.removeClassAll d1 elements.unlockButton "tah-hidden"
  let d3 := Dom.addClassAll d2 elements.editHudButton "tah-hidden"
  let d4 := Dom.removeClassAll d3 elements.groups "tah-unlocked"
  let d5 := lockHud.hideEmpty d4 elements.tabGroup
  let d6 := lockHud.hideEmpty d5 elements.group
  let d7 := lockHud.hideEmpty d6 elements.listGroups
  let d8 := lockHud.hideSubtitles d7 elements.subtitle
  let d9 := Dom.addClassAll d8 elements.groupButton "disable-edit"
  Dom.addClassAll d9 elements.subtitle "disable-edit"

/-- The handler `lockHud` of `_bindLockUnlockButtons`, the write of the user
flag taken as done. -/
def lockHud (s : Hud) (elements : Elements) (eventTarget : Option Nat) : Hud :=
  let s1 : Hud := { s with dom := lockHud.dom s.dom elements eventTarget }
  if s1.isUnlocked then
    { s1 with
      isUnlocked := false
      effects := s1.effects ++ [Effect.setUserFlag "isUnlocked" false] }
  else s1

/-- The changes `unlockHud` makes to the document; `eventTarget` is
`event.target` when the handler is called with an event. -/
def unlockHud.dom (d : Dom) (elements : Elements) (eventTarget : Option Nat) : Dom :=
  let target : List Nat :=
    match eventTarget with
    | some t => [t]
    | none => elements.unlockButton
  let d1 := Dom.addClassAll d target "tah-hidden"
  let d2 := Dom.removeClassAll d1 elements.editHudButton "tah-hidden"
  let d3 := Dom.removeClassAll d2 elements.group "tah-hidden"
  let d4 := Dom.removeClassAll d3 elements.groupButton "disable-edit"
  let d5 := Dom.addClassAll d4 elements.groups "tah-unlocked"
  let d6 := Dom.removeClassAll d5 elements.listGroups "tah-hidden"
  let d7 := Dom.removeClassAll d6 elements.lockButton "tah-hidden"
  let d8 := Dom.removeClassAll d7 elements.tabGroup "tah-hidden"
  let d9 := Dom.removeClassAll d8 elements.subtitle "disable-edit"
  Dom.removeClassAll d9 elements.subtitle "tah-hidden"

/-- The handler `unlockHud` of `_bindLockUnlockButtons`, the write of the user
flag taken as done. -/
def unlockHud (s : Hud) (elements : Elements) (eventTarget : Option Nat) : Hud :=
  let s1 : Hud := { s with dom := unlockHud.dom s.dom elements eventTarget }
  if !s1.isUnlocked then
    { s1 with
      isUnlocked := true
      effects := s1.effects ++ [Effect.setUserFlag "isUnlocked" true] }
  else s1

/-- Whether an element is a top-level group, a group or a list of groups. -/
def Dom.isGroupElement (d : Dom) (j : Nat) : Bool :=
  Dom.hasClass d j "tah-tab-group" || Dom.hasClass d j "tah-group" ||
    Dom.hasClass d j "tah-list-groups"

/-! ## Restoration of the hovered groups -/

/-- The element `groupElement.find('.c')[0]` for a single element. -/
def Dom.findFirst (d : Dom) (element : Nat) (c : String) : Option Nat :=
  (Dom.querySelectorAll d element c).head?

/-- Whether a character is in the class `[\w-]` of a JavaScript regular
expression: an ASCII letter or digit, `_` or `-`. -/
def isWordOrHyphen (c : Char) : Bool :=
  c.isAlphanum || c == '_' || c == '-'

/-- Whether `#` followed by `id` matches `#([\w-]+)`, the quick expression of
jQuery: for such a selector `$` looks the element up with
`document.getElementById`. -/
def isQuickId (id : String) : Bool :=
  !id.data.isEmpty && id.data.all isWordOrHyphen

/-- The call `$('#' + groupId)` of `_restoreHoveredGroups`: the list of the
selected elements.  For an id of the form `[\w-]+` this is the first element
with that id, if any.  For the empty id the selector is `#`, which is no
selector: jQuery throws.  Any other selector goes to the selector engine of
jQuery, `find`, which is not part of this repository: it is a parameter. -/
def jQuery (find : Dom → String → Except String (List Nat)) (d : Dom) (groupId : String) :
    Except String (List Nat) :=
  if isQuickId groupId then
    match Dom.getElementById d groupId with
    | some element => Except.ok [element]
    | none => Except.ok []
  else if groupId = "" then Except.error "Syntax error, unrecognized expression: #"
  else find d ("#" ++ groupId)

/-- The element `groupElement.find('.c')[0]`: the first, in document order, of
the elements with class `c` inside one of the selected elements. -/
def jQuery.findFirst (d : Dom) (groupElement : List Nat) (c : String) : Option Nat :=
  ((List.range d.length).filter
    (fun j => groupElement.any (fun element => decide (j ∈ Dom.querySelectorAll d element c)))).head?

/-- The first `fuel` elements of the chain that starts at an element and goes
from each element to its parent. -/
def Dom.pathFrom (d : Dom) : Nat → Nat → List Nat
  | 0, _ => []
  | fuel + 1, j =>
    j :: (match Dom.parentElement d j with
          | none => []
          | some p => Dom.pathFrom d fuel p)

/-- The path along which an event dispatched at `element` bubbles: the element,
then its ancestors from the nearest one up.  A chain of ancestors has no more
elements than the document. -/
def Dom.eventPath (d : Dom) (element : Nat) : List Nat :=
  Dom.pathFrom d d.length element

/-- The state of the loop of `_restoreHoveredGroups`. -/
structure _restoreHoveredGroups.State where
  /-- The entries of the array object that the loop iterates. -/
  array : List String
  /-- The HUD. -/
  hud : Hud
deriving DecidableEq, Repr

/-- The listeners `handler` of one element run while the loop iterates the
array object `arrayId`.  As long as `hoveredGroups` still holds that object the
iterated array has the entries of the field, the pushed ones included; once the
field has been assigned another array, the iterated one keeps the entries it
had before these listeners ran (a listener that creates a new array does so
before it pushes). -/
def _restoreHoveredGroups.listener (arrayId : Nat) (handler : Hud → Nat → Hud)
    (st : _restoreHoveredGroups.State) (element : Nat) : _restoreHoveredGroups.State :=
  { array :=
      if (handler st.hud element).hoveredGroupsId = arrayId
      then (handler st.hud element).hoveredGroups else st.array
    hud := handler st.hud element }

/-- The call `groupElement.mouseenter()` of jQuery: the event is triggered on
each selected element in turn, and a triggered event bubbles: it runs the
hover listener of the element, then that of each enclosing element, from the
nearest one up.  The listeners are those bound by `elements.tabGroup.hover`. -/
def _restoreHoveredGroups.mouseenter (arrayId : Nat) (st : _restoreHoveredGroups.State)
    (groupElement : List Nat) : _restoreHoveredGroups.State :=
  groupElement.foldl
    (fun st1 element =>
      (Dom.eventPath st1.hud.dom element).foldl
        (_restoreHoveredGroups.listener arrayId TokenActionHud.mouseenter) st1)
    st

/-- The call `button.click()`: the click event is dispatched at the button and
bubbles: it runs the `click` listeners of the button, then those of each
enclosing element, from the nearest one up.  The listeners followed are those
bound to the group buttons; the `click` listeners that `activateListeners`
binds to the other controls (`Dom.hasControlListener`) are not. -/
def _restoreHoveredGroups.click (arrayId : Nat) (st : _restoreHoveredGroups.State)
    (button : Nat) : _restoreHoveredGroups.State :=
  (Dom.eventPath st.hud.dom button).foldl
    (_restoreHoveredGroups.listener arrayId clickGroupButton) st

/-- The body of the loop of `_restoreHoveredGroups` for one identifier.  An
error is the one thrown by `$`, or the `TypeError` raised by `button.click()`
when no selected element has a button inside. -/
def _restoreHoveredGroups.body (find : Dom → String → Except String (List Nat)) (arrayId : Nat)
    (st : _restoreHoveredGroups.State) (groupId : String) :
    Except String _restoreHoveredGroups.State :=
  match jQuery find st.hud.dom groupId with
  | Except.error e => Except.error e
  | Except.ok groupElement =>
    match groupElement with
    | [] => Except.ok st
    | _ :: _ =>
      if st.hud.isClickOpen then
        match jQuery.findFirst st.hud.dom groupElement "tah-group-button" with
        | none => Except.error "TypeError: button is undefined"
        | some button => Except.ok (_restoreHoveredGroups.click arrayId st button)
      else Except.ok (_restoreHoveredGroups.mouseenter arrayId st groupElement)

/-- The loop `for (const groupId of this.hoveredGroups)` of
`_restoreHoveredGroups`, from the entry `index` on, over the array object
`arrayId` that `hoveredGroups` held when the loop started.  The result is
`none` when the loop has not ended within `fuel` runs of its body. -/
def _restoreHoveredGroups.loop (find : Dom → String → Except String (List Nat)) (arrayId : Nat) :
    Nat → Nat → _restoreHoveredGroups.State → Option (Except String Hud)
  | 0, index, st =>
    match st.array[index]? with
    | none => some (Except.ok st.hud)
    | some _ => none
  | fuel + 1, index, st =>
    match st.array[index]? with
    | none => some (Except.ok st.hud)
    | some groupId =>
      match _restoreHoveredGroups.body find arrayId st groupId with
      | Except.error e => some (Except.error e)
      | Except.ok st1 => _restoreHoveredGroups.loop find arrayId fuel (index + 1) st1

/-- The method `_restoreHoveredGroups`.  The fuel is the larger of the length
of the set and 11. -/
def _restoreHoveredGroups (find : Dom → String → Except String (List Nat)) (s : Hud) :
    Option (Except String Hud) :=
  if s.hoveredGroups.length = 0 then some (Except.ok s)
  else
    _restoreHoveredGroups.loop find s.hoveredGroupsId (max s.hoveredGroups.length 11) 0
      { array := s.hoveredGroups, hud := s }

/-- The method `setPosition`, called once the HUD is rendered. -/
def setPosition (find : Dom → String → Except String (List Nat)) (s : Hud) :
    Option (Except String Hud) :=
  match s.hud with
  | none => some (Except.ok s)
  | some _ =>
    match _restoreHoveredGroups find (_setPositionFromFlag s) with
    | none => none
    | some (Except.error e) => some (Except.error e)
    | some (Except.ok s1) => some (Except.ok { s1 with rendering := false })

/-- The number of times the body of the loop of `_restoreHoveredGroups` is
run, counted along `_restoreHoveredGroups.loop`: a run that raises an error is
counted, and the count stops with the fuel. -/
def _restoreHoveredGroups.runs (find : Dom → String → Except String (List Nat)) (arrayId : Nat) :
    Nat → Nat → _restoreHoveredGroups.State → Nat
  | 0, _, _ => 0
  | fuel + 1, index, st =>
    match st.array[index]? with
    | none => 0
    | some groupId =>
      match _restoreHoveredGroups.body find arrayId st groupId with
      | Except.error _ => 1
      | Except.ok st1 => 1 + _restoreHoveredGroups.runs find arrayId fuel (index + 1) st1

/-- Two documents that differ at most in the classes `hover` and `tah-hidden`
of their elements. -/
def Dom.SameButShown (d1 d2 : Dom) : Prop :=
  Dom.SameTree d1 d2 ∧
    ∀ j y, y ≠ "hover" → y ≠ "tah-hidden" → Dom.hasClass d1 j y = Dom.hasClass d2 j y

/-- The element of the last of the identifiers `ids` that is in the document. -/
def Dom.lastPresent (d : Dom) (ids : List String) : Option Nat :=
  ids.foldl
    (fun r id =>
      match Dom.getElementById d id with
      | some e => some e
      | none => r)
    none

/-- Whether `activateListeners` binds to an element a `click` listener other
than those of the group buttons: the listeners of the actions, of the
subtitles and of the five buttons of the HUD. -/
def Dom.hasControlListener (d : Dom) (j : Nat) : Bool :=
  Dom.hasClass d j "tah-action" || Dom.hasClass d j "tah-subtitle" ||
    decide (Dom.idOf d j ∈
      ["tah-edit-hud", "tah-collapse-hud", "tah-expand-hud", "tah-unlock", "tah-lock"])

/-- A group that a click can toggle: a `.tah-tab-group` element inside a
container, whose first `.tah-group-button` is its own child, lies in no other
group button, and neither is nor lies in an element with a `click` listener
of another control. -/
def Dom.IsClickableGroup (d : Dom) (e : Nat) : Prop :=
  Dom.hasClass d e "tah-tab-group" = true ∧
    (∃ container, Dom.parentElement d e = some container) ∧
    ∃ button, Dom.findFirst d e "tah-group-button" = some button ∧
      Dom.parentElement d button = some e ∧
      (∀ a ∈ Dom.eventPath d button, Dom.hasControlListener d a = false) ∧
      ∀ a ∈ (Dom.eventPath d button).tail, Dom.hasClass d a "tah-group-button" = false

/-- A top-level group that lies in no other top-level group. -/
def Dom.IsOuterTabGroup (d : Dom) (e : Nat) : Prop :=
  Dom.hasClass d e "tah-tab-group" = true ∧
    ∀ a ∈ (Dom.eventPath d e).tail, Dom.hasClass d a "tah-tab-group" = false

/-- The state of the loop of `_restoreHoveredGroups` is coherent: the array
in `hoveredGroups` is the iterated one or a later one, and as long as it is
the iterated one the entries of the iterated array are those of the field. -/
def _restoreHoveredGroups.Coherent (arrayId : Nat) (st : _restoreHoveredGroups.State) : Prop :=
  arrayId ≤ st.hud.hoveredGroupsId ∧
    (st.hud.hoveredGroupsId = arrayId → st.hud.hoveredGroups = st.array)

/-- What one listener may do to `hoveredGroups`: leave the array it holds as it
is, push one identifier to it while it has at most 10 entries, or assign the
field a newly created array. -/
def HoveredGroupsStep (x x1 : Hud) : Prop :=
  (x1.hoveredGroupsId = x.hoveredGroupsId ∧
      (x1.hoveredGroups = x.hoveredGroups ∨
        (x.hoveredGroups.length ≤ 10 ∧ ∃ id, x1.hoveredGroups = x.hoveredGroups ++ [id]))) ∨
    x.hoveredGroupsId < x1.hoveredGroupsId

/-- The invariant of the loop of `_restoreHoveredGroups` in hover mode, started
on the HUD `s`, before the entry `i`: the document differs from that of `s` in
the classes `hover` and `tah-hidden` only; the iterated array is that of `s`
followed by identifiers pushed by the replay, each a recorded identifier that
is in the document; the open elements are those open in `s` and those of the
entries before `i`; as long as `hoveredGroups` holds the iterated array, one
identifier has been pushed for each of the entries before `i` that is in the
document; and once it holds another array, that array holds only recorded
identifiers that are in the document. -/
def _restoreHoveredGroups.HoverInv (s : Hud) (i : Nat) (st : _restoreHoveredGroups.State) :
    Prop :=
  Dom.SameButShown st.hud.dom s.dom ∧ st.hud.isClickOpen = false ∧
    _restoreHoveredGroups.Coherent s.hoveredGroupsId st ∧
    (∃ t, st.array = s.hoveredGroups ++ t ∧
      ∀ g ∈ t, g ∈ s.hoveredGroups ∧ (Dom.getElementById s.dom g).isSome = true) ∧
    (∀ j, Dom.hasClass st.hud.dom j "hover" = true ↔
      (Dom.hasClass s.dom j "hover" = true ∨
        ∃ g ∈ st.array.take i, Dom.getElementById s.dom g = some j)) ∧
    (st.hud.hoveredGroupsId = s.hoveredGroupsId →
      st.array.length = s.hoveredGroups.length +
        ((st.array.take i).filter (fun g => (Dom.getElementById s.dom g).isSome)).length) ∧
    (st.hud.hoveredGroupsId ≠ s.hoveredGroupsId →
      ∀ g ∈ st.hud.hoveredGroups,
        g ∈ s.hoveredGroups ∧ (Dom.getElementById s.dom g).isSome = true)

/-- The elements of the recorded identifiers of `s` that are in the document
are children of the one element `container`. -/
def CommonContainer (s : Hud) (container : Nat) : Prop :=
  ∀ id ∈ s.hoveredGroups, ∀ e, Dom.getElementById s.dom id = some e →
    Dom.parentElement s.dom e = some container

/-- The recorded identifiers of `s` that are not in the document. -/
def absentIds (s : Hud) : List String :=
  s.hoveredGroups.filter (fun id => (Dom.getElementById s.dom id).isNone)

/-- The invariant of the loop of `_restoreHoveredGroups` in click mode, started
on the rendering HUD `s`, before the entry `i`: the document differs from that
of `s` in the classes `hover` and `tah-hidden` only; the iterated array is
that of `s`; every open element was open in `s` or is the element of an entry
before `i`; the element of the last entry before `i` that is in the document
is open, and it is the only open one when no element was open in `s` and the
recorded groups lie in one container; and when `s` records at most 11
identifiers and the recorded groups lie in one container, `hoveredGroups`
holds what it held in `s`, or the recorded identifiers that are not in the
document followed by one that is. -/
def _restoreHoveredGroups.ClickInv (s : Hud) (i : Nat) (st : _restoreHoveredGroups.State) :
    Prop :=
  Dom.SameButShown st.hud.dom s.dom ∧ st.hud.isClickOpen = true ∧ st.hud.rendering = true ∧
    _restoreHoveredGroups.Coherent s.hoveredGroupsId st ∧
    st.array = s.hoveredGroups ∧
    (∀ j, Dom.hasClass st.hud.dom j "hover" = true →
      (Dom.hasClass s.dom j "hover" = true ∨
        ∃ g ∈ s.hoveredGroups.take i, Dom.getElementById s.dom g = some j)) ∧
    (∀ e, Dom.lastPresent s.dom (s.hoveredGroups.take i) = some e →
      Dom.hasClass st.hud.dom e "hover" = true) ∧
    ((∀ j, Dom.hasClass s.dom j "hover" = false) →
      ∀ c, CommonContainer s c →
        ∀ j, Dom.hasClass st.hud.dom j "hover" = true →
          Dom.lastPresent s.dom (s.hoveredGroups.take i) = some j) ∧
    (s.hoveredGroups.length ≤ 11 →
      ∀ c, CommonContainer s c →
        (st.hud.hoveredGroups = s.hoveredGroups ∨
          ∃ g ∈ s.hoveredGroups, (Dom.getElementById s.dom g).isSome = true ∧
            st.hud.hoveredGroups = absentIds s ++ [g]))

/-! ## Sample data -/

/-- An actor owned by the acting user. -/
def sampleActor : Actor := { id := "A1", name := "Hero", isOwner := true }

/-- An actor the acting user does not own. -/
def foreignActor : Actor := { id := "A2", name := "Ogre", isOwner := false }

/-- A token of the owned actor. -/
def sampleToken : Token := { id := "T1", name := "Hero token", actor := some sampleActor }

/-- A token of the foreign actor. -/
def foreignToken : Token := { id := "T2", name := "Ogre token", actor := some foreignActor }

/-- A row of two top-level groups in one container, each with its button; the
second group is hidden. -/
def sampleDom : Dom :=
  [ { id := "tah-groups", classes := ["tah-groups"], parent := none },
    { id := "group-weapons", classes := ["tah-tab-group", "tah-group"], parent := some 0 },
    { id := "", classes := ["tah-group-button"], parent := some 1 },
    { id := "group-spells", classes := ["tah-tab-group", "tah-group", "tah-hidden"],
      parent := some 0 },
    { id := "", classes := ["tah-group-button"], parent := some 3 } ]

/-- A HUD in hover mode showing the sample row. -/
def sampleHover : Hud := { isHudEnabled := true, isClickOpen := false, dom := sampleDom }

/-- A HUD in hover mode showing the sample row with both groups visible. -/
def sampleHoverVisible : Hud :=
  { sampleHover with dom := Dom.removeClass sampleDom 3 "tah-hidden" }

/-- A HUD in click mode showing the sample row. -/
def sampleClick : Hud := { isHudEnabled := true, isClickOpen := true, dom := sampleDom }

/-- Ten identifiers. -/
def tenGroups : List String :=
  ["g0", "g1", "g2", "g3", "g4", "g5", "g6", "g7", "g8", "g9"]

/-- A HUD with ten groups recorded as open. -/
def sampleTen : Hud := { hoveredGroups := tenGroups }

/-- A mounted HUD frame in a viewport of 1600 by 1000 pixels. -/
def sampleMounted : Hud :=
  { dom := [{ id := "token-action-hud", classes := [], parent := none }]
    innerHeight := 1000
    innerWidth := 1600 }

/-- A HUD that can be dragged. -/
def sampleDraggable : Hud := { sampleMounted with isDraggable := true }

/-- The drag started with the pointer at (200, 100) on a frame at top 80,
left 150. -/
def sampleDrag : Drag :=
  { pos1 := 0, pos2 := 0, pos3 := 200, pos4 := 100
    originalElementTop := 80, originalElementLeft := 150
    newElementTop := 80, newElementLeft := 150 }

/-- An action element with its button. -/
def sampleActionDom : Dom :=
  [ { id := "tah-groups", classes := ["tah-groups"], parent := none },
    { id := "", classes := ["tah-action"], parent := some 0 },
    { id := "", classes := ["tah-action-button"], parent := some 1, tagName := "BUTTON" } ]

/-- A HUD showing the sample action. -/
def sampleAction : Hud := { dom := sampleActionDom }

/-- A top-level group holding a group with one action and an empty sibling
group, with the lock and unlock buttons. -/
def sampleLockDom : Dom :=
  [ { id := "tah-groups", classes := ["tah-groups"], parent := none },
    { id := "group-weapons", classes := ["tah-tab-group"], parent := some 0 },
    { id := "", classes := ["tah-group-button"], parent := some 1, tagName := "BUTTON" },
    { id := "weapons-melee", classes := ["tah-group"], parent := some 1 },
    { id := "", classes := ["tah-action"], parent := some 3 },
    { id := "weapons-ranged", classes := ["tah-group"], parent := some 1 },
    { id := "tah-lock", classes := [], parent := none, tagName := "BUTTON" },
    { id := "tah-unlock", classes := ["tah-hidden"], parent := none, tagName := "BUTTON" } ]

/-- An unlocked HUD showing the sample tree with the empty group. -/
def sampleUnlocked : Hud := { isUnlocked := true, isCustomizationEnabled := true, dom := sampleLockDom }

/-- A new tree that holds the group 'group-spells' only. -/
def sampleSpellsDom : Dom :=
  [ { id := "tah-groups", classes := ["tah-groups"], parent := none },
    { id := "group-spells", classes := ["tah-tab-group", "tah-group"], parent := some 0 },
    { id := "", classes := ["tah-group-button"], parent := some 1, tagName := "BUTTON" } ]

/-- A HUD just rendered with the tree of spells, in hover mode, while
'group-weapons' is recorded as open. -/
def sampleStale : Hud :=
  { rendering := true
    hud := some { length := 1 }
    dom := sampleSpellsDom
    hoveredGroups := ["group-weapons"] }

/-- A HUD just rendered with the sample row, both groups visible, while both
are recorded as open. -/
def sampleBoth : Hud :=
  { rendering := true
    hud := some { length := 2 }
    dom := Dom.removeClass sampleDom 3 "tah-hidden"
    hoveredGroups := ["group-weapons", "group-spells"] }

/-- The HUD of `sampleBoth` in click mode. -/
def sampleBothClick : Hud := { sampleBoth with isClickOpen := true }

/-- A selector engine that selects nothing. -/
def sampleFind : Dom → String → Except String (List Nat) := fun _ _ => Except.ok []

/-- A row with the top-level group 'g-inner' inside the top-level group
'g-outer'. -/
def sampleNestedDom : Dom :=
  [ { id := "tah-groups", classes := ["tah-groups"], parent := none },
    { id := "g-outer", classes := ["tah-tab-group", "tah-group"], parent := some 0 },
    { id := "", classes := ["tah-group-button"], parent := some 1 },
    { id := "g-inner", classes := ["tah-tab-group", "tah-group"], parent := some 1 },
    { id := "", classes := ["tah-group-button"], parent := some 3 } ]

/-- A HUD just rendered with the nested row, in hover mode, while 'g-inner' is
recorded as open. -/
def sampleNested : Hud :=
  { rendering := true
    hud := some { length := 1 }
    dom := sampleNestedDom
    hoveredGroups := ["g-inner"] }

/-- A HUD just rendered with the sample row, in hover mode, while the empty
identifier is recorded. -/
def sampleEmptyId : Hud :=
  { rendering := true
    hud := some { length := 2 }
    dom := sampleDom
    hoveredGroups := [""] }

/-- A HUD just rendered with the tree of spells, in hover mode, while
'group-weapons' and 'group-spells' are recorded as open. -/
def sampleMixed : Hud := { sampleStale with hoveredGroups := ["group-weapons", "group-spells"] }

/-- The HUD of `sampleMixed` in click mode. -/
def sampleMixedClick : Hud := { sampleMixed with isClickOpen := true }

/-- An enabled, idle HUD with the owned token selected. -/
def sampleIdle : Hud := { isHudEnabled := true, controlledTokens := [sampleToken] }

/-- The sample HUD with the owned and the foreign token both selected. -/
def sampleMultiple : Hud := { sampleIdle with controlledTokens := [sampleToken, foreignToken] }

/-- The sample HUD with one group recorded as open. -/
def sampleOpen : Hud := { sampleIdle with hoveredGroups := ["group-weapons"] }

/-- The sample HUD once its first rebuild waits for the action source. -/
def sampleInFlight : Hud :=
  run sampleIdle [Event.update (Trigger.text "controlToken"), Event.timerElapsed]

/-- A tree with one entry. -/
def sampleTree : HudTree := { length := 1, actorId := some "A1", tokenId := some "T1" }

/-- A HUD showing the tree of the owned actor. -/
def sampleShown : Hud := { sampleIdle with hud := some sampleTree }

/-! ## Theorems: the scheduler -/

/-- C1: while `isUpdating` is set, a call to `update` / `_updateHud` returns at
once and changes nothing: the whole state is the same afterwards, so the
debounce timer is not touched, no rebuild is started, and `isUpdating`,
`isUpdatePending`, the `hud` snapshot and `hoveredGroups` are unchanged. -/
theorem update_is_noop_while_updating (s : Hud) (trigger : Trigger)
    (h : s.isUpdating = true) :
    update s trigger = s ∧ _updateHud s trigger = s ∧
      step s (Event.update trigger) = s ∧
      (update s trigger).updateTimer = s.updateTimer ∧
      (update s trigger).abortWaiters = s.abortWaiters ∧
      rebuilds (update s trigger) = rebuilds s ∧
      (update s trigger).buildWaiters = s.buildWaiters ∧
      (update s trigger).isUpdating = s.isUpdating ∧
      (update s trigger).isUpdatePending = s.isUpdatePending ∧
      (update s trigger).hud = s.hud ∧
      (update s trigger).hoveredGroups = s.hoveredGroups := by
  have h1 : _updateHud s trigger = s := by simp [_updateHud, h]
  have h2 : update s trigger = s := by simp [update, h1]
  have h3 : step s (Event.update trigger) = s := by simp [step, h2]
  simp [h1, h2, h3]

/-- C1, at the sample HUD whose first rebuild is waiting for the action source. -/
theorem update_is_noop_while_updating_witness :
    sampleInFlight.isUpdating = true ∧
      update sampleInFlight Trigger.null = sampleInFlight :=
  ⟨by decide, (update_is_noop_while_updating sampleInFlight Trigger.null (by decide)).1⟩

/-- Draining an empty microtask queue changes nothing. -/
theorem drain_of_no_waiters (s : Hud) (hw : s.abortWaiters = []) : drain s = s := by
  cases s
  simp_all [drain]

/-- With no live timer and no waiter, an elapsing window or a drain of the
microtask queue changes nothing. -/
theorem step_quiet_of_quiescent (s : Hud) (e : Event)
    (hq : s.updateTimer.live = none) (hw : s.abortWaiters = [])
    (he : e = Event.timerElapsed ∨ e = Event.microtasks) : step s e = s := by
  rcases he with rfl | rfl
  · simp [step, drain_of_no_waiters s hw, hq]
  · simp [step, drain_of_no_waiters s hw]

/-- A run of quiet events from a quiescent state changes nothing. -/
theorem run_quiet_of_quiescent (quiet : List Event) (s : Hud)
    (hq : s.updateTimer.live = none) (hw : s.abortWaiters = [])
    (hquiet : ∀ e ∈ quiet, e = Event.timerElapsed ∨ e = Event.microtasks) :
    run s quiet = s := by
  induction quiet with
  | nil => rfl
  | cons e es ih =>
    have he := step_quiet_of_quiescent s e hq hw (hquiet e (List.mem_cons_self e es))
    have hes : ∀ x ∈ es, x = Event.timerElapsed ∨ x = Event.microtasks :=
      fun x hx => hquiet x (List.mem_cons_of_mem e hx)
    simp only [run, List.foldl_cons, he] at ih ⊢
    exact ih hes

/-- Requests made while `isUpdating` is set are all dropped. -/
theorem run_updates_while_updating (triggers : List Trigger) (s : Hud)
    (h : s.isUpdating = true) : run s (triggers.map Event.update) = s := by
  induction triggers with
  | nil => rfl
  | cons t ts ih =>
    have ht : step s (Event.update t) = s := by simp [step, update, _updateHud, h]
    simpa [run, ht] using ih

/-- The run of a concatenation. -/
theorem run_append (s : Hud) (es fs : List Event) : run s (es ++ fs) = run (run s es) fs := by
  simp [run, List.foldl_append]

/-- Completing a rebuild starts no rebuild and schedules nothing. -/
theorem complete_facts (s : Hud) (result : Except String HudTree) :
    rebuilds (_updateHud.complete s result).1 = rebuilds s ∧
      (_updateHud.complete s result).1.updateTimer = s.updateTimer ∧
      (_updateHud.complete s result).1.abortWaiters = s.abortWaiters ∧
      (∀ hud, result = Except.ok hud → (_updateHud.complete s result).1.isUpdating = false) := by
  cases result with
  | error e => simp [_updateHud.complete]
  | ok hud =>
    by_cases hl : hud.length = 0 <;>
      simp [_updateHud.complete, hl, rebuilds, List.countP_append, Effect.isRebuildStart]

/-- C2, as the code has it: for every N >= 1, the N update requests issued while
a rebuild is in flight (`isUpdating` set, the call waiting for the action
source) are all dropped, and they cause no additional rebuild: when the
in-flight rebuild has completed and the event loop has gone quiet, the number
of rebuilds started is what it was before the requests. -/
theorem updates_while_updating_cause_no_rebuild (s : Hud) (triggers : List Trigger)
    (result : Except String HudTree) (quiet : List Event)
    (_hN : 1 ≤ triggers.length)
    (h : s.isUpdating = true) (hb : s.buildWaiters = 1)
    (hq : s.updateTimer.live = none) (hw : s.abortWaiters = [])
    (hquiet : ∀ e ∈ quiet, e = Event.timerElapsed ∨ e = Event.microtasks) :
    run s (triggers.map Event.update) = s ∧
      rebuilds (run s (triggers.map Event.update ++ Event.buildHudSettled result :: quiet))
        = rebuilds s ∧
      (∀ hud, result = Except.ok hud →
        (run s (triggers.map Event.update ++ Event.buildHudSettled result :: quiet)).isUpdating
          = false) := by
  have hdrop := run_updates_while_updating triggers s h
  have hc := complete_facts { s with buildWaiters := s.buildWaiters - 1 } result
  obtain ⟨hc1, hc2, hc3, hc4⟩ := hc
  have hstep : step s (Event.buildHudSettled result) =
      (match _updateHud.complete { s with buildWaiters := s.buildWaiters - 1 } result with
        | (s2, Except.ok _) => s2
        | (s2, Except.error e) =>
          { s2 with effects := s2.effects ++ [Effect.unhandledRejection e] }) := by
    simp [step, drain_of_no_waiters s hw, hb]
  have hfacts : rebuilds (step s (Event.buildHudSettled result)) = rebuilds s ∧
      (step s (Event.buildHudSettled result)).updateTimer.live = none ∧
      (step s (Event.buildHudSettled result)).abortWaiters = [] ∧
      (∀ hud, result = Except.ok hud →
        (step s (Event.buildHudSettled result)).isUpdating = false) := by
    rw [hstep]
    generalize hout : _updateHud.complete { s with buildWaiters := s.buildWaiters - 1 } result
      = out at hc1 hc2 hc3 hc4
    obtain ⟨s2, r2⟩ := out
    cases r2 with
    | ok u =>
      simp only at hc1 hc2 hc3 hc4 ⊢
      refine ⟨by simpa [rebuilds] using hc1, by simp [hc2, hq], by simp [hc3, hw], hc4⟩
    | error e =>
      simp only at hc1 hc2 hc3 hc4 ⊢
      refine ⟨?_, by simp [hc2, hq], by simp [hc3, hw], ?_⟩
      · have : rebuilds s2 = rebuilds s := by simpa [rebuilds] using hc1
        simpa [rebuilds, List.countP_append, Effect.isRebuildStart] using this
      · intro hud hres
        exact hc4 hud hres
  obtain ⟨hf1, hf2, hf3, hf4⟩ := hfacts
  have hrun : run s (triggers.map Event.update ++ Event.buildHudSettled result :: quiet)
      = step s (Event.buildHudSettled result) := by
    rw [run_append, hdrop]
    show run (step s (Event.buildHudSettled result)) quiet = _
    exact run_quiet_of_quiescent quiet _ hf2 hf3 hquiet
  refine ⟨hdrop, ?_, ?_⟩
  · rw [hrun]; exact hf1
  · rw [hrun]; exact hf4

/-- C2, at the sample HUD: three requests during its first rebuild. -/
theorem updates_while_updating_cause_no_rebuild_witness :
    rebuilds (run sampleInFlight
        ([Trigger.null, Trigger.text "controlToken", Trigger.null].map Event.update ++
          Event.buildHudSettled (Except.ok sampleTree) :: [Event.timerElapsed, Event.microtasks]))
      = rebuilds sampleInFlight :=
  (updates_while_updating_cause_no_rebuild sampleInFlight
    [Trigger.null, Trigger.text "controlToken", Trigger.null] (Except.ok sampleTree)
    [Event.timerElapsed, Event.microtasks] (by decide) (by decide) (by decide) (by decide)
    (by decide) (by simp)).2.1

/-- C2 as stated fails: one update request issued while the sample rebuild is
in flight is followed by no additional rebuild, not by exactly one. -/
theorem one_update_while_updating_not_one_more_rebuild :
    sampleInFlight.isUpdating = true ∧
      rebuilds (run sampleInFlight
          [Event.update Trigger.null, Event.buildHudSettled (Except.ok sampleTree),
           Event.timerElapsed, Event.microtasks, Event.timerElapsed])
        = rebuilds sampleInFlight ∧
      rebuilds (run sampleInFlight
          [Event.update Trigger.null, Event.buildHudSettled (Except.ok sampleTree),
           Event.timerElapsed, Event.microtasks, Event.timerElapsed])
        ≠ rebuilds sampleInFlight + 1 := by
  decide

/-- Resuming a queue of aborted calls leaves the last of them on the timer. -/
theorem foldl_schedule_last (ws : List Trigger) (z : Hud) (t : Trigger) :
    (ws ++ [t]).foldl _updateHud.schedule z =
      { z with isUpdatePending := true, updateTimer := { live := some t } } := by
  induction ws generalizing z with
  | nil => simp [_updateHud.schedule, Timer.start, Timer.abort]
  | cons w ws ih =>
    rw [List.cons_append, List.foldl_cons, ih]
    simp [_updateHud.schedule]

/-- One request of a burst, made while no rebuild is in flight: once the
microtask queue is drained, exactly this request is pending on the timer. -/
theorem request_events_pending (x : Hud) (r : Request)
    (hu : x.isUpdating = false) (hp : x.isUpdatePending = false → x.abortWaiters = []) :
    drain (run x r.events) = pendingOn x r ∧
      (run x r.events).isUpdating = false ∧
      (run x r.events).isUpdatePending = true ∧
      (∀ r2, pendingOn (run x r.events) r2 = pendingOn x r2) ∧
      (run x r.events).effects = x.effects := by
  obtain ⟨c, t, d⟩ := r
  cases hpend : x.isUpdatePending with
  | false =>
    have hw := hp hpend
    cases d <;>
      simp [run, Request.events, step, update, _updateHud, drain, _updateHud.schedule,
        pendingOn, Timer.start, Timer.abort, hu, hpend, hw]
  | true =>
    have hlast (z : Hud) : _updateHud.schedule (List.foldl _updateHud.schedule z x.abortWaiters) t
        = { z with isUpdatePending := true, updateTimer := { live := some t } } := by
      have := foldl_schedule_last x.abortWaiters z t
      simpa [List.foldl_append] using this
    cases d <;>
      simp [run, Request.events, step, update, _updateHud, drain,
        pendingOn, Timer.abort, hu, hpend, hlast]

/-- The tail of `_getCharacter` makes no collaborator call and leaves the
scheduler fields alone. -/
theorem getCharacter_finish_frame (s : Hud) (character : Character) :
    (_getCharacter.finish s character).2.effects = s.effects ∧
      (_getCharacter.finish s character).2.isHudEnabled = s.isHudEnabled ∧
      (_getCharacter.finish s character).2.hoveredGroups = s.hoveredGroups ∧
      (_getCharacter.finish s character).2.isUpdating = s.isUpdating := by
  unfold _getCharacter.finish
  cases character.actor <;> simp

/-- The method `_getCharacter` makes no collaborator call and leaves the
scheduler fields alone. -/
theorem getCharacter_frame (s : Hud) (controlled : List Token) :
    (_getCharacter s controlled).2.effects = s.effects ∧
      (_getCharacter s controlled).2.isHudEnabled = s.isHudEnabled ∧
      (_getCharacter s controlled).2.hoveredGroups = s.hoveredGroups ∧
      (_getCharacter s controlled).2.isUpdating = s.isUpdating := by
  unfold _getCharacter
  split
  · simp
  · split
    · split
      · simp
      · exact getCharacter_finish_frame _ _
    · split
      · split <;> exact getCharacter_finish_frame _ _
      · exact getCharacter_finish_frame _ _

/-- The collaborator calls of the segment of `_updateHud` after the timer. -/
theorem rebuild_effects (s : Hud) (trigger : Trigger) :
    (_updateHud.rebuild s trigger).1.effects =
      s.effects ++ Effect.debug "Updating hud..." (some trigger) ::
        (match (_updateHud.rebuild s trigger).2 with
         | none =>
           [Effect.close,
            Effect.debug "Hud update aborted as no character(s) found or hud is disabled" none]
         | some saveActor => [Effect.buildHud saveActor]) := by
  have hf := (getCharacter_frame
    { s with
      isUpdatePending := false
      isUpdating := true
      effects := s.effects ++ [Effect.debug "Updating hud..." (some trigger)] }
    s.controlledTokens).1
  unfold _updateHud.rebuild
  simp only []
  split <;> simp [hf]

/-- The segment of `_updateHud` after the timer starts exactly one rebuild. -/
theorem rebuilds_rebuild (s : Hud) (trigger : Trigger) :
    rebuilds (_updateHud.rebuild s trigger).1 = rebuilds s + 1 := by
  unfold rebuilds
  rw [rebuild_effects]
  cases (_updateHud.rebuild s trigger).2 <;>
    simp [List.countP_append, List.countP_cons, Effect.isRebuildStart]

/-- After a non-empty burst of requests made while no rebuild is in flight,
once the microtask queue is drained exactly the last request is pending, and
no collaborator has been called. -/
theorem burst_pending (rs : List Request) (last : Request) (s : Hud)
    (hu : s.isUpdating = false) (hp : s.isUpdatePending = false → s.abortWaiters = []) :
    drain (run s (burst (rs ++ [last]))) = pendingOn s last ∧
      (run s (burst (rs ++ [last]))).effects = s.effects := by
  induction rs generalizing s with
  | nil =>
    have h := request_events_pending s last hu hp
    simpa [burst] using ⟨h.1, h.2.2.2.2⟩
  | cons r rs ih =>
    obtain ⟨_, h2, h3, h4, h5⟩ := request_events_pending s r hu hp
    have hrun : run s (burst (r :: rs ++ [last])) =
        run (run s r.events) (burst (rs ++ [last])) := by
      simp [burst, run_append]
    have := ih (run s r.events) h2 (by simp [h3])
    rw [hrun, this.1, this.2, h4 last, h5]
    exact ⟨rfl, rfl⟩

/-- C3: for every M >= 1, M update requests issued within one debounce window
while no rebuild is in flight (whatever the selection at each request, and
whether or not the requests share a task) produce exactly one rebuild: no
rebuild starts before the window elapses; each later request aborts the
pending timer and restarts it; when the window elapses the outcome is that
of the last request alone, one rebuild is started, and it reads the selection
as of the last request. -/
theorem burst_produces_one_rebuild (s : Hud) (rs : List Request) (last : Request)
    (hu : s.isUpdating = false) (hw : s.abortWaiters = []) :
    rebuilds (run s (burst (rs ++ [last]))) = rebuilds s ∧
      (∀ (p : Hud) (t : Trigger), p.isUpdating = false → p.isUpdatePending = true →
        (update p t).updateTimer.live = none ∧
          (drain (update p t)).updateTimer.live = some t) ∧
      drain (run s (burst (rs ++ [last]))) = pendingOn s last ∧
      run s (burst (rs ++ [last]) ++ [Event.timerElapsed])
        = step (pendingOn s last) Event.timerElapsed ∧
      run s (burst (rs ++ [last]) ++ [Event.timerElapsed])
        = run s (burst [last] ++ [Event.timerElapsed]) ∧
      (pendingOn s last).controlledTokens = last.controlled ∧
      rebuilds (run s (burst (rs ++ [last]) ++ [Event.timerElapsed])) = rebuilds s + 1 ∧
      Effect.debug "Updating hud..." (some last.trigger) ∈
        newEffects s (run s (burst (rs ++ [last]) ++ [Event.timerElapsed])) := by
  have hp : s.isUpdatePending = false → s.abortWaiters = [] := fun _ => hw
  obtain ⟨hb1, hb2⟩ := burst_pending rs last s hu hp
  obtain ⟨hl1, _⟩ := burst_pending [] last s hu hp
  have hstep (z : Hud) (hz : drain z = pendingOn s last) :
      step z Event.timerElapsed = step (pendingOn s last) Event.timerElapsed := by
    have hd : drain (pendingOn s last) = pendingOn s last :=
      drain_of_no_waiters _ rfl
    simp only [step, hz, hd]
  have hrun : run s (burst (rs ++ [last]) ++ [Event.timerElapsed])
      = step (pendingOn s last) Event.timerElapsed := by
    rw [run_append]
    exact hstep _ hb1
  have hrun1 : run s (burst [last] ++ [Event.timerElapsed])
      = step (pendingOn s last) Event.timerElapsed := by
    rw [run_append]
    exact hstep _ (by simpa using hl1)
  have hval : step (pendingOn s last) Event.timerElapsed =
      (match _updateHud.rebuild
          { pendingOn s last with updateTimer := { live := none } } last.trigger with
        | (s2, none) => s2
        | (s2, some _) => { s2 with buildWaiters := s2.buildWaiters + 1 }) := by
    have hd : drain (pendingOn s last) = pendingOn s last :=
      drain_of_no_waiters _ rfl
    simp only [step, hd]
    rfl
  refine ⟨by simp [rebuilds, hb2], ?_, hb1, hrun, by rw [hrun, hrun1], rfl, ?_, ?_⟩
  · intro p t hpu hpp
    have hd : drain (update p t) =
        { p with
          isUpdatePending := true
          updateTimer := { live := some t }
          abortWaiters := [] } := by
      have := foldl_schedule_last p.abortWaiters
        { p with updateTimer := p.updateTimer.abort, abortWaiters := [] } t
      simpa [update, _updateHud, hpu, hpp, drain] using this
    constructor
    · simp [update, _updateHud, hpu, hpp, Timer.abort]
    · rw [hd]
  · rw [hrun, hval]
    have hr := rebuilds_rebuild
      { pendingOn s last with updateTimer := { live := none } } last.trigger
    have hs : rebuilds { pendingOn s last with updateTimer := { live := none } }
        = rebuilds s := rfl
    rw [hs] at hr
    generalize _updateHud.rebuild
      { pendingOn s last with updateTimer := { live := none } } last.trigger = out at hr
    obtain ⟨s2, o⟩ := out
    cases o <;> simpa [rebuilds] using hr
  · rw [hrun, hval]
    have he := rebuild_effects
      { pendingOn s last with updateTimer := { live := none } } last.trigger
    have hs : ({ pendingOn s last with updateTimer := { live := none } } : Hud).effects
        = s.effects := rfl
    rw [hs] at he
    generalize _updateHud.rebuild
      { pendingOn s last with updateTimer := { live := none } } last.trigger = out at he
    obtain ⟨s2, o⟩ := out
    cases o <;>
    · simp only [] at he
      simp [newEffects, he]

/-- C3, at the sample HUD: three requests in one window, the last one with a
foreign token selected, give one rebuild; and a request made while the first
one is pending aborts the timer, which is restarted for it. -/
theorem burst_produces_one_rebuild_witness :
    rebuilds (run sampleIdle
        (burst ([⟨[sampleToken], Trigger.null, true⟩, ⟨[], Trigger.null, false⟩] ++
          [⟨[foreignToken], Trigger.text "controlToken", true⟩]) ++ [Event.timerElapsed]))
      = rebuilds sampleIdle + 1 ∧
    (update (update sampleIdle Trigger.null) (Trigger.text "controlToken")).updateTimer.live
      = none ∧
    (drain (update (update sampleIdle Trigger.null)
        (Trigger.text "controlToken"))).updateTimer.live
      = some (Trigger.text "controlToken") :=
  ⟨(burst_produces_one_rebuild sampleIdle
      [⟨[sampleToken], Trigger.null, true⟩, ⟨[], Trigger.null, false⟩]
      ⟨[foreignToken], Trigger.text "controlToken", true⟩ (by decide) (by decide)).2.2.2.2.2.2.1,
   ((burst_produces_one_rebuild sampleIdle [] ⟨[], Trigger.null, true⟩
      (by decide) (by decide)).2.1 (update sampleIdle Trigger.null)
      (Trigger.text "controlToken") (by decide) (by decide)).1,
   ((burst_produces_one_rebuild sampleIdle [] ⟨[], Trigger.null, true⟩
      (by decide) (by decide)).2.1 (update sampleIdle Trigger.null)
      (Trigger.text "controlToken") (by decide) (by decide)).2⟩

/-- The character found by `_getCharacter` depends on the HUD only through the
user, the always-show setting and the placed tokens. -/
theorem getCharacter_fst_congr (s s1 : Hud) (controlled : List Token)
    (hu : s1.user = s.user) (ha : s1.isAlwaysShow = s.isAlwaysShow)
    (hp : s1.placeables = s.placeables) :
    (_getCharacter s1 controlled).1 = (_getCharacter s controlled).1 := by
  unfold _getCharacter _getCharacter.finish _isValidCharacter
  rw [hu, ha, hp]
  split
  · rfl
  · split
    · split
      · rfl
      · split <;> rfl
    · split
      · split
        · rfl
        · rfl
      · rfl

/-- When the segment of `_updateHud` after the timer takes the early return. -/
theorem rebuild_returns_iff (s : Hud) (trigger : Trigger) :
    (_updateHud.rebuild s trigger).2 = none ↔
      (((_getCharacter s s.controlledTokens).1 = none ∧ s.controlledTokens.length ≤ 1) ∨
        s.isHudEnabled = false) := by
  have hc := getCharacter_fst_congr s
    { s with
      isUpdatePending := false
      isUpdating := true
      effects := s.effects ++ [Effect.debug "Updating hud..." (some trigger)] }
    s.controlledTokens rfl rfl rfl
  have hf := (getCharacter_frame
    { s with
      isUpdatePending := false
      isUpdating := true
      effects := s.effects ++ [Effect.debug "Updating hud..." (some trigger)] }
    s.controlledTokens).2.1
  unfold _updateHud.rebuild
  simp only []
  rw [hc, hf]
  cases hch : (_getCharacter s s.controlledTokens).1 <;>
    cases hen : s.isHudEnabled <;>
    by_cases hlen : s.controlledTokens.length ≤ 1 <;>
    simp [hlen]

/-- On its early return the segment of `_updateHud` after the timer has
cleared `hoveredGroups` and `isUpdating`. -/
theorem rebuild_returned_facts (s : Hud) (trigger : Trigger)
    (h : (_updateHud.rebuild s trigger).2 = none) :
    (_updateHud.rebuild s trigger).1.hoveredGroups = [] ∧
      (_updateHud.rebuild s trigger).1.isUpdating = false := by
  unfold _updateHud.rebuild at h ⊢
  simp only [] at h ⊢
  split
  · simp
  · rename_i hn
    rw [if_neg hn] at h
    simp at h

/-- When it goes on to the action source the segment of `_updateHud` after the
timer leaves `isUpdating` set. -/
theorem rebuild_suspended_facts (s : Hud) (trigger : Trigger) (saveActor : Bool)
    (h : (_updateHud.rebuild s trigger).2 = some saveActor) :
    (_updateHud.rebuild s trigger).1.isUpdating = true ∧
      (_updateHud.rebuild s trigger).1.hoveredGroups = s.hoveredGroups := by
  have hf := getCharacter_frame
    { s with
      isUpdatePending := false
      isUpdating := true
      effects := s.effects ++ [Effect.debug "Updating hud..." (some trigger)] }
    s.controlledTokens
  unfold _updateHud.rebuild at h ⊢
  simp only [] at h ⊢
  split
  · rename_i hn
    rw [if_pos hn] at h
    simp at h
  · simp [hf.2.2.2, hf.2.2.1]

/-- C4: a rebuild in which the resolver yields no subject (and it is not the
multiple-tokens case), or in which the action source returns a tree with zero
entries, closes the HUD, sets `hoveredGroups` to the empty list, does not
render, ends normally and ends with `isUpdating = false`. -/
theorem no_subject_or_empty_tree_closes (s : Hud) (trigger : Trigger)
    (result : Except String HudTree)
    (h : ((_getCharacter s s.controlledTokens).1 = none ∧ s.controlledTokens.length ≤ 1) ∨
      (∃ hud, result = Except.ok hud ∧ hud.length = 0)) :
    (_updateHud.afterTimer s trigger result).2 = Except.ok () ∧
      Effect.close ∈ newEffects s (_updateHud.afterTimer s trigger result).1 ∧
      Effect.render ∉ newEffects s (_updateHud.afterTimer s trigger result).1 ∧
      (_updateHud.afterTimer s trigger result).1.hoveredGroups = [] ∧
      (_updateHud.afterTimer s trigger result).1.isUpdating = false := by
  have he := rebuild_effects s trigger
  have hiff := rebuild_returns_iff s trigger
  have hret := rebuild_returned_facts s trigger
  unfold _updateHud.afterTimer
  generalize _updateHud.rebuild s trigger = out at he hiff hret
  obtain ⟨s1, o⟩ := out
  cases o with
  | none =>
    simp only [] at he hret ⊢
    obtain ⟨h1, h2⟩ := hret trivial
    simp [newEffects, he, h1, h2]
  | some saveActor =>
    simp only [] at he hiff ⊢
    rcases h with h | ⟨hud, rfl, hlen⟩
    · exact absurd (hiff.2 (Or.inl h)) (by simp)
    · simp [_updateHud.complete, hlen, newEffects, he]

/-- C4, at the sample HUD: with a foreign token selected (no subject), and with
the owned token selected and an empty tree. -/
theorem no_subject_or_empty_tree_closes_witness :
    (_updateHud.afterTimer { sampleIdle with controlledTokens := [foreignToken] }
        Trigger.null (Except.ok sampleTree)).1.isUpdating = false ∧
      (_updateHud.afterTimer sampleIdle Trigger.null
        (Except.ok { length := 0 })).1.hoveredGroups = [] :=
  ⟨(no_subject_or_empty_tree_closes { sampleIdle with controlledTokens := [foreignToken] }
      Trigger.null (Except.ok sampleTree) (Or.inl (by decide))).2.2.2.2,
   (no_subject_or_empty_tree_closes sampleIdle Trigger.null (Except.ok { length := 0 })
      (Or.inr ⟨{ length := 0 }, rfl, rfl⟩)).2.2.2.1⟩

/-- C5, the code at a failing action source: with the owned token selected and
a group recorded as open, a rebuild whose `buildHud` promise rejects ends by
propagating the rejection; the HUD is not closed, `hoveredGroups` is not
cleared and `isUpdating` stays set, so every later update request returns at
the guard and no rebuild ever starts again. -/
theorem buildHud_failure_wedges_scheduler :
    (_updateHud.afterTimer sampleOpen
        (Trigger.text "controlToken") (Except.error "buildHud failed")).2
      = Except.error "buildHud failed" ∧
    (_updateHud.afterTimer sampleOpen
        (Trigger.text "controlToken") (Except.error "buildHud failed")).1.isUpdating = true ∧
    (_updateHud.afterTimer sampleOpen
        (Trigger.text "controlToken") (Except.error "buildHud failed")).1.hoveredGroups
      = ["group-weapons"] ∧
    Effect.close ∉
      (_updateHud.afterTimer sampleOpen
        (Trigger.text "controlToken") (Except.error "buildHud failed")).1.effects ∧
    (run sampleInFlight [Event.buildHudSettled (Except.error "buildHud failed")]).isUpdating
      = true ∧
    Effect.unhandledRejection "buildHud failed" ∈
      (run sampleInFlight [Event.buildHudSettled (Except.error "buildHud failed")]).effects ∧
    run sampleInFlight
        [Event.buildHudSettled (Except.error "buildHud failed"), Event.update Trigger.null,
         Event.microtasks, Event.timerElapsed]
      = run sampleInFlight [Event.buildHudSettled (Except.error "buildHud failed")] ∧
    rebuilds (run sampleInFlight
        [Event.buildHudSettled (Except.error "buildHud failed"), Event.update Trigger.null,
         Event.microtasks, Event.timerElapsed])
      = rebuilds sampleInFlight := by
  refine ⟨rfl, ?_⟩
  decide

/-! ## Theorems: the character resolver -/

/-- C6: with exactly one token selected, `_getCharacter` returns a subject if
and only if the user is a GM or has OWNER permission on the token's actor, and
the token has an actor; the subject is then that token with its actor, and
otherwise the result is null. -/
theorem getCharacter_one_token (s : Hud) (token : Token) :
    ((_getCharacter s [token]).1.isSome = true ↔
        ((s.user.isGM = true ∨ ∃ actor, token.actor = some actor ∧ actor.isOwner = true) ∧
          token.actor.isSome = true)) ∧
      ((_getCharacter s [token]).1.isSome = true →
        (_getCharacter s [token]).1 = some { token := some token, actor := token.actor }) ∧
      ((_getCharacter s [token]).1.isSome = false → (_getCharacter s [token]).1 = none) := by
  obtain ⟨id, name, actor⟩ := token
  cases hgm : s.user.isGM <;> cases actor with
  | none => simp [_getCharacter, _isValidCharacter, _getCharacter.finish, hgm]
  | some a =>
    cases ho : a.isOwner <;>
      simp [_getCharacter, _isValidCharacter, _getCharacter.finish, hgm, ho]

/-- C7: with no token selected, `_getCharacter` returns a subject if and only if
the always-show setting is active and the user has a default character; the
subject's actor is then that character and its token is the first placed
token whose actor id is the character's id, or no token when there is none.
In every other zero-token case the result is null. -/
theorem getCharacter_no_token (s : Hud) :
    ((_getCharacter s []).1.isSome = true ↔
        (s.isAlwaysShow = true ∧ s.user.character.isSome = true)) ∧
      (∀ character, s.isAlwaysShow = true → s.user.character = some character →
        (_getCharacter s []).1 =
          some
            { actor := some character
              token := s.placeables.find?
                (fun t => t.actor.map (fun a => a.id) == some character.id) }) ∧
      (¬ (s.isAlwaysShow = true ∧ s.user.character.isSome = true) →
        (_getCharacter s []).1 = none) := by
  cases hc : s.user.character <;> cases ha : s.isAlwaysShow <;>
    simp [_getCharacter, _getCharacter.finish, hc, ha]

/-- C8: with more than one token selected, `_getCharacter` returns null, sets
the display name to 'Multiple' and the actor and token of the action handler
and of the roll handler to null; and with the HUD enabled the rebuild for such
a selection does not take the close path: it calls the action source and
stays suspended there with `isUpdating` set. -/
theorem getCharacter_multiple_tokens (s : Hud) (controlled : List Token) (trigger : Trigger)
    (h : controlled.length > 1) :
    (_getCharacter s controlled).1 = none ∧
      (_getCharacter s controlled).2.actionHandler.characterName = "Multiple" ∧
      (_getCharacter s controlled).2.actionHandler.actor = none ∧
      (_getCharacter s controlled).2.actionHandler.token = none ∧
      (_getCharacter s controlled).2.rollHandler.actor = none ∧
      (_getCharacter s controlled).2.rollHandler.token = none ∧
      (s.isHudEnabled = true → s.controlledTokens = controlled →
        (∃ saveActor, (_updateHud.rebuild s trigger).2 = some saveActor ∧
          newEffects s (_updateHud.rebuild s trigger).1 =
            [Effect.debug "Updating hud..." (some trigger), Effect.buildHud saveActor]) ∧
        Effect.close ∉ newEffects s (_updateHud.rebuild s trigger).1 ∧
        (_updateHud.rebuild s trigger).1.isUpdating = true ∧
        (step { s with updateTimer := { live := some trigger }, abortWaiters := [] }
          Event.timerElapsed).buildWaiters = s.buildWaiters + 1) := by
  refine ⟨by simp [_getCharacter, h], by simp [_getCharacter, h], by simp [_getCharacter, h],
    by simp [_getCharacter, h], by simp [_getCharacter, h], by simp [_getCharacter, h], ?_⟩
  intro hen hctl
  have hnot : (_updateHud.rebuild s trigger).2 ≠ none := by
    rw [Ne, rebuild_returns_iff]
    simp [hen, hctl]
    omega
  have he := rebuild_effects s trigger
  have hbw : (_updateHud.rebuild s trigger).1.buildWaiters = s.buildWaiters := by
    unfold _updateHud.rebuild
    simp [_getCharacter, hctl, h, hen]
  have hsusp := rebuild_suspended_facts s trigger
  have hstep : step { s with updateTimer := { live := some trigger }, abortWaiters := [] }
      Event.timerElapsed =
      (match _updateHud.rebuild
          { s with updateTimer := { live := none }, abortWaiters := [] } trigger with
        | (s2, none) => s2
        | (s2, some _) => { s2 with buildWaiters := s2.buildWaiters + 1 }) := by
    simp [step, drain]
  have hsame : (_updateHud.rebuild
        { s with updateTimer := { live := none }, abortWaiters := [] } trigger).2
      = (_updateHud.rebuild s trigger).2 ∧
      (_updateHud.rebuild
        { s with updateTimer := { live := none }, abortWaiters := [] } trigger).1.buildWaiters
      = s.buildWaiters := by
    unfold _updateHud.rebuild
    simp [_getCharacter, hctl, h, hen]
  rw [hstep]
  generalize _updateHud.rebuild
    { s with updateTimer := { live := none }, abortWaiters := [] } trigger = out2 at hsame
  generalize _updateHud.rebuild s trigger = out at hnot he hbw hsusp hsame
  obtain ⟨s1, o⟩ := out
  obtain ⟨s3, o3⟩ := out2
  cases o with
  | none => exact absurd rfl hnot
  | some saveActor =>
    simp only [] at he hbw hsame
    obtain ⟨hs1, hs2⟩ := hsame
    subst hs1
    refine ⟨⟨saveActor, rfl, by simp [newEffects, he]⟩, by simp [newEffects, he],
      (hsusp saveActor rfl).1, by simp [hs2]⟩

/-- C8, at the sample HUD with the owned and the foreign token both selected. -/
theorem getCharacter_multiple_tokens_witness :
    (_getCharacter sampleMultiple [sampleToken, foreignToken]).1 = none ∧
      (_getCharacter sampleMultiple [sampleToken, foreignToken]).2.actionHandler.characterName
        = "Multiple" ∧
      Effect.close ∉ newEffects sampleMultiple
        (_updateHud.rebuild sampleMultiple Trigger.null).1 ∧
      (_updateHud.rebuild sampleMultiple Trigger.null).1.isUpdating = true :=
  ⟨(getCharacter_multiple_tokens sampleMultiple [sampleToken, foreignToken] Trigger.null
      (by decide)).1,
   (getCharacter_multiple_tokens sampleMultiple [sampleToken, foreignToken] Trigger.null
      (by decide)).2.1,
   ((getCharacter_multiple_tokens sampleMultiple [sampleToken, foreignToken] Trigger.null
      (by decide)).2.2.2.2.2.2 rfl rfl).2.1,
   ((getCharacter_multiple_tokens sampleMultiple [sampleToken, foreignToken] Trigger.null
      (by decide)).2.2.2.2.2.2 rfl rfl).2.2.1⟩

/-! ## Theorems: the rendered document -/

/-- Membership in a class list after `add`. -/
theorem classList.mem_add (classes : List String) (c x : String) :
    x ∈ classList.add classes c ↔ x ∈ classes ∨ x = c := by
  unfold classList.add
  split
  · constructor
    · exact Or.inl
    · rintro (h | rfl) <;> assumption
  · simp

/-- Membership in a class list after `remove`. -/
theorem classList.mem_remove (classes : List String) (c x : String) :
    x ∈ classList.remove classes c ↔ x ∈ classes ∧ x ≠ c := by
  simp [classList.remove]

/-- An element that has a class is an element of the document. -/
theorem Dom.lt_length_of_hasClass {d : Dom} {i : Nat} {c : String}
    (h : Dom.hasClass d i c = true) : i < d.length := by
  unfold Dom.hasClass at h
  cases hi : d[i]? with
  | none => simp [hi] at h
  | some n => exact (List.getElem?_eq_some_iff.1 hi).1

/-- An element that has a parent is an element of the document. -/
theorem Dom.lt_length_of_parentElement {d : Dom} {i p : Nat}
    (h : Dom.parentElement d i = some p) : i < d.length := by
  unfold Dom.parentElement at h
  cases hi : d[i]? with
  | none => simp [hi] at h
  | some n => exact (List.getElem?_eq_some_iff.1 hi).1

/-- Changing a class list changes no length. -/
theorem Dom.length_addClass (d : Dom) (i : Nat) (c : String) :
    (Dom.addClass d i c).length = d.length := by
  simp [Dom.addClass]

/-- Changing a class list changes no length. -/
theorem Dom.length_removeClass (d : Dom) (i : Nat) (c : String) :
    (Dom.removeClass d i c).length = d.length := by
  simp [Dom.removeClass]

/-- Adding a class changes no parent. -/
theorem Dom.parentElement_addClass (d : Dom) (i : Nat) (c : String) (j : Nat) :
    Dom.parentElement (Dom.addClass d i c) j = Dom.parentElement d j := by
  unfold Dom.parentElement Dom.addClass
  rw [List.getElem?_modify]
  cases d[j]? with
  | none => rfl
  | some n => by_cases h : i = j <;> simp [h]

/-- Removing a class changes no parent. -/
theorem Dom.parentElement_removeClass (d : Dom) (i : Nat) (c : String) (j : Nat) :
    Dom.parentElement (Dom.removeClass d i c) j = Dom.parentElement d j := by
  unfold Dom.parentElement Dom.removeClass
  rw [List.getElem?_modify]
  cases d[j]? with
  | none => rfl
  | some n => by_cases h : i = j <;> simp [h]

/-- Adding a class changes no id. -/
theorem Dom.idOf_addClass (d : Dom) (i : Nat) (c : String) (j : Nat) :
    Dom.idOf (Dom.addClass d i c) j = Dom.idOf d j := by
  unfold Dom.idOf Dom.addClass
  rw [List.getElem?_modify]
  cases d[j]? with
  | none => rfl
  | some n => by_cases h : i = j <;> simp [h]

/-- Removing a class changes no id. -/
theorem Dom.idOf_removeClass (d : Dom) (i : Nat) (c : String) (j : Nat) :
    Dom.idOf (Dom.removeClass d i c) j = Dom.idOf d j := by
  unfold Dom.idOf Dom.removeClass
  rw [List.getElem?_modify]
  cases d[j]? with
  | none => rfl
  | some n => by_cases h : i = j <;> simp [h]

/-- The classes of the elements after `classList.add`. -/
theorem Dom.hasClass_addClass (d : Dom) (i : Nat) (c : String) (j : Nat) (x : String) :
    Dom.hasClass (Dom.addClass d i c) j x = true ↔
      Dom.hasClass d j x = true ∨ (i = j ∧ c = x ∧ j < d.length) := by
  unfold Dom.hasClass Dom.addClass
  rw [List.getElem?_modify]
  cases hj : d[j]? with
  | none =>
    have := List.getElem?_eq_none_iff.1 hj
    simp
    omega
  | some n =>
    have := (List.getElem?_eq_some_iff.1 hj).1
    by_cases h : i = j
    · subst h
      simp only [if_true, Option.map_eq_map, Option.map_some', classList.mem_add, decide_eq_true_eq,
        true_and, this, and_true]
      constructor
      · rintro (h | h)
        · exact Or.inl h
        · exact Or.inr h.symm
      · rintro (h | h)
        · exact Or.inl h
        · exact Or.inr h.symm
    · simp [h]

/-- The classes of the elements after `classList.remove`. -/
theorem Dom.hasClass_removeClass (d : Dom) (i : Nat) (c : String) (j : Nat) (x : String) :
    Dom.hasClass (Dom.removeClass d i c) j x = true ↔
      Dom.hasClass d j x = true ∧ ¬ (i = j ∧ c = x) := by
  unfold Dom.hasClass Dom.removeClass
  rw [List.getElem?_modify]
  cases hj : d[j]? with
  | none => simp
  | some n =>
    by_cases h : i = j
    · subst h
      simp only [if_true, Option.map_eq_map, Option.map_some', classList.mem_remove,
        decide_eq_true_eq, true_and]
      constructor
      · rintro ⟨h1, h2⟩
        exact ⟨h1, fun h => h2 h.symm⟩
      · rintro ⟨h1, h2⟩
        exact ⟨h1, fun h => h2 h.symm⟩
    · simp [h]

/-- Every document has its own tree. -/
theorem Dom.sameTree_refl (d : Dom) : Dom.SameTree d d :=
  ⟨rfl, fun _ => ⟨rfl, rfl⟩⟩

/-- Having the same tree is transitive. -/
theorem Dom.sameTree_trans {d1 d2 d3 : Dom} (h12 : Dom.SameTree d1 d2)
    (h23 : Dom.SameTree d2 d3) : Dom.SameTree d1 d3 :=
  ⟨h12.1.trans h23.1, fun j =>
    ⟨(h12.2 j).1.trans (h23.2 j).1, (h12.2 j).2.trans (h23.2 j).2⟩⟩

/-- Having the same tree is symmetric. -/
theorem Dom.sameTree_symm {d1 d2 : Dom} (h : Dom.SameTree d1 d2) : Dom.SameTree d2 d1 :=
  ⟨h.1.symm, fun j => ⟨(h.2 j).1.symm, (h.2 j).2.symm⟩⟩

/-- Adding a class keeps the tree. -/
theorem Dom.sameTree_addClass (d : Dom) (i : Nat) (c : String) :
    Dom.SameTree (Dom.addClass d i c) d :=
  ⟨Dom.length_addClass d i c, fun j =>
    ⟨Dom.parentElement_addClass d i c j, Dom.idOf_addClass d i c j⟩⟩

/-- Removing a class keeps the tree. -/
theorem Dom.sameTree_removeClass (d : Dom) (i : Nat) (c : String) :
    Dom.SameTree (Dom.removeClass d i c) d :=
  ⟨Dom.length_removeClass d i c, fun j =>
    ⟨Dom.parentElement_removeClass d i c j, Dom.idOf_removeClass d i c j⟩⟩

/-- The later siblings depend on the tree only. -/
theorem Dom.nextSiblings_congr {d1 d2 : Dom} (h : Dom.SameTree d1 d2) (i : Nat) :
    Dom.nextSiblings d1 i = Dom.nextSiblings d2 i := by
  unfold Dom.nextSiblings
  rw [(h.2 i).1, h.1]
  cases Dom.parentElement d2 i with
  | none => rfl
  | some p =>
    simp only []
    congr 1
    funext j
    rw [(h.2 j).1]

/-- The result of `closest` depends on the tree and on the class searched. -/
theorem Dom.closestFrom_congr {d1 d2 : Dom} (c : String) (h : Dom.SameTree d1 d2)
    (hc : ∀ j, Dom.hasClass d1 j c = Dom.hasClass d2 j c) (fuel i : Nat) :
    Dom.closestFrom d1 c fuel i = Dom.closestFrom d2 c fuel i := by
  induction fuel generalizing i with
  | zero => rfl
  | succ n ih =>
    unfold Dom.closestFrom
    rw [hc i, (h.2 i).1]
    split
    · rfl
    · cases Dom.parentElement d2 i with
      | none => rfl
      | some p => exact ih p

/-- The result of `closest` depends on the tree and on the class searched. -/
theorem Dom.closest_congr {d1 d2 : Dom} (c : String) (h : Dom.SameTree d1 d2)
    (hc : ∀ j, Dom.hasClass d1 j c = Dom.hasClass d2 j c) (i : Nat) :
    Dom.closest d1 i c = Dom.closest d2 i c := by
  unfold Dom.closest
  rw [h.1]
  exact Dom.closestFrom_congr c h hc _ i

/-- Whether an element lies inside another depends on the tree only. -/
theorem Dom.isInsideFrom_congr {d1 d2 : Dom} (h : Dom.SameTree d1 d2)
    (ancestor fuel j : Nat) :
    Dom.isInsideFrom d1 ancestor fuel j = Dom.isInsideFrom d2 ancestor fuel j := by
  induction fuel generalizing j with
  | zero => rfl
  | succ n ih =>
    unfold Dom.isInsideFrom
    rw [(h.2 j).1]
    cases Dom.parentElement d2 j with
    | none => rfl
    | some p => simp only [ih p]

/-- A loop that adds the class `x` to the elements of a list that have the
class `g`: the tree is kept, and an element has a class afterwards exactly
when it had it before or it is `x`, just added. -/
theorem hideLoop_spec (g x : String) (hgx : g ≠ x) (l : List Nat) (d : Dom) :
    Dom.SameTree
        (l.foldl (fun d1 k => if Dom.hasClass d1 k g then Dom.addClass d1 k x else d1) d) d ∧
      ∀ j y,
        Dom.hasClass
            (l.foldl (fun d1 k => if Dom.hasClass d1 k g then Dom.addClass d1 k x else d1) d)
            j y = true ↔
          Dom.hasClass d j y = true ∨ (y = x ∧ j ∈ l ∧ Dom.hasClass d j g = true) := by
  induction l generalizing d with
  | nil => exact ⟨Dom.sameTree_refl d, fun j y => by simp⟩
  | cons k l ih =>
    rw [List.foldl_cons]
    by_cases hk : Dom.hasClass d k g = true
    · rw [if_pos hk]
      obtain ⟨ih1, ih2⟩ := ih (Dom.addClass d k x)
      refine ⟨Dom.sameTree_trans ih1 (Dom.sameTree_addClass d k x), fun j y => ?_⟩
      rw [ih2 j y, Dom.hasClass_addClass, Dom.hasClass_addClass]
      have hlt := Dom.lt_length_of_hasClass hk
      constructor
      · rintro ((h | ⟨rfl, rfl, _⟩) | ⟨rfl, hj, (h | ⟨_, h, _⟩)⟩)
        · exact Or.inl h
        · exact Or.inr ⟨rfl, List.mem_cons_self _ _, hk⟩
        · exact Or.inr ⟨rfl, List.mem_cons_of_mem _ hj, h⟩
        · exact absurd h.symm hgx
      · rintro (h | ⟨rfl, hj, h⟩)
        · exact Or.inl (Or.inl h)
        · rcases List.mem_cons.1 hj with rfl | hj
          · exact Or.inl (Or.inr ⟨rfl, rfl, hlt⟩)
          · exact Or.inr ⟨rfl, hj, Or.inl h⟩
    · rw [if_neg hk]
      obtain ⟨ih1, ih2⟩ := ih d
      refine ⟨ih1, fun j y => ?_⟩
      rw [ih2 j y]
      constructor
      · rintro (h | ⟨rfl, hj, h⟩)
        · exact Or.inl h
        · exact Or.inr ⟨rfl, List.mem_cons_of_mem _ hj, h⟩
      · rintro (h | ⟨rfl, hj, h⟩)
        · exact Or.inl h
        · rcases List.mem_cons.1 hj with rfl | hj
          · exact absurd h hk
          · exact Or.inr ⟨rfl, hj, h⟩

/-- A loop that removes the class `x` from the elements of a list that have
the class `g`: the tree is kept, and an element has a class afterwards exactly
when it had it before and it is not `x`, just removed. -/
theorem showLoop_spec (g x : String) (hgx : g ≠ x) (l : List Nat) (d : Dom) :
    Dom.SameTree
        (l.foldl (fun d1 k => if Dom.hasClass d1 k g then Dom.removeClass d1 k x else d1) d)
        d ∧
      ∀ j y,
        Dom.hasClass
            (l.foldl (fun d1 k => if Dom.hasClass d1 k g then Dom.removeClass d1 k x else d1) d)
            j y = true ↔
          Dom.hasClass d j y = true ∧ ¬ (y = x ∧ j ∈ l ∧ Dom.hasClass d j g = true) := by
  induction l generalizing d with
  | nil => exact ⟨Dom.sameTree_refl d, fun j y => by simp⟩
  | cons k l ih =>
    rw [List.foldl_cons]
    by_cases hk : Dom.hasClass d k g = true
    · rw [if_pos hk]
      obtain ⟨ih1, ih2⟩ := ih (Dom.removeClass d k x)
      refine ⟨Dom.sameTree_trans ih1 (Dom.sameTree_removeClass d k x), fun j y => ?_⟩
      rw [ih2 j y, Dom.hasClass_removeClass, Dom.hasClass_removeClass]
      constructor
      · rintro ⟨⟨h1, h2⟩, h3⟩
        refine ⟨h1, ?_⟩
        rintro ⟨rfl, hj, hg⟩
        rcases List.mem_cons.1 hj with rfl | hj
        · exact h2 ⟨rfl, rfl⟩
        · exact h3 ⟨rfl, hj, hg, fun h => hgx h.2.symm⟩
      · rintro ⟨h1, h2⟩
        refine ⟨⟨h1, ?_⟩, ?_⟩
        · rintro ⟨rfl, rfl⟩
          exact h2 ⟨rfl, List.mem_cons_self _ _, hk⟩
        · rintro ⟨rfl, hj, hg, _⟩
          exact h2 ⟨rfl, List.mem_cons_of_mem _ hj, hg⟩
    · rw [if_neg hk]
      obtain ⟨ih1, ih2⟩ := ih d
      refine ⟨ih1, fun j y => ?_⟩
      rw [ih2 j y]
      constructor
      · rintro ⟨h1, h2⟩
        refine ⟨h1, ?_⟩
        rintro ⟨rfl, hj, hg⟩
        rcases List.mem_cons.1 hj with rfl | hj
        · exact hk hg
        · exact h2 ⟨rfl, hj, hg⟩
      · rintro ⟨h1, h2⟩
        exact ⟨h1, fun ⟨hy, hj, hg⟩ => h2 ⟨hy, List.mem_cons_of_mem _ hj, hg⟩⟩

/-- The elements a loop over the later siblings passes by are left as they are. -/
theorem siblingLoop_getElem? (g : String) (f : Dom → Nat → Dom)
    (hf : ∀ (d : Dom) (k j : Nat), k ≠ j → (f d k)[j]? = d[j]?) (l : List Nat) (d : Dom)
    (j : Nat) (hj : j ∉ l ∨ Dom.hasClass d j g = false) :
    (l.foldl (fun d1 k => if Dom.hasClass d1 k g then f d1 k else d1) d)[j]? = d[j]? := by
  induction l generalizing d with
  | nil => rfl
  | cons k l ih =>
    rw [List.foldl_cons]
    by_cases hk : Dom.hasClass d k g = true
    · rw [if_pos hk]
      have hkj : k ≠ j := by
        rintro rfl
        rcases hj with hj | hj
        · exact hj (List.mem_cons_self _ _)
        · simp [hk] at hj
      have hnode := hf d k j hkj
      rw [ih (f d k), hnode]
      rcases hj with hj | hj
      · exact Or.inl (fun h => hj (List.mem_cons_of_mem _ h))
      · right
        unfold Dom.hasClass at hj ⊢
        rw [hnode]
        exact hj
    · rw [if_neg hk]
      apply ih d
      rcases hj with hj | hj
      · exact Or.inl (fun h => hj (List.mem_cons_of_mem _ h))
      · exact Or.inr hj

/-- The later sibling groups depend on the tree and on the class `tah-group`. -/
theorem Dom.laterSiblingGroups_congr {d1 d2 : Dom} (h : Dom.SameTree d1 d2)
    (hc : ∀ j, Dom.hasClass d1 j "tah-group" = Dom.hasClass d2 j "tah-group") (group : Nat) :
    Dom.laterSiblingGroups d1 group = Dom.laterSiblingGroups d2 group := by
  unfold Dom.laterSiblingGroups
  rw [Dom.closest_congr "tah-group" h hc group]
  cases Dom.closest d2 group "tah-group" with
  | none => rfl
  | some e =>
    simp only []
    rw [Dom.nextSiblings_congr h e]
    congr 1
    funext j
    exact hc j

/-- What `openGroup` does to the document, for the element `group`: the tree
is kept; `group` gains `hover`; the later sibling groups gain `tah-hidden`;
every other element is left as it is. -/
theorem openGroup_body_dom (s : Hud) (group : Nat) :
    Dom.SameTree (openGroup.body s group).dom s.dom ∧
      (∀ j y, Dom.hasClass (openGroup.body s group).dom j y = true ↔
        (Dom.hasClass s.dom j y = true ∨ (y = "hover" ∧ j = group ∧ j < s.dom.length) ∨
          (y = "tah-hidden" ∧ j ∈ Dom.laterSiblingGroups s.dom group))) ∧
      (∀ j, j ≠ group → j ∉ Dom.laterSiblingGroups s.dom group →
        (openGroup.body s group).dom[j]? = s.dom[j]?) := by
  have ht1 := Dom.sameTree_addClass s.dom group "hover"
  have hg1 : ∀ j, Dom.hasClass (Dom.addClass s.dom group "hover") j "tah-group"
      = Dom.hasClass s.dom j "tah-group" := by
    intro j
    rw [Bool.eq_iff_iff, Dom.hasClass_addClass]
    simp
  have hcl := Dom.closest_congr "tah-group" ht1 hg1 group
  have hdom : (openGroup.body s group).dom =
      openGroup.hideSiblings (Dom.addClass s.dom group "hover")
        (Dom.closest s.dom group "tah-group") := by
    unfold openGroup.body _setHoveredGroup
    simp only [hcl]
    split <;> rfl
  rw [hdom]
  unfold Dom.laterSiblingGroups openGroup.hideSiblings
  cases hc : Dom.closest s.dom group "tah-group" with
  | none =>
    simp only []
    refine ⟨ht1, fun j y => ?_, fun j hj _ => ?_⟩
    · rw [Dom.hasClass_addClass]
      constructor
      · rintro (h | ⟨rfl, rfl, h⟩)
        · exact Or.inl h
        · exact Or.inr (Or.inl ⟨rfl, rfl, h⟩)
      · rintro (h | ⟨rfl, rfl, h⟩ | ⟨_, h⟩)
        · exact Or.inl h
        · exact Or.inr ⟨rfl, rfl, h⟩
        · simp at h
    · unfold Dom.addClass
      exact List.getElem?_modify_ne _ _ (fun h => hj h.symm)
  | some e =>
    simp only []
    obtain ⟨hs1, hs2⟩ := hideLoop_spec "tah-group" "tah-hidden" (by decide)
      (Dom.nextSiblings (Dom.addClass s.dom group "hover") e) (Dom.addClass s.dom group "hover")
    have hns := Dom.nextSiblings_congr ht1 e
    refine ⟨Dom.sameTree_trans hs1 ht1, fun j y => ?_, fun j hj hl => ?_⟩
    · rw [hs2 j y, Dom.hasClass_addClass, hg1 j, hns, List.mem_filter]
      constructor
      · rintro ((h | ⟨rfl, rfl, h⟩) | ⟨rfl, h1, h2⟩)
        · exact Or.inl h
        · exact Or.inr (Or.inl ⟨rfl, rfl, h⟩)
        · exact Or.inr (Or.inr ⟨rfl, h1, h2⟩)
      · rintro (h | ⟨rfl, rfl, h⟩ | ⟨rfl, h1, h2⟩)
        · exact Or.inl (Or.inl h)
        · exact Or.inl (Or.inr ⟨rfl, rfl, h⟩)
        · exact Or.inr ⟨rfl, h1, h2⟩
    · rw [siblingLoop_getElem? "tah-group" (fun d k => Dom.addClass d k "tah-hidden")
        (fun d k j hkj => List.getElem?_modify_ne _ _ hkj)]
      · unfold Dom.addClass
        exact List.getElem?_modify_ne _ _ (fun h => hj h.symm)
      · rw [hns, hg1 j]
        rw [List.mem_filter] at hl
        by_cases hm : j ∈ Dom.nextSiblings s.dom e
        · right
          cases hh : Dom.hasClass s.dom j "tah-group" with
          | false => rfl
          | true => exact absurd ⟨hm, hh⟩ hl
        · exact Or.inl hm

/-- What `closeGroup` does to the document, for the element `group`: the tree
is kept; `group` loses `hover`; the later sibling groups lose `tah-hidden`;
no other class of any element changes. -/
theorem closeGroup_body_dom (s : Hud) (group : Nat) :
    Dom.SameTree (closeGroup.body s group).dom s.dom ∧
      (∀ j y, Dom.hasClass (closeGroup.body s group).dom j y = true ↔
        (Dom.hasClass s.dom j y = true ∧ ¬ (y = "hover" ∧ j = group) ∧
          ¬ (y = "tah-hidden" ∧ j ∈ Dom.laterSiblingGroups s.dom group))) := by
  have ht1 := Dom.sameTree_removeClass s.dom group "hover"
  have hg1 : ∀ j, Dom.hasClass (Dom.removeClass s.dom group "hover") j "tah-group"
      = Dom.hasClass s.dom j "tah-group" := by
    intro j
    rw [Bool.eq_iff_iff, Dom.hasClass_removeClass]
    simp
  have hcl := Dom.closest_congr "tah-group" ht1 hg1 group
  have hdom : (closeGroup.body s group).dom =
      closeGroup.showSiblings (Dom.removeClass s.dom group "hover")
        (Dom.closest s.dom group "tah-group") := by
    unfold closeGroup.body _clearHoveredGroup
    simp only [hcl]
  rw [hdom]
  unfold Dom.laterSiblingGroups closeGroup.showSiblings
  cases hc : Dom.closest s.dom group "tah-group" with
  | none =>
    simp only []
    refine ⟨ht1, fun j y => ?_⟩
    rw [Dom.hasClass_removeClass]
    constructor
    · rintro ⟨h1, h2⟩
      exact ⟨h1, fun h => h2 ⟨h.2.symm, h.1.symm⟩, by simp⟩
    · rintro ⟨h1, h2, _⟩
      exact ⟨h1, fun h => h2 ⟨h.2.symm, h.1.symm⟩⟩
  | some e =>
    simp only []
    obtain ⟨hs1, hs2⟩ := showLoop_spec "tah-group" "tah-hidden" (by decide)
      (Dom.nextSiblings (Dom.removeClass s.dom group "hover") e)
      (Dom.removeClass s.dom group "hover")
    have hns := Dom.nextSiblings_congr ht1 e
    refine ⟨Dom.sameTree_trans hs1 ht1, fun j y => ?_⟩
    rw [hs2 j y, Dom.hasClass_removeClass, hg1 j, hns, List.mem_filter]
    constructor
    · rintro ⟨⟨h1, h2⟩, h3⟩
      exact ⟨h1, fun h => h2 ⟨h.2.symm, h.1.symm⟩, fun h => h3 ⟨h.1, h.2.1, h.2.2⟩⟩
    · rintro ⟨h1, h2, h3⟩
      exact ⟨⟨h1, fun h => h2 ⟨h.2.symm, h.1.symm⟩⟩, fun h => h3 ⟨h.1, h.2.1, h.2.2⟩⟩

/-! ## Theorems: group interaction -/

/-- The later siblings of an element. -/
theorem Dom.mem_nextSiblings (d : Dom) (e j : Nat) :
    j ∈ Dom.nextSiblings d e ↔
      ∃ p, Dom.parentElement d e = some p ∧ e < j ∧ Dom.parentElement d j = some p := by
  unfold Dom.nextSiblings
  cases he : Dom.parentElement d e with
  | none => simp
  | some p =>
    simp only [List.mem_filter, List.mem_range, Bool.and_eq_true, decide_eq_true_eq, beq_iff_eq,
      Option.some.injEq, exists_eq_left']
    constructor
    · rintro ⟨_, h1, h2⟩
      exact ⟨h1, h2⟩
    · rintro ⟨h1, h2⟩
      exact ⟨Dom.lt_length_of_parentElement h2, h1, h2⟩

/-- The later sibling groups of an element are the later siblings, with class
`tah-group`, of its closest `.tah-group` element. -/
theorem Dom.mem_laterSiblingGroups (d : Dom) (group j : Nat) :
    j ∈ Dom.laterSiblingGroups d group ↔
      ∃ e p, Dom.closest d group "tah-group" = some e ∧ Dom.parentElement d e = some p ∧
        e < j ∧ Dom.parentElement d j = some p ∧ Dom.hasClass d j "tah-group" = true := by
  unfold Dom.laterSiblingGroups
  cases hc : Dom.closest d group "tah-group" with
  | none => simp
  | some e =>
    simp only []
    constructor
    · intro h
      rw [List.mem_filter, Dom.mem_nextSiblings] at h
      obtain ⟨⟨p, h1, h2, h3⟩, h4⟩ := h
      exact ⟨e, p, rfl, h1, h2, h3, h4⟩
    · rintro ⟨e2, p, h0, h1, h2, h3, h4⟩
      cases h0
      rw [List.mem_filter, Dom.mem_nextSiblings]
      exact ⟨⟨p, h1, h2, h3⟩, h4⟩

/-- The handler `openGroup` leaves the mode and the rendering flag alone. -/
theorem openGroup_body_frame (s : Hud) (group : Nat) :
    (openGroup.body s group).isClickOpen = s.isClickOpen ∧
      (openGroup.body s group).rendering = s.rendering := by
  unfold openGroup.body _setHoveredGroup
  simp only []
  split <;> exact ⟨rfl, rfl⟩

/-- C10, as the code has it: in hover mode, opening a group adds the hidden flag
to every later sibling group (the later siblings, with class `tah-group`, of
the group's closest `.tah-group` element) and leaves every other element but
the group itself, every earlier sibling included, as it is; closing it again
while the HUD is not rendering removes the hidden flag from every later
sibling group, whatever it was before the open, and changes no other hidden
flag.  So open followed by close is the identity on the hidden flags exactly
when no later sibling group was hidden before the open. -/
theorem hover_open_then_close (s : Hud) (group : Nat)
    (hmode : s.isClickOpen = false) (hr : s.rendering = false) :
    openGroup s group = Except.ok (openGroup.body s group) ∧
      closeGroup (openGroup.body s group) group
        = Except.ok (closeGroup.body (openGroup.body s group) group) ∧
      (∀ j ∈ Dom.laterSiblingGroups s.dom group,
        Dom.hasClass (openGroup.body s group).dom j "tah-hidden" = true) ∧
      (∀ j, j ≠ group → j ∉ Dom.laterSiblingGroups s.dom group →
        (openGroup.body s group).dom[j]? = s.dom[j]?) ∧
      (∀ e j, Dom.closest s.dom group "tah-group" = some e → j ≤ e → j ≠ group →
        (openGroup.body s group).dom[j]? = s.dom[j]?) ∧
      (∀ j ∈ Dom.laterSiblingGroups s.dom group,
        Dom.hasClass (closeGroup.body (openGroup.body s group) group).dom j "tah-hidden"
          = false) ∧
      (∀ j, j ∉ Dom.laterSiblingGroups s.dom group →
        Dom.hasClass (closeGroup.body (openGroup.body s group) group).dom j "tah-hidden"
          = Dom.hasClass s.dom j "tah-hidden") ∧
      ((∀ j, Dom.hasClass (closeGroup.body (openGroup.body s group) group).dom j "tah-hidden"
          = Dom.hasClass s.dom j "tah-hidden") ↔
        (∀ j ∈ Dom.laterSiblingGroups s.dom group,
          Dom.hasClass s.dom j "tah-hidden" = false)) := by
  obtain ⟨ho1, ho2, ho3⟩ := openGroup_body_dom s group
  obtain ⟨hc1, hc2⟩ := closeGroup_body_dom (openGroup.body s group) group
  obtain ⟨hf1, hf2⟩ := openGroup_body_frame s group
  have hg : ∀ j, Dom.hasClass (openGroup.body s group).dom j "tah-group"
      = Dom.hasClass s.dom j "tah-group" := by
    intro j
    rw [Bool.eq_iff_iff, ho2]
    simp
  have hlater := Dom.laterSiblingGroups_congr ho1 hg group
  rw [hlater] at hc2
  have hopen : openGroup s group = Except.ok (openGroup.body s group) := by
    simp [openGroup, hmode]
  have hclose : closeGroup (openGroup.body s group) group
      = Except.ok (closeGroup.body (openGroup.body s group) group) := by
    simp [closeGroup, hf1, hf2, hmode, hr]
  have hafter : ∀ j, Dom.hasClass (closeGroup.body (openGroup.body s group) group).dom j
      "tah-hidden" = true ↔
      (Dom.hasClass s.dom j "tah-hidden" = true ∧ j ∉ Dom.laterSiblingGroups s.dom group) := by
    intro j
    rw [hc2, ho2]
    constructor
    · rintro ⟨(h | ⟨h, _⟩ | ⟨_, h⟩), _, h3⟩
      · exact ⟨h, fun hm => h3 ⟨rfl, hm⟩⟩
      · exact absurd h (by decide)
      · exact absurd ⟨rfl, h⟩ h3
    · rintro ⟨h1, h2⟩
      exact ⟨Or.inl h1, fun h => absurd h.1 (by decide), fun h => h2 h.2⟩
  refine ⟨hopen, hclose, ?_, ho3, ?_, ?_, ?_, ?_⟩
  · intro j hj
    rw [ho2]
    exact Or.inr (Or.inr ⟨rfl, hj⟩)
  · intro e j he hje hjg
    apply ho3 j hjg
    intro hm
    obtain ⟨e2, p, h1, _, h3, _⟩ := (Dom.mem_laterSiblingGroups s.dom group j).1 hm
    rw [he] at h1
    cases h1
    omega
  · intro j hj
    cases hh : Dom.hasClass (closeGroup.body (openGroup.body s group) group).dom j "tah-hidden"
      with
    | false => rfl
    | true => exact absurd hj ((hafter j).1 hh).2
  · intro j hj
    rw [Bool.eq_iff_iff, hafter j]
    exact ⟨fun h => h.1, fun h => ⟨h, hj⟩⟩
  · constructor
    · intro hall j hj
      cases hh : Dom.hasClass s.dom j "tah-hidden" with
      | false => rfl
      | true =>
        rw [← hall j] at hh
        exact absurd hj ((hafter j).1 hh).2
    · intro hall j
      rw [Bool.eq_iff_iff, hafter j]
      constructor
      · exact fun h => h.1
      · intro h
        refine ⟨h, fun hm => ?_⟩
        rw [hall j hm] at h
        exact absurd h (by decide)

/-- C10, at the sample row with both groups visible: entering and leaving the
first group leaves the second one visible, as it was. -/
theorem hover_open_then_close_witness :
    Dom.hasClass (openGroup.body sampleHoverVisible 1).dom 3 "tah-hidden" = true ∧
      Dom.hasClass (closeGroup.body (openGroup.body sampleHoverVisible 1) 1).dom 3 "tah-hidden"
        = Dom.hasClass sampleHoverVisible.dom 3 "tah-hidden" :=
  ⟨(hover_open_then_close sampleHoverVisible 1 rfl rfl).2.2.1 3 (by decide),
   (hover_open_then_close sampleHoverVisible 1 rfl rfl).2.2.2.2.2.2.2.2 (by decide) 3⟩

/-- C10 as stated fails: in the sample row the second group is hidden before
the first one is opened (and stays hidden while it is open), and closing the
first one makes the second visible instead of restoring its hidden flag. -/
theorem hover_close_unhides_hidden_sibling :
    sampleHover.isClickOpen = false ∧
      Dom.hasClass sampleHover.dom 3 "tah-hidden" = true ∧
      Dom.hasClass (mouseenter sampleHover 1).dom 3 "tah-hidden" = true ∧
      Dom.hasClass (mouseleave (mouseenter sampleHover 1) 1).dom 3 "tah-hidden" = false := by
  decide

/-- What the loop of `toggleGroup` does: the tree is kept; the elements of the
list lose `hover` and no other class changes; the ids of the elements of the
list, and nothing else, are removed from `hoveredGroups`; the mode, the
rendering flag and the trace are unchanged. -/
theorem closeOthers_spec (l : List Nat) (s : Hud) :
    Dom.SameTree (toggleGroup.closeOthers s l).dom s.dom ∧
      (∀ j y, Dom.hasClass (toggleGroup.closeOthers s l).dom j y = true ↔
        (Dom.hasClass s.dom j y = true ∧ ¬ (y = "hover" ∧ j ∈ l))) ∧
      List.Sublist (toggleGroup.closeOthers s l).hoveredGroups s.hoveredGroups ∧
      (∀ x, x ∈ (toggleGroup.closeOthers s l).hoveredGroups ↔
        (x ∈ s.hoveredGroups ∧ ∀ e ∈ l, Dom.idOf s.dom e ≠ x)) ∧
      (toggleGroup.closeOthers s l).isClickOpen = s.isClickOpen ∧
      (toggleGroup.closeOthers s l).rendering = s.rendering ∧
      (toggleGroup.closeOthers s l).effects = s.effects := by
  induction l generalizing s with
  | nil =>
    exact ⟨Dom.sameTree_refl _, fun j y => by simp [toggleGroup.closeOthers],
      List.Sublist.refl _, fun x => by simp [toggleGroup.closeOthers], rfl, rfl, rfl⟩
  | cons e l ih =>
    obtain ⟨h1, h2, h3, h4, h5, h6, h7⟩ := ih
      (_clearHoveredGroup { s with dom := Dom.removeClass s.dom e "hover" } (Dom.idOf s.dom e))
    have hstep : toggleGroup.closeOthers s (e :: l) =
        toggleGroup.closeOthers
          (_clearHoveredGroup { s with dom := Dom.removeClass s.dom e "hover" }
            (Dom.idOf s.dom e)) l := rfl
    rw [hstep]
    have ht := Dom.sameTree_removeClass s.dom e "hover"
    refine ⟨Dom.sameTree_trans h1 ht, fun j y => ?_, ?_, fun x => ?_, h5, h6, h7⟩
    · rw [h2 j y]
      show (Dom.hasClass (Dom.removeClass s.dom e "hover") j y = true ∧ _) ↔ _
      rw [Dom.hasClass_removeClass]
      constructor
      · rintro ⟨⟨a, b⟩, c⟩
        refine ⟨a, ?_⟩
        rintro ⟨rfl, hj⟩
        rcases List.mem_cons.1 hj with rfl | hj
        · exact b ⟨rfl, rfl⟩
        · exact c ⟨rfl, hj⟩
      · rintro ⟨a, b⟩
        refine ⟨⟨a, ?_⟩, ?_⟩
        · rintro ⟨rfl, rfl⟩
          exact b ⟨rfl, List.mem_cons_self _ _⟩
        · rintro ⟨rfl, hj⟩
          exact b ⟨rfl, List.mem_cons_of_mem _ hj⟩
    · exact h3.trans (List.filter_sublist _)
    · rw [h4 x]
      show (x ∈ s.hoveredGroups.filter (fun id => id != Dom.idOf s.dom e) ∧
        ∀ k ∈ l, Dom.idOf (Dom.removeClass s.dom e "hover") k ≠ x) ↔ _
      simp only [List.mem_filter, bne_iff_ne, ne_eq, List.mem_cons, forall_eq_or_imp,
        Dom.idOf_removeClass]
      constructor
      · rintro ⟨⟨a, b⟩, c⟩
        exact ⟨a, fun h => b h.symm, c⟩
      · rintro ⟨a, b, c⟩
        exact ⟨⟨a, fun h => b h.symm⟩, c⟩

/-- What `openGroup` records. -/
theorem openGroup_body_hoveredGroups (s : Hud) (group : Nat) :
    (openGroup.body s group).hoveredGroups =
      (if s.hoveredGroups.length > 10 then [] else s.hoveredGroups) ++
        [Dom.idOf s.dom group] := by
  have hid : Dom.idOf
      (openGroup.hideSiblings (Dom.addClass s.dom group "hover")
        (Dom.closest (Dom.addClass s.dom group "hover") group "tah-group")) group
      = Dom.idOf s.dom group := by
    have h1 : Dom.SameTree
        (openGroup.hideSiblings (Dom.addClass s.dom group "hover")
          (Dom.closest (Dom.addClass s.dom group "hover") group "tah-group"))
        (Dom.addClass s.dom group "hover") := by
      unfold openGroup.hideSiblings
      split
      · exact Dom.sameTree_refl _
      · exact (hideLoop_spec "tah-group" "tah-hidden" (by decide) _ _).1
    rw [(h1.2 group).2, Dom.idOf_addClass]
  unfold openGroup.body _setHoveredGroup
  simp only [hid]
  split <;> rfl

/-- What `closeGroup` forgets. -/
theorem closeGroup_body_hoveredGroups (s : Hud) (group : Nat) :
    (closeGroup.body s group).hoveredGroups =
      s.hoveredGroups.filter (fun id => id != Dom.idOf s.dom group) := by
  have hid : Dom.idOf
      (closeGroup.showSiblings (Dom.removeClass s.dom group "hover")
        (Dom.closest (Dom.removeClass s.dom group "hover") group "tah-group")) group
      = Dom.idOf s.dom group := by
    have h1 : Dom.SameTree
        (closeGroup.showSiblings (Dom.removeClass s.dom group "hover")
          (Dom.closest (Dom.removeClass s.dom group "hover") group "tah-group"))
        (Dom.removeClass s.dom group "hover") := by
      unfold closeGroup.showSiblings
      split
      · exact Dom.sameTree_refl _
      · exact (showLoop_spec "tah-group" "tah-hidden" (by decide) _ _).1
    rw [(h1.2 group).2, Dom.idOf_removeClass]
  unfold closeGroup.body _clearHoveredGroup
  simp only [hid]

/-- The handler `closeGroup` leaves the mode and the rendering flag alone. -/
theorem closeGroup_body_frame (s : Hud) (group : Nat) :
    (closeGroup.body s group).isClickOpen = s.isClickOpen ∧
      (closeGroup.body s group).rendering = s.rendering :=
  ⟨rfl, rfl⟩

/-- In click mode, a click on the button of an open group closes that group,
unless the HUD is rendering. -/
theorem toggleGroup_of_open (s : Hud) (button group : Nat) (hmode : s.isClickOpen = true)
    (hp : Dom.parentElement s.dom button = some group)
    (hh : Dom.hasClass s.dom group "hover" = true) :
    toggleGroup s button =
      Except.ok (blur (if s.rendering then s else closeGroup.body s group) button) := by
  unfold toggleGroup closeGroup
  simp only [hp, hh, hmode, if_true]
  cases s.rendering <;> rfl

/-- In click mode, a click on the button of a closed group first closes every
`.tah-tab-group` element inside the parent of the group, then opens the group. -/
theorem toggleGroup_of_closed (s : Hud) (button group container : Nat)
    (hmode : s.isClickOpen = true)
    (hp : Dom.parentElement s.dom button = some group)
    (hh : Dom.hasClass s.dom group "hover" = false)
    (hq : Dom.parentElement s.dom group = some container) :
    toggleGroup s button =
      Except.ok (blur (openGroup.body
        (toggleGroup.closeOthers s (Dom.querySelectorAll s.dom container "tah-tab-group"))
        group) button) := by
  obtain ⟨h1, _, _, _, h5, _, _⟩ :=
    closeOthers_spec (Dom.querySelectorAll s.dom container "tah-tab-group") s
  unfold toggleGroup openGroup
  simp only [hp, hh, hq, h5, hmode, (h1.2 button).1, if_true]
  rfl

/-- Every document has its own groups. -/
theorem Dom.sameGroups_refl (d : Dom) : Dom.SameGroups d d :=
  ⟨Dom.sameTree_refl d, fun _ => rfl⟩

/-- Having the same groups is transitive. -/
theorem Dom.sameGroups_trans {d1 d2 d3 : Dom} (h12 : Dom.SameGroups d1 d2)
    (h23 : Dom.SameGroups d2 d3) : Dom.SameGroups d1 d3 :=
  ⟨Dom.sameTree_trans h12.1 h23.1, fun j => (h12.2 j).trans (h23.2 j)⟩

/-- The top-level groups depend on the tree and the class `tah-tab-group`. -/
theorem Dom.isTopLevel_congr {d1 d2 : Dom} (h : Dom.SameGroups d1 d2) (root i : Nat) :
    Dom.isTopLevel d1 root i = Dom.isTopLevel d2 root i := by
  unfold Dom.isTopLevel
  rw [(h.1.2 i).1, h.2 i]

/-- The top-level identifiers depend on the tree and the class `tah-tab-group`. -/
theorem Dom.isTopLevelId_congr {d1 d2 : Dom} (h : Dom.SameGroups d1 d2) (root : Nat)
    (x : String) : Dom.isTopLevelId d1 root x = Dom.isTopLevelId d2 root x := by
  unfold Dom.isTopLevelId
  rw [h.1.1]
  congr 1
  funext i
  rw [Dom.isTopLevel_congr h, (h.1.2 i).2]

/-- A top-level group is an element of the document. -/
theorem Dom.lt_length_of_isTopLevel {d : Dom} {root i : Nat}
    (h : Dom.isTopLevel d root i = true) : i < d.length := by
  unfold Dom.isTopLevel at h
  rw [Bool.and_eq_true] at h
  exact Dom.lt_length_of_hasClass h.2

/-- A string is a top-level identifier when it is the id of a top-level group. -/
theorem Dom.isTopLevelId_iff (d : Dom) (root : Nat) (x : String) :
    Dom.isTopLevelId d root x = true ↔
      ∃ i, Dom.isTopLevel d root i = true ∧ Dom.idOf d i = x := by
  unfold Dom.isTopLevelId
  rw [List.any_eq_true]
  constructor
  · rintro ⟨i, _, hi⟩
    rw [Bool.and_eq_true, beq_iff_eq] at hi
    exact ⟨i, hi.1, hi.2⟩
  · rintro ⟨i, h1, h2⟩
    refine ⟨i, List.mem_range.2 (Dom.lt_length_of_isTopLevel h1), ?_⟩
    rw [Bool.and_eq_true, beq_iff_eq]
    exact ⟨h1, h2⟩

/-- The uniqueness of the top-level identifiers depends on the tree and the
class `tah-tab-group`. -/
theorem topLevelIdsUnique_congr {d1 d2 : Dom} (h : Dom.SameGroups d1 d2) (root : Nat)
    (hu : TopLevelIdsUnique d2 root) : TopLevelIdsUnique d1 root := by
  intro i j hi hj hid
  rw [Dom.isTopLevel_congr h] at hi
  rw [h.1.1] at hj
  rw [(h.1.2 i).2, (h.1.2 j).2] at hid
  exact hu i j hi hj hid

/-- A child with class `c` of an element is found by `querySelectorAll('.c')`. -/
theorem Dom.mem_querySelectorAll_of_child (d : Dom) (element j : Nat) (c : String)
    (hp : Dom.parentElement d j = some element) (hc : Dom.hasClass d j c = true) :
    j ∈ Dom.querySelectorAll d element c := by
  have hlt := Dom.lt_length_of_parentElement hp
  unfold Dom.querySelectorAll
  rw [List.mem_filter, List.mem_range, Bool.and_eq_true]
  refine ⟨hlt, hc, ?_⟩
  obtain ⟨n, hn⟩ : ∃ n, d.length = n + 1 := ⟨d.length - 1, by omega⟩
  rw [hn]
  unfold Dom.isInsideFrom
  simp [hp]

/-- The top-level groups of `root` are found by `querySelectorAll` on `root`. -/
theorem Dom.mem_querySelectorAll_of_isTopLevel (d : Dom) (root j : Nat)
    (h : Dom.isTopLevel d root j = true) :
    j ∈ Dom.querySelectorAll d root "tah-tab-group" := by
  unfold Dom.isTopLevel at h
  rw [Bool.and_eq_true, beq_iff_eq] at h
  exact Dom.mem_querySelectorAll_of_child d root j "tah-tab-group" h.1 h.2

/-- Closing groups and forgetting identifiers keeps the invariant. -/
theorem atMostOneOpen_of_shrink (s s1 : Hud) (root : Nat)
    (hg : Dom.SameGroups s1.dom s.dom)
    (hh : ∀ j, Dom.hasClass s1.dom j "hover" = true → Dom.hasClass s.dom j "hover" = true)
    (hs : List.Sublist s1.hoveredGroups s.hoveredGroups)
    (inv : AtMostOneOpen s root) : AtMostOneOpen s1 root := by
  obtain ⟨ia, ib⟩ := inv
  constructor
  · intro i j hi hj hhi hhj
    rw [Dom.isTopLevel_congr hg] at hi hj
    exact ia i j hi hj (hh i hhi) (hh j hhj)
  · have hfun : Dom.isTopLevelId s1.dom root = Dom.isTopLevelId s.dom root :=
      funext (Dom.isTopLevelId_congr hg root)
    rw [hfun]
    exact le_trans (hs.filter _).length_le ib

/-- Opening one group keeps the invariant, when the group is not a top-level
group, or when every top-level group has just been closed and forgotten. -/
theorem atMostOneOpen_of_open (mid s1 : Hud) (root group : Nat) (pre : List String)
    (hu : TopLevelIdsUnique mid.dom root)
    (hg : Dom.SameGroups s1.dom mid.dom)
    (hh : ∀ j, Dom.hasClass s1.dom j "hover" = true →
      Dom.hasClass mid.dom j "hover" = true ∨ j = group)
    (hpre : List.Sublist pre mid.hoveredGroups)
    (hs : s1.hoveredGroups = pre ++ [Dom.idOf mid.dom group])
    (hlt : group < mid.dom.length)
    (hcase : (Dom.isTopLevel mid.dom root group = false ∧ AtMostOneOpen mid root) ∨
      ((∀ a, Dom.isTopLevel mid.dom root a = true → Dom.hasClass mid.dom a "hover" = false) ∧
        (∀ a, Dom.isTopLevel mid.dom root a = true → Dom.idOf mid.dom a ∉ mid.hoveredGroups))) :
    AtMostOneOpen s1 root := by
  have hfun : Dom.isTopLevelId s1.dom root = Dom.isTopLevelId mid.dom root :=
    funext (Dom.isTopLevelId_congr hg root)
  constructor
  · intro i j hi hj hhi hhj
    rw [Dom.isTopLevel_congr hg] at hi hj
    rcases hcase with ⟨hnt, ia, _⟩ | ⟨hnone, _⟩
    · have hi2 : Dom.hasClass mid.dom i "hover" = true := by
        rcases hh i hhi with h | rfl
        · exact h
        · rw [hnt] at hi
          exact absurd hi (by decide)
      have hj2 : Dom.hasClass mid.dom j "hover" = true := by
        rcases hh j hhj with h | rfl
        · exact h
        · rw [hnt] at hj
          exact absurd hj (by decide)
      exact ia i j hi hj hi2 hj2
    · have hi2 : i = group := by
        rcases hh i hhi with h | h
        · rw [hnone i hi] at h
          exact absurd h (by decide)
        · exact h
      have hj2 : j = group := by
        rcases hh j hhj with h | h
        · rw [hnone j hj] at h
          exact absurd h (by decide)
        · exact h
      rw [hi2, hj2]
  · rw [hfun, hs, List.filter_append, List.length_append]
    rcases hcase with ⟨hnt, _, ib⟩ | ⟨_, hids⟩
    · have hnot : Dom.isTopLevelId mid.dom root (Dom.idOf mid.dom group) = false := by
        cases hx : Dom.isTopLevelId mid.dom root (Dom.idOf mid.dom group) with
        | false => rfl
        | true =>
          obtain ⟨i, hi1, hi2⟩ := (Dom.isTopLevelId_iff _ _ _).1 hx
          have := hu i group hi1 hlt hi2
          rw [this, hnt] at hi1
          exact absurd hi1 (by decide)
      have h1 : (List.filter (Dom.isTopLevelId mid.dom root) [Dom.idOf mid.dom group]).length
          = 0 := by
        simp [List.filter, hnot]
      have h2 := (hpre.filter (Dom.isTopLevelId mid.dom root)).length_le
      omega
    · have h1 : List.filter (Dom.isTopLevelId mid.dom root) pre = [] := by
        rw [List.filter_eq_nil_iff]
        intro x hx htop
        obtain ⟨i, hi1, hi2⟩ := (Dom.isTopLevelId_iff _ _ _).1 htop
        apply hids i hi1
        rw [hi2]
        exact hpre.subset hx
      have h2 : (List.filter (Dom.isTopLevelId mid.dom root) [Dom.idOf mid.dom group]).length
          ≤ 1 := by
        exact le_trans (List.length_filter_le _ _) (by simp)
      rw [h1]
      simpa using h2

/-- The invariant reads the document and `hoveredGroups` only. -/
theorem atMostOneOpen_congr (s s1 : Hud) (root : Nat) (hd : s1.dom = s.dom)
    (hh : s1.hoveredGroups = s.hoveredGroups) (inv : AtMostOneOpen s root) :
    AtMostOneOpen s1 root := by
  unfold AtMostOneOpen at inv ⊢
  rw [hd, hh]
  exact inv

/-- The handler `closeGroup` keeps the groups of the document and removes
`hover` only. -/
theorem closeGroup_body_shrink (s : Hud) (group : Nat) :
    Dom.SameGroups (closeGroup.body s group).dom s.dom ∧
      (∀ j, Dom.hasClass (closeGroup.body s group).dom j "hover" = true →
        Dom.hasClass s.dom j "hover" = true) ∧
      List.Sublist (closeGroup.body s group).hoveredGroups s.hoveredGroups := by
  obtain ⟨h1, h2⟩ := closeGroup_body_dom s group
  refine ⟨⟨h1, fun j => ?_⟩, fun j hj => ((h2 j "hover").1 hj).1, ?_⟩
  · rw [Bool.eq_iff_iff, h2]
    constructor
    · exact fun h => h.1
    · exact fun h => ⟨h, fun h3 => absurd h3.1 (by decide), fun h3 => absurd h3.1 (by decide)⟩
  · rw [closeGroup_body_hoveredGroups]
    exact List.filter_sublist _

/-- The loop of `toggleGroup` keeps the groups of the document and removes
`hover` only. -/
theorem closeOthers_shrink (l : List Nat) (s : Hud) :
    Dom.SameGroups (toggleGroup.closeOthers s l).dom s.dom ∧
      (∀ j, Dom.hasClass (toggleGroup.closeOthers s l).dom j "hover" = true →
        Dom.hasClass s.dom j "hover" = true) := by
  obtain ⟨h1, h2, _⟩ := closeOthers_spec l s
  refine ⟨⟨h1, fun j => ?_⟩, fun j hj => ((h2 j "hover").1 hj).1⟩
  rw [Bool.eq_iff_iff, h2]
  constructor
  · exact fun h => h.1
  · exact fun h => ⟨h, fun h3 => absurd h3.1 (by decide)⟩

/-- The handler `openGroup` keeps the groups of the document and adds `hover`
to the group only. -/
theorem openGroup_body_grow (s : Hud) (group : Nat) :
    Dom.SameGroups (openGroup.body s group).dom s.dom ∧
      (∀ j, Dom.hasClass (openGroup.body s group).dom j "hover" = true →
        Dom.hasClass s.dom j "hover" = true ∨ j = group) := by
  obtain ⟨h1, h2, _⟩ := openGroup_body_dom s group
  refine ⟨⟨h1, fun j => ?_⟩, fun j hj => ?_⟩
  · rw [Bool.eq_iff_iff, h2]
    constructor
    · rintro (h | h | h)
      · exact h
      · exact absurd h.1 (by decide)
      · exact absurd h.1 (by decide)
    · exact fun h => Or.inl h
  · rcases (h2 j "hover").1 hj with h | h | h
    · exact Or.inl h
    · exact Or.inr h.2.1
    · exact absurd h.1 (by decide)

/-- In click mode the handler `toggleGroup` keeps the groups of the document,
the mode and the invariant. -/
theorem toggleGroup_inv (s : Hud) (button root : Nat) (hmode : s.isClickOpen = true)
    (s2 : Hud) (h : toggleGroup s button = Except.ok s2) :
    Dom.SameGroups s2.dom s.dom ∧ s2.isClickOpen = true ∧
      (TopLevelIdsUnique s.dom root → AtMostOneOpen s root → AtMostOneOpen s2 root) := by
  cases hp : Dom.parentElement s.dom button with
  | none => simp [toggleGroup, hp] at h
  | some group =>
    cases hh : Dom.hasClass s.dom group "hover" with
    | true =>
      rw [toggleGroup_of_open s button group hmode hp hh] at h
      cases h
      cases hr : s.rendering with
      | true =>
        simp only [if_true]
        exact ⟨Dom.sameGroups_refl _, hmode, fun _ inv => inv⟩
      | false =>
        obtain ⟨c1, c2, c3⟩ := closeGroup_body_shrink s group
        refine ⟨c1, hmode, fun _ inv => ?_⟩
        exact atMostOneOpen_congr (closeGroup.body s group) _ root rfl rfl
          (atMostOneOpen_of_shrink s _ root c1 c2 c3 inv)
    | false =>
      cases hq : Dom.parentElement s.dom group with
      | none => simp [toggleGroup, hp, hh, hq] at h
      | some container =>
        rw [toggleGroup_of_closed s button group container hmode hp hh hq] at h
        cases h
        obtain ⟨m1, m2, m3, m4, m5, _, _⟩ :=
          closeOthers_spec (Dom.querySelectorAll s.dom container "tah-tab-group") s
        obtain ⟨n1, n2⟩ :=
          closeOthers_shrink (Dom.querySelectorAll s.dom container "tah-tab-group") s
        obtain ⟨o1, o2⟩ := openGroup_body_grow
          (toggleGroup.closeOthers s (Dom.querySelectorAll s.dom container "tah-tab-group"))
          group
        have hmodeOut : (openGroup.body
            (toggleGroup.closeOthers s (Dom.querySelectorAll s.dom container "tah-tab-group"))
            group).isClickOpen = true := by
          rw [(openGroup_body_frame _ _).1, m5, hmode]
        refine ⟨Dom.sameGroups_trans o1 n1, hmodeOut, fun hu inv => ?_⟩
        apply atMostOneOpen_congr (openGroup.body
          (toggleGroup.closeOthers s (Dom.querySelectorAll s.dom container "tah-tab-group"))
          group) _ root rfl rfl
        have hlt : group < (toggleGroup.closeOthers s
            (Dom.querySelectorAll s.dom container "tah-tab-group")).dom.length := by
          rw [m1.1]
          exact Dom.lt_length_of_parentElement hq
        apply atMostOneOpen_of_open _ _ root group
          (if (toggleGroup.closeOthers s
              (Dom.querySelectorAll s.dom container "tah-tab-group")).hoveredGroups.length > 10
            then []
            else (toggleGroup.closeOthers s
              (Dom.querySelectorAll s.dom container "tah-tab-group")).hoveredGroups)
          (topLevelIdsUnique_congr n1 root hu) o1 o2 ?_ (openGroup_body_hoveredGroups _ _) hlt ?_
        · split
          · exact List.nil_sublist _
          · exact List.Sublist.refl _
        · cases htop : Dom.isTopLevel s.dom root group with
          | false =>
            left
            rw [Dom.isTopLevel_congr n1]
            exact ⟨htop, atMostOneOpen_of_shrink s _ root n1 n2 m3 inv⟩
          | true =>
            right
            have hroot : container = root := by
              unfold Dom.isTopLevel at htop
              rw [Bool.and_eq_true, beq_iff_eq, hq] at htop
              exact Option.some.inj htop.1
            subst hroot
            constructor
            · intro a ha
              rw [Dom.isTopLevel_congr n1] at ha
              have hmem := Dom.mem_querySelectorAll_of_isTopLevel s.dom container a ha
              cases hx : Dom.hasClass (toggleGroup.closeOthers s
                  (Dom.querySelectorAll s.dom container "tah-tab-group")).dom a "hover" with
              | false => rfl
              | true => exact absurd ⟨rfl, hmem⟩ ((m2 a "hover").1 hx).2
            · intro a ha hin
              rw [Dom.isTopLevel_congr n1] at ha
              have hmem := Dom.mem_querySelectorAll_of_isTopLevel s.dom container a ha
              rw [(m1.2 a).2] at hin
              exact ((m4 _).1 hin).2 a hmem rfl

/-- A click keeps the groups of the document, the mode and the invariant. -/
theorem clickGroupButton_inv (s : Hud) (button root : Nat) :
    Dom.SameGroups (clickGroupButton s button).dom s.dom ∧
      (clickGroupButton s button).isClickOpen = s.isClickOpen ∧
      (TopLevelIdsUnique s.dom root → AtMostOneOpen s root →
        AtMostOneOpen (clickGroupButton s button) root) := by
  unfold clickGroupButton
  split
  · simp only []
    split
    · rename_i hmode
      split
      · rename_i s2 ht
        obtain ⟨h1, h2, h3⟩ := toggleGroup_inv
          { s with effects := s.effects ++ [Effect.bringToTop, Effect.blur button] }
          button root hmode s2 ht
        exact ⟨h1, h2.trans hmode.symm, fun hu inv => h3 hu inv⟩
      · exact ⟨Dom.sameGroups_refl _, rfl, fun _ inv => inv⟩
    · exact ⟨Dom.sameGroups_refl _, rfl, fun _ inv => inv⟩
  · exact ⟨Dom.sameGroups_refl _, rfl, fun _ inv => inv⟩

/-- A sequence of clicks keeps the groups of the document and the invariant. -/
theorem clicks_inv (buttons : List Nat) (s : Hud) (root : Nat) :
    Dom.SameGroups (clicks s buttons).dom s.dom ∧
      (TopLevelIdsUnique s.dom root → AtMostOneOpen s root →
        AtMostOneOpen (clicks s buttons) root) := by
  induction buttons generalizing s with
  | nil => exact ⟨Dom.sameGroups_refl _, fun _ inv => inv⟩
  | cons b bs ih =>
    obtain ⟨h1, _, h3⟩ := clickGroupButton_inv s b root
    obtain ⟨i1, i2⟩ := ih (clickGroupButton s b)
    refine ⟨Dom.sameGroups_trans i1 h1, fun hu inv => ?_⟩
    exact i2 (topLevelIdsUnique_congr h1 root hu) (h3 hu inv)

/-- C9: in click mode, with the ids of the top-level groups of `root` shared
with no other element, and whatever the state of the top-level groups:
a click on the button of a top-level group that is not open first removes
`hover` and the `hoveredGroups` entry of every top-level group (so at that
point no top-level group is open), and only then opens the group, after
which this group is open and recorded and no other top-level group is open or
recorded.  Hence a sequence of clicks, on any elements, keeps at most one
top-level group open and at most one top-level identifier in `hoveredGroups`;
in particular this holds after any sequence of clicks on a HUD with no group
open and nothing recorded. -/
theorem click_mode_mutual_exclusion (s : Hud) (root : Nat)
    (hmode : s.isClickOpen = true) (hu : TopLevelIdsUnique s.dom root) :
    (∀ button group, Dom.parentElement s.dom button = some group →
        Dom.isTopLevel s.dom root group = true → Dom.hasClass s.dom group "hover" = false →
        toggleGroup s button =
            Except.ok (blur (openGroup.body
              (toggleGroup.closeOthers s (Dom.querySelectorAll s.dom root "tah-tab-group"))
              group) button) ∧
          (∀ a, Dom.isTopLevel s.dom root a = true →
            Dom.hasClass
                (toggleGroup.closeOthers s
                  (Dom.querySelectorAll s.dom root "tah-tab-group")).dom a "hover" = false ∧
              Dom.idOf s.dom a ∉
                (toggleGroup.closeOthers s
                  (Dom.querySelectorAll s.dom root "tah-tab-group")).hoveredGroups) ∧
          Dom.hasClass
              (openGroup.body
                (toggleGroup.closeOthers s (Dom.querySelectorAll s.dom root "tah-tab-group"))
                group).dom group "hover" = true ∧
          Dom.idOf s.dom group ∈
              (openGroup.body
                (toggleGroup.closeOthers s (Dom.querySelectorAll s.dom root "tah-tab-group"))
                group).hoveredGroups ∧
          (∀ a, Dom.isTopLevel s.dom root a = true → a ≠ group →
            Dom.hasClass
                (openGroup.body
                  (toggleGroup.closeOthers s (Dom.querySelectorAll s.dom root "tah-tab-group"))
                  group).dom a "hover" = false ∧
              Dom.idOf s.dom a ∉
                (openGroup.body
                  (toggleGroup.closeOthers s (Dom.querySelectorAll s.dom root "tah-tab-group"))
                  group).hoveredGroups)) ∧
      (AtMostOneOpen s root → ∀ buttons, AtMostOneOpen (clicks s buttons) root) ∧
      ((∀ j, Dom.hasClass s.dom j "hover" = false) → s.hoveredGroups = [] →
        ∀ buttons, AtMostOneOpen (clicks s buttons) root) := by
  refine ⟨?_, fun inv buttons => (clicks_inv buttons s root).2 hu inv, ?_⟩
  · intro button group hp htop hh
    have hq : Dom.parentElement s.dom group = some root := by
      unfold Dom.isTopLevel at htop
      rw [Bool.and_eq_true, beq_iff_eq] at htop
      exact htop.1
    have hlt := Dom.lt_length_of_parentElement hq
    obtain ⟨m1, m2, m3, m4, _, _, _⟩ :=
      closeOthers_spec (Dom.querySelectorAll s.dom root "tah-tab-group") s
    obtain ⟨o1, o2, _⟩ := openGroup_body_dom
      (toggleGroup.closeOthers s (Dom.querySelectorAll s.dom root "tah-tab-group")) group
    have ohs := openGroup_body_hoveredGroups
      (toggleGroup.closeOthers s (Dom.querySelectorAll s.dom root "tah-tab-group")) group
    have hmid : ∀ a, Dom.isTopLevel s.dom root a = true →
        Dom.hasClass
            (toggleGroup.closeOthers s
              (Dom.querySelectorAll s.dom root "tah-tab-group")).dom a "hover" = false ∧
          Dom.idOf s.dom a ∉
            (toggleGroup.closeOthers s
              (Dom.querySelectorAll s.dom root "tah-tab-group")).hoveredGroups := by
      intro a ha
      have hmem := Dom.mem_querySelectorAll_of_isTopLevel s.dom root a ha
      constructor
      · cases hx : Dom.hasClass (toggleGroup.closeOthers s
            (Dom.querySelectorAll s.dom root "tah-tab-group")).dom a "hover" with
        | false => rfl
        | true => exact absurd ⟨rfl, hmem⟩ ((m2 a "hover").1 hx).2
      · intro hin
        exact ((m4 _).1 hin).2 a hmem rfl
    refine ⟨toggleGroup_of_closed s button group root hmode hp hh hq, hmid, ?_, ?_, ?_⟩
    · rw [o2]
      exact Or.inr (Or.inl ⟨rfl, rfl, by rw [m1.1]; exact hlt⟩)
    · rw [ohs, (m1.2 group).2]
      exact List.mem_append_right _ (List.mem_singleton_self _)
    · intro a ha hne
      obtain ⟨ha1, ha2⟩ := hmid a ha
      constructor
      · cases hx : Dom.hasClass (openGroup.body (toggleGroup.closeOthers s
            (Dom.querySelectorAll s.dom root "tah-tab-group")) group).dom a "hover" with
        | false => rfl
        | true =>
          rcases (o2 a "hover").1 hx with h | h | h
          · rw [ha1] at h
            exact absurd h (by decide)
          · exact absurd h.2.1 hne
          · exact absurd h.1 (by decide)
      · rw [ohs, (m1.2 group).2]
        intro hin
        rcases List.mem_append.1 hin with h | h
        · apply ha2
          split at h
          · simp at h
          · exact h
        · rw [List.mem_singleton] at h
          exact hne (hu a group ha hlt h)
  · intro hfree hempty buttons
    apply (clicks_inv buttons s root).2 hu
    constructor
    · intro i j _ _ hi _
      rw [hfree i] at hi
      exact absurd hi (by decide)
    · rw [hempty]
      simp

/-- C9, at the sample row in click mode: a click on the button of the first
group closes every top-level group and then opens the first one; a click on
it with the second group open and recorded leaves only the first group
recorded; and clicks keep at most one group open. -/
theorem click_mode_mutual_exclusion_witness :
    AtMostOneOpen (clicks sampleClick [2, 4, 4, 2, 4]) 0 ∧
      toggleGroup sampleClick 2 =
        Except.ok (blur (openGroup.body
          (toggleGroup.closeOthers sampleClick
            (Dom.querySelectorAll sampleClick.dom 0 "tah-tab-group")) 1) 2) ∧
      (clicks sampleClick [4, 2]).hoveredGroups = ["group-weapons"] ∧
      Dom.hasClass (clicks sampleClick [4, 2]).dom 3 "hover" = false := by
  have hu : TopLevelIdsUnique sampleClick.dom 0 := by
    intro i j hi hj hid
    have hi5 : i < 5 := Dom.lt_length_of_isTopLevel hi
    have hj5 : j < 5 := hj
    have key : ∀ a, a < 5 → ∀ b, b < 5 → Dom.isTopLevel sampleDom 0 a = true →
        Dom.idOf sampleDom a = Dom.idOf sampleDom b → a = b := by decide
    exact key i hi5 j hj5 hi hid
  have hfree : ∀ j, Dom.hasClass sampleClick.dom j "hover" = false := by
    intro j
    match j with
    | 0 => rfl
    | 1 => rfl
    | 2 => rfl
    | 3 => rfl
    | 4 => rfl
    | n + 5 => rfl
  exact ⟨(click_mode_mutual_exclusion sampleClick 0 rfl hu).2.2 hfree rfl [2, 4, 4, 2, 4],
    ((click_mode_mutual_exclusion sampleClick 0 rfl hu).1 2 1 rfl rfl rfl).1,
    by decide, by decide⟩

/-! ## Theorems: the set of hovered groups -/

/-- The length of `hoveredGroups` after `_setHoveredGroup`. -/
theorem setHoveredGroup_hoveredGroups (s : Hud) (groupId : String) :
    (_setHoveredGroup s groupId).hoveredGroups =
      (if s.hoveredGroups.length > 10 then [] else s.hoveredGroups) ++ [groupId] := by
  unfold _setHoveredGroup
  simp only []
  split <;> rfl

/-- The list `hoveredGroups` after `_clearHoveredGroup`. -/
theorem clearHoveredGroup_hoveredGroups (s : Hud) (groupId : String) :
    (_clearHoveredGroup s groupId).hoveredGroups =
      s.hoveredGroups.filter (fun id => id != groupId) :=
  rfl

/-- One operation keeps `hoveredGroups` within eleven entries. -/
theorem hoverOp_length_le (s : Hud) (op : HoverOp) (h : s.hoveredGroups.length ≤ 11) :
    (HoverOp.apply s op).hoveredGroups.length ≤ 11 := by
  cases op with
  | set groupId =>
    show (_setHoveredGroup s groupId).hoveredGroups.length ≤ 11
    rw [setHoveredGroup_hoveredGroups]
    split
    · simp
    · simp only [List.length_append, List.length_singleton]
      omega
  | clear groupId =>
    show (_clearHoveredGroup s groupId).hoveredGroups.length ≤ 11
    rw [clearHoveredGroup_hoveredGroups]
    exact le_trans (List.length_filter_le _ _) h

/-- C13, as the code has it: `hoveredGroups` holds at most 11 identifiers.
`_setHoveredGroup` appends to a set of at most 10 entries (a set of 10 entries
becomes one of 11) and resets the set to `[]` before inserting only when it
holds more than 10 entries, after which it holds exactly the new identifier;
consequently no sequence of open and close operations starting from a set of
at most 11 entries, the empty set included, ever yields more than 11. -/
theorem hoveredGroups_at_most_eleven (s : Hud) (groupId : String) (ops : List HoverOp) :
    (s.hoveredGroups.length ≤ 10 →
        (_setHoveredGroup s groupId).hoveredGroups = s.hoveredGroups ++ [groupId]) ∧
      (s.hoveredGroups.length > 10 →
        (_setHoveredGroup s groupId).hoveredGroups = [groupId]) ∧
      (s.hoveredGroups.length ≤ 11 → (applyHoverOps s ops).hoveredGroups.length ≤ 11) ∧
      (s.hoveredGroups = [] → (applyHoverOps s ops).hoveredGroups.length ≤ 11) := by
  have hinv : ∀ (l : List HoverOp) (x : Hud), x.hoveredGroups.length ≤ 11 →
      (applyHoverOps x l).hoveredGroups.length ≤ 11 := by
    intro l
    induction l with
    | nil => exact fun x hx => hx
    | cons op l ih =>
      intro x hx
      exact ih (HoverOp.apply x op) (hoverOp_length_le x op hx)
  refine ⟨fun h => ?_, fun h => ?_, hinv ops s, fun h => hinv ops s (by simp [h])⟩
  · rw [setHoveredGroup_hoveredGroups, if_neg (by omega)]
  · rw [setHoveredGroup_hoveredGroups, if_pos h]
    rfl

/-- C13, at a set of ten entries, at a set of eleven, and at a run of opens
and closes from the empty set. -/
theorem hoveredGroups_at_most_eleven_witness :
    (_setHoveredGroup sampleTen "g10").hoveredGroups = tenGroups ++ ["g10"] ∧
      (_setHoveredGroup (_setHoveredGroup sampleTen "g10") "g11").hoveredGroups = ["g11"] ∧
      (applyHoverOps sampleTen
        [HoverOp.set "a", HoverOp.clear "g3", HoverOp.set "b", HoverOp.set "c"]).hoveredGroups.length
        ≤ 11 ∧
      (applyHoverOps sampleIdle
        [HoverOp.set "a", HoverOp.set "b", HoverOp.clear "a"]).hoveredGroups.length ≤ 11 :=
  ⟨(hoveredGroups_at_most_eleven sampleTen "g10" []).1 (by decide),
   (hoveredGroups_at_most_eleven (_setHoveredGroup sampleTen "g10") "g11" []).2.1 (by decide),
   (hoveredGroups_at_most_eleven sampleTen "g10"
      [HoverOp.set "a", HoverOp.clear "g3", HoverOp.set "b", HoverOp.set "c"]).2.2.1 (by decide),
   (hoveredGroups_at_most_eleven sampleIdle "g10"
      [HoverOp.set "a", HoverOp.set "b", HoverOp.clear "a"]).2.2.2 rfl⟩

/-- C13 as stated fails: adding an identifier to a set that already holds 10
entries does not reset the set; it then holds all 11 identifiers. -/
theorem eleventh_entry_is_appended :
    sampleTen.hoveredGroups.length = 10 ∧
      (_setHoveredGroup sampleTen "g10").hoveredGroups ≠ ["g10"] ∧
      (_setHoveredGroup sampleTen "g10").hoveredGroups.length = 11 ∧
      (applyHoverOps sampleIdle
        ((tenGroups ++ ["g10"]).map HoverOp.set)).hoveredGroups.length = 11 := by
  decide

/-- C14: after `_clearHoveredGroup(g)` the id `g` does not occur in the set at
all; every other identifier occurs as many times as before and in the same
relative order (the new list is the old one with entries left out); and
clearing an id that is not recorded leaves the set unchanged. -/
theorem clearHoveredGroup_removes_all (s : Hud) (g : String) :
    g ∉ (_clearHoveredGroup s g).hoveredGroups ∧
      (∀ x, x ≠ g →
        (_clearHoveredGroup s g).hoveredGroups.count x = s.hoveredGroups.count x) ∧
      List.Sublist (_clearHoveredGroup s g).hoveredGroups s.hoveredGroups ∧
      (∀ x, x ∈ (_clearHoveredGroup s g).hoveredGroups ↔ (x ∈ s.hoveredGroups ∧ x ≠ g)) ∧
      (g ∉ s.hoveredGroups → (_clearHoveredGroup s g).hoveredGroups = s.hoveredGroups) := by
  rw [clearHoveredGroup_hoveredGroups]
  refine ⟨by simp, fun x hx => ?_, List.filter_sublist _, fun x => by simp, fun h => ?_⟩
  · rw [List.count_filter]
    simpa using hx
  · rw [List.filter_eq_self]
    intro a ha
    have : a ≠ g := fun hag => h (hag ▸ ha)
    simpa using this

/-- C14, at a set that records one id twice among others. -/
theorem clearHoveredGroup_removes_all_witness :
    (_clearHoveredGroup { sampleIdle with hoveredGroups := ["a", "b", "a", "c"] } "a").hoveredGroups
        = ["b", "c"] ∧
      (_clearHoveredGroup { sampleIdle with hoveredGroups := ["a", "b", "a", "c"] } "d").hoveredGroups
        = ["a", "b", "a", "c"] :=
  ⟨by decide,
   (clearHoveredGroup_removes_all { sampleIdle with hoveredGroups := ["a", "b", "a", "c"] }
      "d").2.2.2.2 (by decide)⟩

/-! ## Theorems: position, direction and drag -/

/-- C15, as the code has it: with a stored position and the frame mounted,
`_setPositionFromFlag` judges `top` and `left` independently.  A coordinate
below 5, or above the viewport height (for `top`) or width (for `left`) plus
5, is replaced by its default, 80 for `top` and 150 for `left`; every other
coordinate, those within 5px of the far edge or up to 5px beyond it included,
is applied unchanged. -/
theorem setPositionFromFlag_thresholds (s : Hud) (pos : Position) (element : Nat)
    (hflag : s.positionFlag = some pos)
    (hel : Dom.getElementById s.dom "token-action-hud" = some element) :
    ((pos.top < 5 ∨ pos.top > s.innerHeight + 5) →
        (_setPositionFromFlag s).topPos = 80 ∧ (_setPositionFromFlag s).styleTop = some 80) ∧
      ((5 ≤ pos.top ∧ pos.top ≤ s.innerHeight + 5) →
        (_setPositionFromFlag s).topPos = pos.top ∧
          (_setPositionFromFlag s).styleTop = some pos.top) ∧
      ((pos.left < 5 ∨ pos.left > s.innerWidth + 5) →
        (_setPositionFromFlag s).leftPos = 150 ∧
          (_setPositionFromFlag s).styleLeft = some 150) ∧
      ((5 ≤ pos.left ∧ pos.left ≤ s.innerWidth + 5) →
        (_setPositionFromFlag s).leftPos = pos.left ∧
          (_setPositionFromFlag s).styleLeft = some pos.left) := by
  unfold _setPositionFromFlag
  simp only [hflag, hel]
  refine ⟨fun h => ?_, fun h => ?_, fun h => ?_, fun h => ?_⟩
  · simp [h, defaultTopPos]
  · have : ¬ (pos.top < 5 ∨ pos.top > s.innerHeight + 5) := by omega
    simp [this]
  · simp [h, defaultLeftPos]
  · have : ¬ (pos.left < 5 ∨ pos.left > s.innerWidth + 5) := by omega
    simp [this]

/-- C15, at the positions of the spec on a viewport 1000px tall: a stored
`top` of -50 is replaced by 80 while `left` 10 is kept, and top 100, left 100
is applied unchanged. -/
theorem setPositionFromFlag_thresholds_witness :
    (_setPositionFromFlag
        { sampleMounted with positionFlag := some { top := -50, left := 10 } }).topPos = 80 ∧
      (_setPositionFromFlag
        { sampleMounted with positionFlag := some { top := -50, left := 10 } }).leftPos = 10 ∧
      (_setPositionFromFlag
        { sampleMounted with positionFlag := some { top := 100, left := 100 } }).topPos = 100 ∧
      (_setPositionFromFlag
        { sampleMounted with positionFlag := some { top := 100, left := 100 } }).leftPos = 100 :=
  ⟨((setPositionFromFlag_thresholds
      { sampleMounted with positionFlag := some { top := -50, left := 10 } }
      { top := -50, left := 10 } 0 rfl (by decide)).1 (Or.inl (by decide))).1,
   ((setPositionFromFlag_thresholds
      { sampleMounted with positionFlag := some { top := -50, left := 10 } }
      { top := -50, left := 10 } 0 rfl (by decide)).2.2.2 ⟨by decide, by decide⟩).1,
   ((setPositionFromFlag_thresholds
      { sampleMounted with positionFlag := some { top := 100, left := 100 } }
      { top := 100, left := 100 } 0 rfl (by decide)).2.1 ⟨by decide, by decide⟩).1,
   ((setPositionFromFlag_thresholds
      { sampleMounted with positionFlag := some { top := 100, left := 100 } }
      { top := 100, left := 100 } 0 rfl (by decide)).2.2.2 ⟨by decide, by decide⟩).1⟩

/-- C15 as stated fails: on a viewport 1000px tall and 1600px wide, a stored
`top` of 998, within 5px of the bottom edge, and a stored `left` of 1603,
beyond the viewport width, are not replaced by the defaults but applied
unchanged. -/
theorem position_near_far_edge_is_kept :
    (_setPositionFromFlag
        { sampleMounted with positionFlag := some { top := 998, left := 1603 } }).topPos = 998 ∧
      (_setPositionFromFlag
        { sampleMounted with positionFlag := some { top := 998, left := 1603 } }).topPos ≠ 80 ∧
      (_setPositionFromFlag
        { sampleMounted with positionFlag := some { top := 998, left := 1603 } }).leftPos
        = 1603 ∧
      (_setPositionFromFlag
        { sampleMounted with positionFlag := some { top := 998, left := 1603 } }).leftPos
        ≠ 150 := by
  decide

/-- C16: `_getAutoDirection` returns 'up' exactly when the setting is 'up', or
the setting is 'auto' and the top position exceeds half the viewport height;
in every other case, the setting 'down' at any position included, it returns
'down'; it returns no third value. -/
theorem getAutoDirection_spec (s : Hud) :
    (_getAutoDirection s = "up" ↔
        (s.direction = "up" ∨ (s.direction = "auto" ∧ 2 * s.topPos > s.innerHeight))) ∧
      (_getAutoDirection s = "down" ↔
        ¬ (s.direction = "up" ∨ (s.direction = "auto" ∧ 2 * s.topPos > s.innerHeight))) ∧
      (s.direction = "down" → _getAutoDirection s = "down") ∧
      (_getAutoDirection s = "up" ∨ _getAutoDirection s = "down") := by
  unfold _getAutoDirection
  by_cases h : s.direction = "up" ∨ (s.direction = "auto" ∧ 2 * s.topPos > s.innerHeight)
  · rw [if_pos h]
    refine ⟨by simp [h], by simp [h], fun hd => ?_, Or.inl rfl⟩
    rw [hd] at h
    simp at h
  · rw [if_neg h]
    exact ⟨by simp [h], by simp [h], fun _ => rfl, Or.inr rfl⟩

/-- C16, at the setting 'down' with the frame low in the viewport, and at the
setting 'auto' on both sides of the middle. -/
theorem getAutoDirection_spec_witness :
    _getAutoDirection { sampleMounted with direction := "down", topPos := 900 } = "down" ∧
      _getAutoDirection { sampleMounted with direction := "auto", topPos := 501 } = "up" ∧
      _getAutoDirection { sampleMounted with direction := "auto", topPos := 500 } = "down" :=
  ⟨(getAutoDirection_spec { sampleMounted with direction := "down", topPos := 900 }).2.2.1 rfl,
   (getAutoDirection_spec { sampleMounted with direction := "auto", topPos := 501 }).1.2
     (Or.inr ⟨rfl, by decide⟩),
   (getAutoDirection_spec { sampleMounted with direction := "auto", topPos := 500 }).2.1.2
     (by decide)⟩

/-- C17, the code at a failing drag: the drag starts with the pointer at
(200, 100) and the frame at top 80, left 150; the pointer moves to (100, 50).
The test `pos1 === pos3 && pos2 === pos4` compares the distance moved with
the new pointer position, so this move is skipped although the pointer has
moved, and the offset stays (80, 150) instead of becoming (30, 50); after a
further move to (101, 50) the offset is (80, 151), not (30, 51).  A move event
at the very position of the previous one is not skipped. -/
theorem drag_move_skipped_though_pointer_moved :
    _dragEvent sampleDraggable 80 150 { clientX := 200, clientY := 100 } = some sampleDrag ∧
      (_dragEvent.mouseMoveEvent sampleDraggable sampleDrag
          { clientX := 100, clientY := 50 }).1 = sampleDraggable ∧
      (_dragEvent.mouseMoveEvent sampleDraggable sampleDrag
          { clientX := 100, clientY := 50 }).2.newElementTop = 80 ∧
      (_dragEvent.mouseMoveEvent sampleDraggable sampleDrag
          { clientX := 100, clientY := 50 }).2.newElementLeft = 150 ∧
      (_dragEvent.moves sampleDraggable sampleDrag
          [{ clientX := 100, clientY := 50 }, { clientX := 101, clientY := 50 }]).2.newElementTop
        = 80 ∧
      (_dragEvent.moves sampleDraggable sampleDrag
          [{ clientX := 100, clientY := 50 }, { clientX := 101, clientY := 50 }]).2.newElementLeft
        = 151 ∧
      (80 : Int) + (50 - 100) = 30 ∧ (150 : Int) + (101 - 200) = 51 ∧
      (_dragEvent.mouseMoveEvent sampleDraggable sampleDrag
          { clientX := 200, clientY := 100 }).1.styleTop = some 80 := by
  decide

/-! ## Theorems: action clicks and update filters -/

/-- C19, as the code has it: for every action click on a control, whether the
roll handler's `handleActionEvent` returns normally or throws, `handleAction`
ends normally, so the failure is not propagated; the control is blurred when
the call returns normally, and when it throws the event is logged and the
control is not blurred. -/
theorem handleAction_catches_and_blurs_on_success (s : Hud) (event : ClickEvent)
    (target : Nat) (outcome : Except String Unit)
    (ht : handleAction.target s.dom event = some target) :
    (∀ u, outcome = Except.ok u →
        handleAction s event outcome =
          Except.ok
            { s with
              effects := s.effects ++ [Effect.handleActionEvent target, Effect.blur target] }) ∧
      (∀ e, outcome = Except.error e →
        handleAction s event outcome =
          Except.ok
            { s with
              effects := s.effects ++
                [Effect.handleActionEvent target, Effect.error "event"] }) ∧
      (Except.toBool (handleAction s event outcome) = true) ∧
      (∀ s1, handleAction s event outcome = Except.ok s1 →
        (Effect.blur target ∈ newEffects s s1 ↔ Except.toBool outcome = true)) := by
  unfold handleAction
  rw [ht]
  cases outcome with
  | ok u => simp [newEffects, Except.toBool]
  | error e =>
    refine ⟨by simp, by simp, by simp [Except.toBool], fun s1 h => ?_⟩
    simp only [Except.ok.injEq] at h
    subst h
    simp [newEffects, Except.toBool]

/-- C19, at the sample action: a click on its button with a roll handler that
returns, and with one that throws. -/
theorem handleAction_catches_and_blurs_on_success_witness :
    handleAction sampleAction { target := 2, currentTarget := 1 } (Except.ok ()) =
        Except.ok
          { sampleAction with
            effects := [Effect.handleActionEvent 2, Effect.blur 2] } ∧
      handleAction sampleAction { target := 2, currentTarget := 1 } (Except.error "failed") =
        Except.ok
          { sampleAction with
            effects := [Effect.handleActionEvent 2, Effect.error "event"] } :=
  ⟨(handleAction_catches_and_blurs_on_success sampleAction { target := 2, currentTarget := 1 }
      2 (Except.ok ()) (by decide)).1 () rfl,
   (handleAction_catches_and_blurs_on_success sampleAction { target := 2, currentTarget := 1 }
      2 (Except.error "failed") (by decide)).2.1 "failed" rfl⟩

/-- C19 as stated fails: when the roll handler throws on a click on the sample
button, `handleAction` ends normally but the button is not blurred. -/
theorem handleAction_no_blur_when_handler_throws :
    handleAction sampleAction { target := 2, currentTarget := 1 } (Except.error "failed") =
        Except.ok
          { sampleAction with
            effects := [Effect.handleActionEvent 2, Effect.error "event"] } ∧
      Effect.blur 2 ∉ [Effect.handleActionEvent 2, Effect.error "event"] :=
  ⟨rfl, by decide⟩

/-- C20, the code at an update without actor: with no flags in the data and no
actor given, `isValidActorOrItemUpdate` ends without a `return` and yields
`undefined`, not `true`, because the branch 'No actor, update hud' lies inside
`if (actor)` and is never taken.  With flags it yields `false`, for the actor
of the HUD `true`, for another actor `false`. -/
theorem isValidActorOrItemUpdate_without_actor_is_undefined :
    isValidActorOrItemUpdate sampleShown none false = none ∧
      isValidActorOrItemUpdate sampleShown none false ≠ some true ∧
      isValidActorOrItemUpdate sampleIdle none false = none ∧
      isValidActorOrItemUpdate sampleShown none true = some false ∧
      isValidActorOrItemUpdate sampleShown (some sampleActor) true = some false ∧
      isValidActorOrItemUpdate sampleShown (some sampleActor) false = some true ∧
      isValidActorOrItemUpdate sampleShown (some foreignActor) false = some false := by
  decide

/-! ## Theorems: edit lock -/

/-- Adding a class changes no `data-show-title` attribute. -/
theorem Dom.showTitleOf_addClass (d : Dom) (i : Nat) (c : String) (j : Nat) :
    Dom.showTitleOf (Dom.addClass d i c) j = Dom.showTitleOf d j := by
  unfold Dom.showTitleOf Dom.addClass
  rw [List.getElem?_modify]
  cases d[j]? with
  | none => rfl
  | some n => by_cases h : i = j <;> simp [h]

/-- The result of `querySelectorAll` depends on the tree and on the class
searched. -/
theorem Dom.querySelectorAll_congr {d1 d2 : Dom} (c : String) (h : Dom.SameTree d1 d2)
    (hc : ∀ j, Dom.hasClass d1 j c = Dom.hasClass d2 j c) (element : Nat) :
    Dom.querySelectorAll d1 element c = Dom.querySelectorAll d2 element c := by
  unfold Dom.querySelectorAll
  rw [h.1]
  congr 1
  funext j
  rw [hc j, Dom.isInsideFrom_congr h]

/-- Whether an element has actions depends on the tree and on the class
`tah-action`. -/
theorem Dom.hasActions_congr {d1 d2 : Dom} (h : Dom.SameTree d1 d2)
    (hc : ∀ j, Dom.hasClass d1 j "tah-action" = Dom.hasClass d2 j "tah-action")
    (element : Nat) : Dom.hasActions d1 element = Dom.hasActions d2 element := by
  unfold Dom.hasActions
  rw [Dom.querySelectorAll_congr "tah-action" h hc]

/-- A loop that adds the class `c` to the elements of a set that pass a test,
the test not depending on the class `c`: the tree is kept, and an element has
a class afterwards exactly when it had it before or it is `c`, just added. -/
theorem condAddLoop_spec (test : Dom → Nat → Bool) (c : String)
    (htest : ∀ (d : Dom) (k j : Nat), test (Dom.addClass d k c) j = test d j)
    (l : List Nat) (d : Dom) :
    Dom.SameTree (l.foldl (fun d1 k => if test d1 k then Dom.addClass d1 k c else d1) d) d ∧
      ∀ j y,
        Dom.hasClass (l.foldl (fun d1 k => if test d1 k then Dom.addClass d1 k c else d1) d)
            j y = true ↔
          Dom.hasClass d j y = true ∨ (y = c ∧ j ∈ l ∧ test d j = true ∧ j < d.length) := by
  induction l generalizing d with
  | nil => exact ⟨Dom.sameTree_refl d, fun j y => by simp⟩
  | cons k l ih =>
    rw [List.foldl_cons]
    by_cases hk : test d k = true
    · rw [if_pos hk]
      obtain ⟨ih1, ih2⟩ := ih (Dom.addClass d k c)
      refine ⟨Dom.sameTree_trans ih1 (Dom.sameTree_addClass d k c), fun j y => ?_⟩
      rw [ih2 j y, Dom.hasClass_addClass, htest, Dom.length_addClass]
      constructor
      · rintro ((h | ⟨rfl, rfl, h⟩) | ⟨rfl, hj, h1, h2⟩)
        · exact Or.inl h
        · exact Or.inr ⟨rfl, List.mem_cons_self _ _, hk, h⟩
        · exact Or.inr ⟨rfl, List.mem_cons_of_mem _ hj, h1, h2⟩
      · rintro (h | ⟨rfl, hj, h1, h2⟩)
        · exact Or.inl (Or.inl h)
        · rcases List.mem_cons.1 hj with rfl | hj
          · exact Or.inl (Or.inr ⟨rfl, rfl, h2⟩)
          · exact Or.inr ⟨rfl, hj, h1, h2⟩
    · rw [if_neg hk]
      obtain ⟨ih1, ih2⟩ := ih d
      refine ⟨ih1, fun j y => ?_⟩
      rw [ih2 j y]
      constructor
      · rintro (h | ⟨rfl, hj, h1, h2⟩)
        · exact Or.inl h
        · exact Or.inr ⟨rfl, List.mem_cons_of_mem _ hj, h1, h2⟩
      · rintro (h | ⟨rfl, hj, h1, h2⟩)
        · exact Or.inl h
        · rcases List.mem_cons.1 hj with rfl | hj
          · exact absurd h1 hk
          · exact Or.inr ⟨rfl, hj, h1, h2⟩

/-- The document after `$(set).addClass(c)`. -/
theorem Dom.addClassAll_spec (d : Dom) (l : List Nat) (c : String) :
    Dom.SameTree (Dom.addClassAll d l c) d ∧
      ∀ j y, Dom.hasClass (Dom.addClassAll d l c) j y = true ↔
        Dom.hasClass d j y = true ∨ (y = c ∧ j ∈ l ∧ j < d.length) := by
  have h := condAddLoop_spec (fun _ _ => true) c (fun _ _ _ => rfl) l d
  simp only [if_true, true_and] at h
  exact h

/-- The document after `$(set).removeClass(c)`. -/
theorem Dom.removeClassAll_spec (d : Dom) (l : List Nat) (c : String) :
    Dom.SameTree (Dom.removeClassAll d l c) d ∧
      ∀ j y, Dom.hasClass (Dom.removeClassAll d l c) j y = true ↔
        Dom.hasClass d j y = true ∧ ¬ (y = c ∧ j ∈ l) := by
  unfold Dom.removeClassAll
  induction l generalizing d with
  | nil => exact ⟨Dom.sameTree_refl d, fun j y => by simp⟩
  | cons k l ih =>
    rw [List.foldl_cons]
    obtain ⟨ih1, ih2⟩ := ih (Dom.removeClass d k c)
    refine ⟨Dom.sameTree_trans ih1 (Dom.sameTree_removeClass d k c), fun j y => ?_⟩
    rw [ih2 j y, Dom.hasClass_removeClass]
    constructor
    · rintro ⟨⟨h1, h2⟩, h3⟩
      refine ⟨h1, ?_⟩
      rintro ⟨rfl, hj⟩
      rcases List.mem_cons.1 hj with rfl | hj
      · exact h2 ⟨rfl, rfl⟩
      · exact h3 ⟨rfl, hj⟩
    · rintro ⟨h1, h2⟩
      refine ⟨⟨h1, ?_⟩, ?_⟩
      · rintro ⟨rfl, rfl⟩
        exact h2 ⟨rfl, List.mem_cons_self _ _⟩
      · rintro ⟨rfl, hj⟩
        exact h2 ⟨rfl, List.mem_cons_of_mem _ hj⟩

/-- The loop of `lockHud` that hides the elements without actions. -/
theorem hideEmpty_spec (d : Dom) (l : List Nat) :
    Dom.SameTree (lockHud.hideEmpty d l) d ∧
      ∀ j y, Dom.hasClass (lockHud.hideEmpty d l) j y = true ↔
        Dom.hasClass d j y = true ∨
          (y = "tah-hidden" ∧ j ∈ l ∧ Dom.hasActions d j = false ∧ j < d.length) := by
  have h := condAddLoop_spec (fun d1 k => !Dom.hasActions d1 k) "tah-hidden"
    (fun d1 k j => by
      have hc : ∀ i, Dom.hasClass (Dom.addClass d1 k "tah-hidden") i "tah-action"
          = Dom.hasClass d1 i "tah-action" := by
        intro i
        rw [Bool.eq_iff_iff, Dom.hasClass_addClass]
        simp
      simp only [Dom.hasActions_congr (Dom.sameTree_addClass d1 k "tah-hidden") hc j])
    l d
  unfold lockHud.hideEmpty
  simp only [Bool.not_eq_true'] at h ⊢
  exact h

/-- The loop of `lockHud` over the subtitles. -/
theorem hideSubtitles_spec (d : Dom) (l : List Nat) :
    Dom.SameTree (lockHud.hideSubtitles d l) d ∧
      ∀ j y, Dom.hasClass (lockHud.hideSubtitles d l) j y = true ↔
        Dom.hasClass d j y = true ∨
          (y = "tah-hidden" ∧ j ∈ l ∧ lockHud.titleHidden d j = true ∧ j < d.length) := by
  exact condAddLoop_spec lockHud.titleHidden "tah-hidden"
    (fun d1 k j => by
      have hc : ∀ i, Dom.hasClass (Dom.addClass d1 k "tah-hidden") i "tah-group"
          = Dom.hasClass d1 i "tah-group" := by
        intro i
        rw [Bool.eq_iff_iff, Dom.hasClass_addClass]
        simp
      unfold lockHud.titleHidden
      rw [Dom.closest_congr "tah-group" (Dom.sameTree_addClass d1 k "tah-hidden") hc j]
      cases Dom.closest d1 j "tah-group" with
      | none => rfl
      | some g => simp only [Dom.showTitleOf_addClass])
    l d

/-- The classes after `$(set).addClass(c)`. -/
theorem Dom.hasClass_addClassAll (d : Dom) (l : List Nat) (c : String) (j : Nat) (y : String) :
    Dom.hasClass (Dom.addClassAll d l c) j y = true ↔
      Dom.hasClass d j y = true ∨ (y = c ∧ j ∈ l ∧ j < d.length) :=
  (Dom.addClassAll_spec d l c).2 j y

/-- The classes after `$(set).removeClass(c)`. -/
theorem Dom.hasClass_removeClassAll (d : Dom) (l : List Nat) (c : String) (j : Nat)
    (y : String) :
    Dom.hasClass (Dom.removeClassAll d l c) j y = true ↔
      Dom.hasClass d j y = true ∧ ¬ (y = c ∧ j ∈ l) :=
  (Dom.removeClassAll_spec d l c).2 j y

/-- The classes after a loop of `lockHud` over possibly empty elements. -/
theorem hasClass_hideEmpty (d : Dom) (l : List Nat) (j : Nat) (y : String) :
    Dom.hasClass (lockHud.hideEmpty d l) j y = true ↔
      Dom.hasClass d j y = true ∨
        (y = "tah-hidden" ∧ j ∈ l ∧ Dom.hasActions d j = false ∧ j < d.length) :=
  (hideEmpty_spec d l).2 j y

/-- The classes after the loop of `lockHud` over the subtitles. -/
theorem hasClass_hideSubtitles (d : Dom) (l : List Nat) (j : Nat) (y : String) :
    Dom.hasClass (lockHud.hideSubtitles d l) j y = true ↔
      Dom.hasClass d j y = true ∨
        (y = "tah-hidden" ∧ j ∈ l ∧ lockHud.titleHidden d j = true ∧ j < d.length) :=
  (hideSubtitles_spec d l).2 j y

/-- Adding a class to a set changes no length. -/
theorem Dom.length_addClassAll (d : Dom) (l : List Nat) (c : String) :
    (Dom.addClassAll d l c).length = d.length :=
  (Dom.addClassAll_spec d l c).1.1

/-- Removing a class from a set changes no length. -/
theorem Dom.length_removeClassAll (d : Dom) (l : List Nat) (c : String) :
    (Dom.removeClassAll d l c).length = d.length :=
  (Dom.removeClassAll_spec d l c).1.1

/-- Hiding empty elements changes no length. -/
theorem length_hideEmpty (d : Dom) (l : List Nat) : (lockHud.hideEmpty d l).length = d.length :=
  (hideEmpty_spec d l).1.1

/-- Adding a class other than `tah-action` to a set changes no action count. -/
theorem Dom.hasActions_addClassAll (d : Dom) (l : List Nat) (c : String)
    (hc : c ≠ "tah-action") (j : Nat) :
    Dom.hasActions (Dom.addClassAll d l c) j = Dom.hasActions d j := by
  apply Dom.hasActions_congr (Dom.addClassAll_spec d l c).1
  intro i
  rw [Bool.eq_iff_iff, Dom.hasClass_addClassAll]
  constructor
  · rintro (h | ⟨h, _⟩)
    · exact h
    · exact absurd h.symm hc
  · exact Or.inl

/-- Removing a class other than `tah-action` from a set changes no action count. -/
theorem Dom.hasActions_removeClassAll (d : Dom) (l : List Nat) (c : String)
    (hc : c ≠ "tah-action") (j : Nat) :
    Dom.hasActions (Dom.removeClassAll d l c) j = Dom.hasActions d j := by
  apply Dom.hasActions_congr (Dom.removeClassAll_spec d l c).1
  intro i
  rw [Bool.eq_iff_iff, Dom.hasClass_removeClassAll]
  constructor
  · exact fun h => h.1
  · exact fun h => ⟨h, fun h2 => hc h2.1.symm⟩

/-- Hiding empty elements changes no action count. -/
theorem hasActions_hideEmpty (d : Dom) (l : List Nat) (j : Nat) :
    Dom.hasActions (lockHud.hideEmpty d l) j = Dom.hasActions d j := by
  apply Dom.hasActions_congr (hideEmpty_spec d l).1
  intro i
  rw [Bool.eq_iff_iff, hasClass_hideEmpty]
  constructor
  · rintro (h | ⟨h, _⟩)
    · exact h
    · exact absurd h (by decide)
  · exact Or.inl

/-- What `lockHud` does to the hidden flag of an element without actions of
one of the three group sets: it is hidden. -/
theorem lockHud_dom_hides_empty (d : Dom) (elements : Elements) (eventTarget : Option Nat)
    (j : Nat) (hj : j ∈ elements.tabGroup ∨ j ∈ elements.group ∨ j ∈ elements.listGroups)
    (hlt : j < d.length) (hempty : Dom.hasActions d j = false) :
    Dom.hasClass (lockHud.dom d elements eventTarget) j "tah-hidden" = true := by
  unfold lockHud.dom
  simp only [Dom.hasClass_addClassAll, hasClass_hideSubtitles, hasClass_hideEmpty,
    hasActions_hideEmpty, length_hideEmpty, Dom.length_removeClassAll, Dom.length_addClassAll]
  rw [Dom.hasActions_removeClassAll _ _ _ (by decide), Dom.hasActions_addClassAll _ _ _ (by decide),
    Dom.hasActions_removeClassAll _ _ _ (by decide), Dom.hasActions_addClassAll _ _ _ (by decide)]
  simp only [hempty, hlt, and_true, true_and]
  rcases hj with h | h | h
  · simp [h]
  · simp [h]
  · simp [h]

/-- What `lockHud` does to the hidden flag of an element with actions that is
none of the buttons it shows or hides and no subtitle: nothing. -/
theorem lockHud_dom_keeps_nonempty (d : Dom) (elements : Elements) (eventTarget : Option Nat)
    (j : Nat) (hactions : Dom.hasActions d j = true)
    (htarget : eventTarget ≠ some j) (hlock : eventTarget = none → j ∉ elements.lockButton)
    (hunlock : j ∉ elements.unlockButton) (hedit : j ∉ elements.editHudButton)
    (hsub : j ∉ elements.subtitle) :
    Dom.hasClass (lockHud.dom d elements eventTarget) j "tah-hidden"
      = Dom.hasClass d j "tah-hidden" := by
  rw [Bool.eq_iff_iff]
  unfold lockHud.dom
  simp only [Dom.hasClass_addClassAll, hasClass_hideSubtitles, hasClass_hideEmpty,
    hasActions_hideEmpty, length_hideEmpty, Dom.length_removeClassAll, Dom.length_addClassAll,
    Dom.hasClass_removeClassAll]
  rw [Dom.hasActions_removeClassAll _ _ _ (by decide), Dom.hasActions_addClassAll _ _ _ (by decide),
    Dom.hasActions_removeClassAll _ _ _ (by decide), Dom.hasActions_addClassAll _ _ _ (by decide)]
  have htgt : j ∉ (match eventTarget with
      | some t => [t]
      | none => elements.lockButton) := by
    cases eventTarget with
    | none => exact hlock rfl
    | some t =>
      simp only [List.mem_singleton]
      intro h
      exact htarget (by rw [h])
  simp [hactions, hunlock, hedit, hsub, htgt]

/-- What `unlockHud` does to the hidden flag of an element of one of the three
group sets: it is visible. -/
theorem unlockHud_dom_shows_groups (d : Dom) (elements : Elements) (eventTarget : Option Nat)
    (j : Nat) (hj : j ∈ elements.tabGroup ∨ j ∈ elements.group ∨ j ∈ elements.listGroups) :
    Dom.hasClass (unlockHud.dom d elements eventTarget) j "tah-hidden" = false := by
  cases hx : Dom.hasClass (unlockHud.dom d elements eventTarget) j "tah-hidden" with
  | false => rfl
  | true =>
    exfalso
    unfold unlockHud.dom at hx
    simp only [Dom.hasClass_addClassAll, Dom.hasClass_removeClassAll] at hx
    rcases hj with h | h | h <;> simp [h] at hx

/-- The elements found by class. -/
theorem Dom.mem_findClass (d : Dom) (c : String) (j : Nat) :
    j ∈ Dom.findClass d c ↔ Dom.hasClass d j c = true := by
  unfold Dom.findClass
  rw [List.mem_filter, List.mem_range]
  exact ⟨fun h => h.2, fun h => ⟨Dom.lt_length_of_hasClass h, h⟩⟩

/-- The elements found by id. -/
theorem Dom.mem_findId (d : Dom) (id : String) (j : Nat) :
    j ∈ Dom.findId d id ↔ (j < d.length ∧ Dom.idOf d j = id) := by
  unfold Dom.findId
  rw [List.mem_filter, List.mem_range, beq_iff_eq]

/-- The document after `lockHud`. -/
theorem lockHud_dom_eq (s : Hud) (elements : Elements) (eventTarget : Option Nat) :
    (lockHud s elements eventTarget).dom = lockHud.dom s.dom elements eventTarget := by
  unfold lockHud
  simp only []
  split <;> rfl

/-- The document after `unlockHud`. -/
theorem unlockHud_dom_eq (s : Hud) (elements : Elements) (eventTarget : Option Nat) :
    (unlockHud s elements eventTarget).dom = unlockHud.dom s.dom elements eventTarget := by
  unfold unlockHud
  simp only []
  split <;> rfl

/-- C18: for every rendered tree and every element of it that is a top-level
group, a group or a list of groups: when it contains no action `lockHud` hides
it; when it contains at least one action `lockHud` leaves its hidden flag as
it was (the element being none of the controls that the handler shows or
hides: the click target, the lock, unlock and edit buttons, a subtitle);
and `unlockHud` afterwards makes it visible whether it is empty or not. -/
theorem lock_prunes_unlock_shows (s : Hud) (lockTarget unlockTarget : Option Nat) (j : Nat)
    (hgroup : Dom.isGroupElement s.dom j = true) :
    (Dom.hasActions s.dom j = false →
        Dom.hasClass (lockHud s (activateListeners.elements s.dom) lockTarget).dom j
          "tah-hidden" = true) ∧
      (Dom.hasActions s.dom j = true → lockTarget ≠ some j →
        (lockTarget = none → Dom.idOf s.dom j ≠ "tah-lock") →
        Dom.idOf s.dom j ≠ "tah-unlock" → Dom.idOf s.dom j ≠ "tah-edit-hud" →
        Dom.hasClass s.dom j "tah-subtitle" = false →
        Dom.hasClass (lockHud s (activateListeners.elements s.dom) lockTarget).dom j
            "tah-hidden"
          = Dom.hasClass s.dom j "tah-hidden") ∧
      Dom.hasClass
          (unlockHud (lockHud s (activateListeners.elements s.dom) lockTarget)
            (activateListeners.elements s.dom) unlockTarget).dom j "tah-hidden"
        = false := by
  have hmem : j ∈ (activateListeners.elements s.dom).tabGroup ∨
      j ∈ (activateListeners.elements s.dom).group ∨
      j ∈ (activateListeners.elements s.dom).listGroups := by
    unfold Dom.isGroupElement at hgroup
    simp only [Bool.or_eq_true] at hgroup
    simp only [activateListeners.elements, Dom.mem_findClass]
    tauto
  have hlt : j < s.dom.length := by
    unfold Dom.isGroupElement at hgroup
    simp only [Bool.or_eq_true] at hgroup
    rcases hgroup with (h | h) | h <;> exact Dom.lt_length_of_hasClass h
  refine ⟨fun hempty => ?_, fun hact ht hl hu he hsub => ?_, ?_⟩
  · rw [lockHud_dom_eq]
    exact lockHud_dom_hides_empty s.dom _ lockTarget j hmem hlt hempty
  · rw [lockHud_dom_eq]
    apply lockHud_dom_keeps_nonempty s.dom _ lockTarget j hact ht
    · intro hn
      simp only [activateListeners.elements, Dom.mem_findId]
      exact fun h => hl hn h.2
    · simp only [activateListeners.elements, Dom.mem_findId]
      exact fun h => hu h.2
    · simp only [activateListeners.elements, Dom.mem_findId]
      exact fun h => he h.2
    · simp only [activateListeners.elements, Dom.mem_findClass]
      rw [hsub]
      decide
  · rw [unlockHud_dom_eq]
    exact unlockHud_dom_shows_groups _ _ unlockTarget j hmem

/-- C18, at the sample tree: `lock()` hides the group with zero actions and
keeps its sibling with one action visible; `unlock()` shows both. -/
theorem lock_prunes_unlock_shows_witness :
    Dom.hasClass (lockHud sampleUnlocked (activateListeners.elements sampleLockDom) none).dom 5
        "tah-hidden" = true ∧
      Dom.hasClass (lockHud sampleUnlocked (activateListeners.elements sampleLockDom) none).dom 3
        "tah-hidden" = Dom.hasClass sampleLockDom 3 "tah-hidden" ∧
      Dom.hasClass sampleLockDom 3 "tah-hidden" = false ∧
      Dom.hasClass
        (unlockHud (lockHud sampleUnlocked (activateListeners.elements sampleLockDom) none)
          (activateListeners.elements sampleLockDom) none).dom 5 "tah-hidden" = false ∧
      Dom.hasClass
        (unlockHud (lockHud sampleUnlocked (activateListeners.elements sampleLockDom) none)
          (activateListeners.elements sampleLockDom) none).dom 3 "tah-hidden" = false :=
  ⟨(lock_prunes_unlock_shows sampleUnlocked none none 5 (by decide)).1 (by decide),
   (lock_prunes_unlock_shows sampleUnlocked none none 3 (by decide)).2.1 (by decide) (by decide)
     (fun _ => by decide) (by decide) (by decide) (by decide),
   by decide,
   (lock_prunes_unlock_shows sampleUnlocked none none 5 (by decide)).2.2,
   (lock_prunes_unlock_shows sampleUnlocked none none 3 (by decide)).2.2⟩

/-! ## Theorems: restoration of the hovered groups -/

/-- The element found by id has that id. -/
theorem Dom.getElementById_some {d : Dom} {id : String} {e : Nat}
    (h : Dom.getElementById d id = some e) : e < d.length ∧ Dom.idOf d e = id := by
  unfold Dom.getElementById at h
  have h1 := List.find?_some h
  have h2 := List.mem_of_find?_eq_some h
  rw [List.mem_range] at h2
  rw [beq_iff_eq] at h1
  exact ⟨h2, h1⟩

/-- The element found by id depends on the tree only. -/
theorem Dom.getElementById_congr {d1 d2 : Dom} (h : Dom.SameTree d1 d2) (id : String) :
    Dom.getElementById d1 id = Dom.getElementById d2 id := by
  unfold Dom.getElementById
  rw [h.1]
  congr 1
  funext j
  rw [(h.2 j).2]

/-- The method `_setPositionFromFlag` leaves the document, the mode and the
hovered groups alone. -/
theorem setPositionFromFlag_frame (s : Hud) :
    (_setPositionFromFlag s).dom = s.dom ∧
      (_setPositionFromFlag s).hoveredGroups = s.hoveredGroups ∧
      (_setPositionFromFlag s).hoveredGroupsId = s.hoveredGroupsId ∧
      (_setPositionFromFlag s).isClickOpen = s.isClickOpen ∧
      (_setPositionFromFlag s).rendering = s.rendering := by
  unfold _setPositionFromFlag
  split
  · exact ⟨rfl, rfl, rfl, rfl, rfl⟩
  · split <;> exact ⟨rfl, rfl, rfl, rfl, rfl⟩

/-- The identity of the array held in `hoveredGroups` after `openGroup`. -/
theorem openGroup_body_hoveredGroupsId (s : Hud) (group : Nat) :
    (openGroup.body s group).hoveredGroupsId =
      (if s.hoveredGroups.length > 10 then s.hoveredGroupsId + 1 else s.hoveredGroupsId) := by
  unfold openGroup.body _setHoveredGroup
  simp only []
  split <;> rfl

/-- The handler `openGroup` changes the classes `hover` and `tah-hidden` only. -/
theorem openGroup_body_sameButShown (s : Hud) (group : Nat) :
    Dom.SameButShown (openGroup.body s group).dom s.dom := by
  obtain ⟨h1, h2, _⟩ := openGroup_body_dom s group
  refine ⟨h1, fun j y hy1 hy2 => ?_⟩
  rw [Bool.eq_iff_iff, h2]
  constructor
  · rintro (h | h | h)
    · exact h
    · exact absurd h.1 hy1
    · exact absurd h.1 hy2
  · exact Or.inl

/-- Differing in `hover` and `tah-hidden` only is transitive. -/
theorem Dom.sameButShown_trans {d1 d2 d3 : Dom} (h12 : Dom.SameButShown d1 d2)
    (h23 : Dom.SameButShown d2 d3) : Dom.SameButShown d1 d3 :=
  ⟨Dom.sameTree_trans h12.1 h23.1, fun j y hy1 hy2 =>
    (h12.2 j y hy1 hy2).trans (h23.2 j y hy1 hy2)⟩

/-- Every document differs from itself in nothing. -/
theorem Dom.sameButShown_refl (d : Dom) : Dom.SameButShown d d :=
  ⟨Dom.sameTree_refl d, fun _ _ _ _ => rfl⟩

/-- The identity of the array held in `hoveredGroups` after the loop of
`toggleGroup`: every element of the loop makes a new array. -/
theorem closeOthers_hoveredGroupsId (l : List Nat) (s : Hud) :
    (toggleGroup.closeOthers s l).hoveredGroupsId = s.hoveredGroupsId + l.length := by
  induction l generalizing s with
  | nil => rfl
  | cons e l ih =>
    have hstep : toggleGroup.closeOthers s (e :: l) =
        toggleGroup.closeOthers
          (_clearHoveredGroup { s with dom := Dom.removeClass s.dom e "hover" }
            (Dom.idOf s.dom e)) l := rfl
    rw [hstep, ih]
    show s.hoveredGroupsId + 1 + l.length = s.hoveredGroupsId + (l.length + 1)
    omega

/-- The loop of `toggleGroup` changes the class `hover` only. -/
theorem closeOthers_sameButShown (l : List Nat) (s : Hud) :
    Dom.SameButShown (toggleGroup.closeOthers s l).dom s.dom := by
  obtain ⟨h1, h2, _⟩ := closeOthers_spec l s
  refine ⟨h1, fun j y hy1 _ => ?_⟩
  rw [Bool.eq_iff_iff, h2]
  exact ⟨fun h => h.1, fun h => ⟨h, fun h3 => hy1 h3.1⟩⟩

/-- The first element found inside another depends on the tree and on the
class searched. -/
theorem Dom.findFirst_congr {d1 d2 : Dom} (c : String) (h : Dom.SameTree d1 d2)
    (hc : ∀ j, Dom.hasClass d1 j c = Dom.hasClass d2 j c) (element : Nat) :
    Dom.findFirst d1 element c = Dom.findFirst d2 element c := by
  unfold Dom.findFirst
  rw [Dom.querySelectorAll_congr c h hc]

/-- The first element found inside another has the class searched. -/
theorem Dom.hasClass_of_findFirst {d : Dom} {element b : Nat} {c : String}
    (h : Dom.findFirst d element c = some b) : Dom.hasClass d b c = true := by
  unfold Dom.findFirst at h
  have hmem : b ∈ Dom.querySelectorAll d element c := by
    cases hl : Dom.querySelectorAll d element c with
    | nil => simp [hl] at h
    | cons a l =>
      rw [hl] at h
      simp only [List.head?_cons, Option.some.injEq] at h
      rw [h]
      exact List.mem_cons_self _ _
  unfold Dom.querySelectorAll at hmem
  rw [List.mem_filter, Bool.and_eq_true] at hmem
  exact hmem.2.1

/-- The last identifier present, after one more identifier. -/
theorem Dom.lastPresent_append (d : Dom) (l : List String) (g : String) :
    Dom.lastPresent d (l ++ [g]) =
      (match Dom.getElementById d g with
       | some e => some e
       | none => Dom.lastPresent d l) := by
  unfold Dom.lastPresent
  rw [List.foldl_append]
  rfl

/-- A click, while the HUD is rendering in click mode, on the button of a
top-level group element that lies in a container: the group is open
afterwards, no other element has become open and, unless the group was open
already, the top-level groups of the container are closed, only the classes `hover` and
`tah-hidden` have changed, and `hoveredGroups` is either left alone or holds
a new array. -/
theorem clickGroupButton_while_rendering (x : Hud) (b e c : Nat)
    (hmode : x.isClickOpen = true) (hr : x.rendering = true)
    (hbtn : Dom.hasClass x.dom b "tah-group-button" = true)
    (hp : Dom.parentElement x.dom b = some e) (hc : Dom.parentElement x.dom e = some c)
    (htab : Dom.hasClass x.dom e "tah-tab-group" = true) :
    Dom.SameButShown (clickGroupButton x b).dom x.dom ∧
      (clickGroupButton x b).isClickOpen = true ∧
      (clickGroupButton x b).rendering = true ∧
      Dom.hasClass (clickGroupButton x b).dom e "hover" = true ∧
      (∀ j, Dom.hasClass (clickGroupButton x b).dom j "hover" = true →
        j = e ∨ (Dom.hasClass x.dom j "hover" = true ∧
          (Dom.hasClass x.dom e "hover" = true ∨
            j ∉ Dom.querySelectorAll x.dom c "tah-tab-group"))) ∧
      (((clickGroupButton x b).hoveredGroupsId = x.hoveredGroupsId ∧
          (clickGroupButton x b).hoveredGroups = x.hoveredGroups) ∨
        x.hoveredGroupsId < (clickGroupButton x b).hoveredGroupsId) := by
  have helt : e < x.dom.length := Dom.lt_length_of_parentElement hc
  cases hh : Dom.hasClass x.dom e "hover" with
  | true =>
    have ht := toggleGroup_of_open
      { x with effects := x.effects ++ [Effect.bringToTop, Effect.blur b] } b e hmode hp hh
    have hr1 : ({ x with effects := x.effects ++ [Effect.bringToTop, Effect.blur b] } :
        Hud).rendering = true := hr
    have hm1 : ({ x with effects := x.effects ++ [Effect.bringToTop, Effect.blur b] } :
        Hud).isClickOpen = true := hmode
    rw [if_pos hr1] at ht
    have hres : clickGroupButton x b =
        blur { x with effects := x.effects ++ [Effect.bringToTop, Effect.blur b] } b := by
      unfold clickGroupButton
      rw [if_pos hbtn]
      dsimp only []
      rw [if_pos hm1, ht]
    rw [hres]
    exact ⟨Dom.sameButShown_refl _, hmode, hr, hh, fun j hj => Or.inr ⟨hj, Or.inl rfl⟩,
      Or.inl ⟨rfl, rfl⟩⟩
  | false =>
    have ht := toggleGroup_of_closed
      { x with effects := x.effects ++ [Effect.bringToTop, Effect.blur b] } b e c hmode hp hh hc
    have hres : clickGroupButton x b =
        blur (openGroup.body
          (toggleGroup.closeOthers
            { x with effects := x.effects ++ [Effect.bringToTop, Effect.blur b] }
            (Dom.querySelectorAll x.dom c "tah-tab-group")) e) b := by
      have hm1 : ({ x with effects := x.effects ++ [Effect.bringToTop, Effect.blur b] } :
          Hud).isClickOpen = true := hmode
      unfold clickGroupButton
      rw [if_pos hbtn]
      dsimp only []
      rw [if_pos hm1, ht]
    obtain ⟨m1, m2, _, _, m5, m6, _⟩ := closeOthers_spec
      (Dom.querySelectorAll x.dom c "tah-tab-group")
      { x with effects := x.effects ++ [Effect.bringToTop, Effect.blur b] }
    have mid := closeOthers_hoveredGroupsId (Dom.querySelectorAll x.dom c "tah-tab-group")
      { x with effects := x.effects ++ [Effect.bringToTop, Effect.blur b] }
    have msb := closeOthers_sameButShown (Dom.querySelectorAll x.dom c "tah-tab-group")
      { x with effects := x.effects ++ [Effect.bringToTop, Effect.blur b] }
    have hmem : e ∈ Dom.querySelectorAll x.dom c "tah-tab-group" :=
      Dom.mem_querySelectorAll_of_child x.dom c e "tah-tab-group" hc htab
    have hpos : 0 < (Dom.querySelectorAll x.dom c "tah-tab-group").length :=
      List.length_pos_of_mem hmem
    have osb := openGroup_body_sameButShown
      (toggleGroup.closeOthers
        { x with effects := x.effects ++ [Effect.bringToTop, Effect.blur b] }
        (Dom.querySelectorAll x.dom c "tah-tab-group")) e
    have odom := (openGroup_body_dom
      (toggleGroup.closeOthers
        { x with effects := x.effects ++ [Effect.bringToTop, Effect.blur b] }
        (Dom.querySelectorAll x.dom c "tah-tab-group")) e).2.1
    have oid := openGroup_body_hoveredGroupsId
      (toggleGroup.closeOthers
        { x with effects := x.effects ++ [Effect.bringToTop, Effect.blur b] }
        (Dom.querySelectorAll x.dom c "tah-tab-group")) e
    have ofr := openGroup_body_frame
      (toggleGroup.closeOthers
        { x with effects := x.effects ++ [Effect.bringToTop, Effect.blur b] }
        (Dom.querySelectorAll x.dom c "tah-tab-group")) e
    rw [hres]
    refine ⟨Dom.sameButShown_trans osb msb, ofr.1.trans (m5.trans hmode),
      ofr.2.trans (m6.trans hr), ?_, fun j hj => ?_, Or.inr ?_⟩
    · show Dom.hasClass (openGroup.body _ e).dom e "hover" = true
      rw [odom]
      refine Or.inr (Or.inl ⟨rfl, rfl, ?_⟩)
      rw [m1.1]
      exact helt
    · have hj2 : Dom.hasClass (openGroup.body
          (toggleGroup.closeOthers
            { x with effects := x.effects ++ [Effect.bringToTop, Effect.blur b] }
            (Dom.querySelectorAll x.dom c "tah-tab-group")) e).dom j "hover" = true := hj
      rcases (odom j "hover").1 hj2 with h | h | h
      · exact Or.inr ⟨((m2 j "hover").1 h).1,
          Or.inr (fun hm => ((m2 j "hover").1 h).2 ⟨rfl, hm⟩)⟩
      · exact Or.inl h.2.1
      · exact absurd h.1 (by decide)
    · have hge : (toggleGroup.closeOthers
            { x with effects := x.effects ++ [Effect.bringToTop, Effect.blur b] }
            (Dom.querySelectorAll x.dom c "tah-tab-group")).hoveredGroupsId ≤
          (openGroup.body
            (toggleGroup.closeOthers
              { x with effects := x.effects ++ [Effect.bringToTop, Effect.blur b] }
              (Dom.querySelectorAll x.dom c "tah-tab-group")) e).hoveredGroupsId := by
        rw [oid]
        split
        · exact Nat.le_succ _
        · exact Nat.le_refl _
      have hlt : x.hoveredGroupsId < (toggleGroup.closeOthers
            { x with effects := x.effects ++ [Effect.bringToTop, Effect.blur b] }
            (Dom.querySelectorAll x.dom c "tah-tab-group")).hoveredGroupsId := by
        rw [mid]
        exact Nat.lt_add_of_pos_right hpos
      exact Nat.lt_of_lt_of_le hlt hge

/-- The element of the last identifier present is the element of one of the
identifiers. -/
theorem Dom.lastPresent_mem (d : Dom) (l : List String) (j : Nat)
    (h : Dom.lastPresent d l = some j) : ∃ g ∈ l, Dom.getElementById d g = some j := by
  induction l using List.reverseRecOn with
  | nil => exact absurd h (by simp [Dom.lastPresent])
  | append_singleton l g ih =>
    rw [Dom.lastPresent_append] at h
    cases hg : Dom.getElementById d g with
    | none =>
      simp only [hg] at h
      obtain ⟨g1, h1, h2⟩ := ih h
      exact ⟨g1, List.mem_append_left _ h1, h2⟩
    | some e =>
      simp only [hg] at h
      exact ⟨g, List.mem_append_right _ (List.mem_singleton_self _), by rw [hg]; exact h⟩

/-- A class that no element of the document has. -/
theorem Dom.hasClass_false_of_bounded (d : Dom) (c : String)
    (h : ∀ j < d.length, Dom.hasClass d j c = false) : ∀ j, Dom.hasClass d j c = false := by
  intro j
  by_cases hj : j < d.length
  · exact h j hj
  · cases hh : Dom.hasClass d j c with
    | false => rfl
    | true => exact absurd (Dom.lt_length_of_hasClass hh) hj

/-- The elements of the two identifiers recorded in `sampleBoth`. -/
theorem sampleBoth_elements (id : String) (hid : id ∈ sampleBoth.hoveredGroups) (e : Nat)
    (he : Dom.getElementById sampleBoth.dom id = some e) : e = 1 ∨ e = 3 := by
  have h1 : Dom.getElementById sampleBoth.dom "group-weapons" = some 1 := by decide
  have h3 : Dom.getElementById sampleBoth.dom "group-spells" = some 3 := by decide
  have hid2 : id = "group-weapons" ∨ id = "group-spells" := by
    simpa [sampleBoth] using hid
  rcases hid2 with h | h
  · rw [h, h1] at he
    exact Or.inl (Option.some.inj he).symm
  · rw [h, h3] at he
    exact Or.inr (Option.some.inj he).symm

/-- The chain of ancestors depends on the tree only. -/
theorem Dom.pathFrom_congr {d1 d2 : Dom} (h : Dom.SameTree d1 d2) (fuel j : Nat) :
    Dom.pathFrom d1 fuel j = Dom.pathFrom d2 fuel j := by
  induction fuel generalizing j with
  | zero => rfl
  | succ n ih =>
    unfold Dom.pathFrom
    rw [(h.2 j).1]
    cases Dom.parentElement d2 j with
    | none => rfl
    | some p => simp only [ih p]

/-- The path of an event depends on the tree only. -/
theorem Dom.eventPath_congr {d1 d2 : Dom} (h : Dom.SameTree d1 d2) (j : Nat) :
    Dom.eventPath d1 j = Dom.eventPath d2 j := by
  unfold Dom.eventPath
  rw [h.1, Dom.pathFrom_congr h]

/-- In a document that is not empty the path of an event starts at its target. -/
theorem Dom.eventPath_eq_cons (d : Dom) (j : Nat) (h : 0 < d.length) :
    Dom.eventPath d j = j :: (Dom.eventPath d j).tail := by
  unfold Dom.eventPath
  obtain ⟨n, hn⟩ : ∃ n, d.length = n + 1 := ⟨d.length - 1, by omega⟩
  rw [hn]
  unfold Dom.pathFrom
  rfl

/-- The hover listener of a top-level group, in hover mode, is `openGroup`. -/
theorem mouseenter_of_tab (x : Hud) (e : Nat) (hmode : x.isClickOpen = false)
    (htab : Dom.hasClass x.dom e "tah-tab-group" = true) :
    mouseenter x e = openGroup.body x e := by
  unfold mouseenter openGroup
  simp [hmode, htab]

/-- An element that is no top-level group has no hover listener. -/
theorem mouseenter_of_not_tab (x : Hud) (e : Nat)
    (htab : Dom.hasClass x.dom e "tah-tab-group" = false) : mouseenter x e = x := by
  unfold mouseenter
  simp [htab]

/-- The hover listener either does nothing or is `openGroup`. -/
theorem mouseenter_cases (x : Hud) (e : Nat) (hmode : x.isClickOpen = false) :
    mouseenter x e = x ∨ mouseenter x e = openGroup.body x e := by
  cases htab : Dom.hasClass x.dom e "tah-tab-group" with
  | false => exact Or.inl (mouseenter_of_not_tab x e htab)
  | true => exact Or.inr (mouseenter_of_tab x e hmode htab)

/-- The hover listener does to `hoveredGroups` what one listener may do. -/
theorem mouseenter_hoveredGroupsStep (x : Hud) (e : Nat) (hmode : x.isClickOpen = false) :
    HoveredGroupsStep x (mouseenter x e) ∧ (mouseenter x e).isClickOpen = false := by
  rcases mouseenter_cases x e hmode with h | h
  · rw [h]
    exact ⟨Or.inl ⟨rfl, Or.inl rfl⟩, hmode⟩
  · rw [h]
    have ohs := openGroup_body_hoveredGroups x e
    have oid := openGroup_body_hoveredGroupsId x e
    have ofr := (openGroup_body_frame x e).1
    refine ⟨?_, ofr.trans hmode⟩
    by_cases hlen : x.hoveredGroups.length > 10
    · rw [if_pos hlen] at oid
      exact Or.inr (by omega)
    · rw [if_neg hlen] at oid ohs
      exact Or.inl ⟨oid, Or.inr ⟨by omega, _, ohs⟩⟩

/-- The listeners of one element, when they do to `hoveredGroups` what one
listener may do, keep the state of the loop of `_restoreHoveredGroups`
coherent, do not let the iterated array grow beyond the larger of its length
and 11 entries, and leave an iterated array of more than 10 entries as it
is. -/
theorem listener_step (arrayId : Nat) (handler : Hud → Nat → Hud)
    (st : _restoreHoveredGroups.State) (e : Nat)
    (hc : _restoreHoveredGroups.Coherent arrayId st)
    (hk : HoveredGroupsStep st.hud (handler st.hud e)) :
    _restoreHoveredGroups.Coherent arrayId
        (_restoreHoveredGroups.listener arrayId handler st e) ∧
      max (_restoreHoveredGroups.listener arrayId handler st e).array.length 11
        ≤ max st.array.length 11 ∧
      (10 < st.array.length →
        (_restoreHoveredGroups.listener arrayId handler st e).array = st.array) := by
  obtain ⟨c1, c2⟩ := hc
  have harr : (_restoreHoveredGroups.listener arrayId handler st e).array =
      (if (handler st.hud e).hoveredGroupsId = arrayId
        then (handler st.hud e).hoveredGroups else st.array) := rfl
  have hhud : (_restoreHoveredGroups.listener arrayId handler st e).hud = handler st.hud e := rfl
  unfold _restoreHoveredGroups.Coherent
  rw [harr, hhud]
  by_cases hid : (handler st.hud e).hoveredGroupsId = arrayId
  · rw [if_pos hid]
    rcases hk with ⟨h1, h2⟩ | h1
    · have hcur : st.hud.hoveredGroups = st.array := c2 (h1.symm.trans hid)
      refine ⟨⟨le_of_eq hid.symm, fun _ => rfl⟩, ?_, fun h10 => ?_⟩
      · rcases h2 with h2 | ⟨h2, id, h3⟩
        · rw [h2, hcur]
        · rw [h3, List.length_append, List.length_singleton]
          have := le_max_right st.array.length 11
          omega
      · rcases h2 with h2 | ⟨h2, id, h3⟩
        · rw [h2, hcur]
        · rw [hcur] at h2
          omega
    · omega
  · rw [if_neg hid]
    refine ⟨⟨?_, fun h => absurd h hid⟩, le_refl _, fun _ => rfl⟩
    rcases hk with ⟨h1, _⟩ | h1 <;> omega

/-- One hover listener run during the loop of `_restoreHoveredGroups`, in
hover mode, keeps the state of the loop coherent and the mode as it is, does
not let the iterated array grow beyond the larger of its length and 11
entries, and leaves an iterated array of more than 10 entries as it is. -/
theorem listener_mouseenter_step (arrayId : Nat) (st : _restoreHoveredGroups.State) (e : Nat)
    (hc : _restoreHoveredGroups.Coherent arrayId st) (hmode : st.hud.isClickOpen = false) :
    _restoreHoveredGroups.Coherent arrayId
        (_restoreHoveredGroups.listener arrayId mouseenter st e) ∧
      (_restoreHoveredGroups.listener arrayId mouseenter st e).hud.isClickOpen = false ∧
      max (_restoreHoveredGroups.listener arrayId mouseenter st e).array.length 11
        ≤ max st.array.length 11 ∧
      (10 < st.array.length →
        (_restoreHoveredGroups.listener arrayId mouseenter st e).array = st.array) := by
  obtain ⟨k1, k2⟩ := mouseenter_hoveredGroupsStep st.hud e hmode
  obtain ⟨a1, a2, a3⟩ := listener_step arrayId mouseenter st e hc k1
  exact ⟨a1, k2, a2, a3⟩

/-- The hover listeners run along a path, in hover mode: as for one of them. -/
theorem listeners_mouseenter_step (arrayId : Nat) (path : List Nat)
    (st : _restoreHoveredGroups.State)
    (hc : _restoreHoveredGroups.Coherent arrayId st) (hmode : st.hud.isClickOpen = false) :
    _restoreHoveredGroups.Coherent arrayId
        (path.foldl (_restoreHoveredGroups.listener arrayId mouseenter) st) ∧
      (path.foldl (_restoreHoveredGroups.listener arrayId mouseenter) st).hud.isClickOpen
        = false ∧
      max (path.foldl (_restoreHoveredGroups.listener arrayId mouseenter) st).array.length 11
        ≤ max st.array.length 11 ∧
      (10 < st.array.length →
        (path.foldl (_restoreHoveredGroups.listener arrayId mouseenter) st).array = st.array) := by
  induction path generalizing st with
  | nil => exact ⟨hc, hmode, le_refl _, fun _ => rfl⟩
  | cons e l ih =>
    obtain ⟨a1, a2, a3, a4⟩ := listener_mouseenter_step arrayId st e hc hmode
    obtain ⟨b1, b2, b3, b4⟩ := ih _ a1 a2
    rw [List.foldl_cons]
    refine ⟨b1, b2, le_trans b3 a3, fun h10 => ?_⟩
    rw [b4 (by rw [a4 h10]; exact h10), a4 h10]

/-- The call `groupElement.mouseenter()` in hover mode: as for one hover
listener. -/
theorem restore_mouseenter_step (arrayId : Nat) (groupElement : List Nat)
    (st : _restoreHoveredGroups.State)
    (hc : _restoreHoveredGroups.Coherent arrayId st) (hmode : st.hud.isClickOpen = false) :
    _restoreHoveredGroups.Coherent arrayId
        (_restoreHoveredGroups.mouseenter arrayId st groupElement) ∧
      (_restoreHoveredGroups.mouseenter arrayId st groupElement).hud.isClickOpen = false ∧
      max (_restoreHoveredGroups.mouseenter arrayId st groupElement).array.length 11
        ≤ max st.array.length 11 ∧
      (10 < st.array.length →
        (_restoreHoveredGroups.mouseenter arrayId st groupElement).array = st.array) := by
  unfold _restoreHoveredGroups.mouseenter
  induction groupElement generalizing st with
  | nil => exact ⟨hc, hmode, le_refl _, fun _ => rfl⟩
  | cons e l ih =>
    obtain ⟨a1, a2, a3, a4⟩ :=
      listeners_mouseenter_step arrayId (Dom.eventPath st.hud.dom e) st hc hmode
    obtain ⟨b1, b2, b3, b4⟩ := ih _ a1 a2
    rw [List.foldl_cons]
    refine ⟨b1, b2, le_trans b3 a3, fun h10 => ?_⟩
    rw [b4 (by rw [a4 h10]; exact h10), a4 h10]

/-- The body of the loop of `_restoreHoveredGroups` in hover mode, for any
document, any identifier and any selector engine: when it raises no error it
keeps the state of the loop coherent and the mode as it is, does not let the
iterated array grow beyond the larger of its length and 11 entries, and leaves
an iterated array of more than 10 entries as it is. -/
theorem restore_body_hover_step (find : Dom → String → Except String (List Nat)) (arrayId : Nat)
    (st st1 : _restoreHoveredGroups.State) (g : String)
    (hc : _restoreHoveredGroups.Coherent arrayId st) (hmode : st.hud.isClickOpen = false)
    (hb : _restoreHoveredGroups.body find arrayId st g = Except.ok st1) :
    _restoreHoveredGroups.Coherent arrayId st1 ∧ st1.hud.isClickOpen = false ∧
      max st1.array.length 11 ≤ max st.array.length 11 ∧
      (10 < st.array.length → st1.array = st.array) := by
  unfold _restoreHoveredGroups.body at hb
  cases hq : jQuery find st.hud.dom g with
  | error e => simp [hq] at hb
  | ok groupElement =>
    cases groupElement with
    | nil =>
      simp only [hq, Except.ok.injEq] at hb
      rw [← hb]
      exact ⟨hc, hmode, le_refl _, fun _ => rfl⟩
    | cons e l =>
      simp only [hq, hmode, Bool.false_eq_true, if_false, Except.ok.injEq] at hb
      rw [← hb]
      exact restore_mouseenter_step arrayId (e :: l) st hc hmode

/-! ## Theorems: termination of the restoration -/

/-- The loop of `_restoreHoveredGroups` ends within the fuel, whenever its
body keeps an invariant of the index and the state of the loop and does not
let the iterated array grow beyond the larger of its length and 11 entries:
it ends past the last entry in the invariant, or with an error raised by its
body in the invariant. -/
theorem restore_loop_inv (find : Dom → String → Except String (List Nat)) (arrayId : Nat)
    (inv : Nat → _restoreHoveredGroups.State → Prop)
    (hstep : ∀ (i : Nat) (st : _restoreHoveredGroups.State) (g : String)
      (st1 : _restoreHoveredGroups.State), inv i st → st.array[i]? = some g →
        _restoreHoveredGroups.body find arrayId st g = Except.ok st1 →
          inv (i + 1) st1 ∧ max st1.array.length 11 ≤ max st.array.length 11)
    (fuel index : Nat) (st : _restoreHoveredGroups.State) (hinv : inv index st)
    (hfuel : max st.array.length 11 ≤ fuel + index) :
    ∃ r, _restoreHoveredGroups.loop find arrayId fuel index st = some r ∧
      (∀ x1, r = Except.ok x1 →
        ∃ i1 st1, st1.hud = x1 ∧ inv i1 st1 ∧ st1.array[i1]? = none) ∧
      (∀ e, r = Except.error e →
        ∃ i st1 g, inv i st1 ∧ st1.array[i]? = some g ∧
          _restoreHoveredGroups.body find arrayId st1 g = Except.error e) := by
  induction fuel generalizing index st with
  | zero =>
    unfold _restoreHoveredGroups.loop
    cases hg : st.array[index]? with
    | none =>
      refine ⟨Except.ok st.hud, rfl, fun x1 hx => ⟨index, st, ?_, hinv, hg⟩,
        fun e he => by simp at he⟩
      exact Except.ok.inj hx
    | some g =>
      have hlt := (List.getElem?_eq_some_iff.1 hg).1
      have := le_max_left st.array.length 11
      omega
  | succ n ih =>
    unfold _restoreHoveredGroups.loop
    cases hg : st.array[index]? with
    | none =>
      refine ⟨Except.ok st.hud, rfl, fun x1 hx => ⟨index, st, ?_, hinv, hg⟩,
        fun e he => by simp at he⟩
      exact Except.ok.inj hx
    | some g =>
      cases hb : _restoreHoveredGroups.body find arrayId st g with
      | error e =>
        simp only [hb]
        refine ⟨Except.error e, rfl, fun x1 hx => by simp at hx, fun e1 he => ?_⟩
        rw [← Except.error.inj he]
        exact ⟨index, st, g, hinv, hg, hb⟩
      | ok st1 =>
        obtain ⟨hi1, hm⟩ := hstep index st g st1 hinv hg hb
        simp only [hb]
        exact ih (index + 1) st1 hi1 (by omega)

/-- A result of the loop of `_restoreHoveredGroups` does not depend on the
fuel: more fuel gives the same result. -/
theorem restore_loop_fuel_mono (find : Dom → String → Except String (List Nat))
    (arrayId fuel more index : Nat) (st : _restoreHoveredGroups.State)
    (r : Except String Hud)
    (h : _restoreHoveredGroups.loop find arrayId fuel index st = some r) :
    _restoreHoveredGroups.loop find arrayId (fuel + more) index st = some r := by
  induction fuel generalizing index st more with
  | zero =>
    unfold _restoreHoveredGroups.loop at h
    rw [Nat.zero_add]
    cases hg : st.array[index]? with
    | none =>
      rw [hg] at h
      cases more with
      | zero =>
        unfold _restoreHoveredGroups.loop
        rw [hg]
        exact h
      | succ m =>
        unfold _restoreHoveredGroups.loop
        rw [hg]
        exact h
    | some g =>
      rw [hg] at h
      exact absurd h (by simp)
  | succ n ih =>
    have hadd : n + 1 + more = (n + more) + 1 := by omega
    rw [hadd]
    unfold _restoreHoveredGroups.loop at h ⊢
    cases hg : st.array[index]? with
    | none =>
      rw [hg] at h
      exact h
    | some g =>
      rw [hg] at h
      cases hb : _restoreHoveredGroups.body find arrayId st g with
      | error e =>
        simp only [hb] at h ⊢
        exact h
      | ok st1 =>
        simp only [hb] at h ⊢
        exact ih more (index + 1) st1 h

/-- The number of runs of the body of the loop of `_restoreHoveredGroups` is at
most the larger of the length of the iterated array and 11, less the index,
whenever its body keeps an invariant and does not let the array grow beyond
the larger of its length and 11 entries. -/
theorem restore_runs_le (find : Dom → String → Except String (List Nat)) (arrayId : Nat)
    (inv : Nat → _restoreHoveredGroups.State → Prop)
    (hstep : ∀ (i : Nat) (st : _restoreHoveredGroups.State) (g : String)
      (st1 : _restoreHoveredGroups.State), inv i st → st.array[i]? = some g →
        _restoreHoveredGroups.body find arrayId st g = Except.ok st1 →
          inv (i + 1) st1 ∧ max st1.array.length 11 ≤ max st.array.length 11)
    (fuel index : Nat) (st : _restoreHoveredGroups.State) (hinv : inv index st) :
    _restoreHoveredGroups.runs find arrayId fuel index st + index ≤
      max (max st.array.length 11) index := by
  induction fuel generalizing index st with
  | zero =>
    unfold _restoreHoveredGroups.runs
    rw [Nat.zero_add]
    exact le_max_right _ _
  | succ n ih =>
    unfold _restoreHoveredGroups.runs
    cases hg : st.array[index]? with
    | none =>
      show 0 + index ≤ _
      rw [Nat.zero_add]
      exact le_max_right _ _
    | some g =>
      have hlt := (List.getElem?_eq_some_iff.1 hg).1
      have h1 := le_max_left st.array.length 11
      have h2 := le_max_left (max st.array.length 11) index
      cases hb : _restoreHoveredGroups.body find arrayId st g with
      | error e =>
        simp only [hb]
        omega
      | ok st1 =>
        obtain ⟨hi1, hm⟩ := hstep index st g st1 hinv hg hb
        have hrec := ih (index + 1) st1 hi1
        have h3 : max (max st1.array.length 11) (index + 1) ≤ max st.array.length 11 :=
          max_le hm (by omega)
        simp only [hb]
        omega

/-- In hover mode an error of the body of the loop of `_restoreHoveredGroups`
is an error thrown by `$`. -/
theorem restore_body_hover_error (find : Dom → String → Except String (List Nat))
    (arrayId : Nat) (st : _restoreHoveredGroups.State) (g e : String)
    (hmode : st.hud.isClickOpen = false)
    (hb : _restoreHoveredGroups.body find arrayId st g = Except.error e) :
    jQuery find st.hud.dom g = Except.error e := by
  unfold _restoreHoveredGroups.body at hb
  cases hq : jQuery find st.hud.dom g with
  | error e1 =>
    simp only [hq, Except.error.injEq] at hb
    rw [hb]
  | ok groupElement =>
    cases groupElement with
    | nil => simp [hq] at hb
    | cons a l => simp [hq, hmode] at hb

/-- C21: in hover mode `_restoreHoveredGroups` ends for every `hoveredGroups`,
every document and every selector engine, although each replayed open pushes
to the array that the loop iterates: an iterated array of more than 10 entries
is never pushed to (`_setHoveredGroup` assigns a new array instead), so the
loop ends within any fuel of at least the larger of the length of the set and
11, with a result or with an error thrown by `$`, and its body is run at most
that many times: at most 11 times when the set starts with at most 11
entries. -/
theorem restore_hover_terminates (find : Dom → String → Except String (List Nat)) (s : Hud)
    (hmode : s.isClickOpen = false) :
    (∃ r, _restoreHoveredGroups find s = some r ∧
      (∀ fuel, max s.hoveredGroups.length 11 ≤ fuel →
        _restoreHoveredGroups.loop find s.hoveredGroupsId fuel 0
          { array := s.hoveredGroups, hud := s } = some r) ∧
      (∀ e, r = Except.error e → ∃ d g, jQuery find d g = Except.error e)) ∧
      (∀ fuel, _restoreHoveredGroups.runs find s.hoveredGroupsId fuel 0
          { array := s.hoveredGroups, hud := s } ≤ max s.hoveredGroups.length 11) ∧
      (s.hoveredGroups.length ≤ 11 →
        ∀ fuel, _restoreHoveredGroups.runs find s.hoveredGroupsId fuel 0
          { array := s.hoveredGroups, hud := s } ≤ 11) ∧
      (∀ groupId st1, 10 < s.hoveredGroups.length →
        _restoreHoveredGroups.body find s.hoveredGroupsId
          { array := s.hoveredGroups, hud := s } groupId = Except.ok st1 →
        st1.array = s.hoveredGroups) := by
  have hc0 : _restoreHoveredGroups.Coherent s.hoveredGroupsId
      { array := s.hoveredGroups, hud := s } := ⟨le_refl _, fun _ => rfl⟩
  have hstep : ∀ (i : Nat) (st : _restoreHoveredGroups.State) (g : String)
      (st1 : _restoreHoveredGroups.State),
      (_restoreHoveredGroups.Coherent s.hoveredGroupsId st ∧ st.hud.isClickOpen = false) →
      st.array[i]? = some g →
      _restoreHoveredGroups.body find s.hoveredGroupsId st g = Except.ok st1 →
        (_restoreHoveredGroups.Coherent s.hoveredGroupsId st1 ∧ st1.hud.isClickOpen = false) ∧
          max st1.array.length 11 ≤ max st.array.length 11 := by
    intro i st g st1 hi _ hb
    obtain ⟨a1, a2, a3, _⟩ := restore_body_hover_step find _ st st1 g hi.1 hi.2 hb
    exact ⟨⟨a1, a2⟩, a3⟩
  have hruns : ∀ fuel, _restoreHoveredGroups.runs find s.hoveredGroupsId fuel 0
      { array := s.hoveredGroups, hud := s } ≤ max s.hoveredGroups.length 11 := by
    intro fuel
    have h := restore_runs_le find s.hoveredGroupsId
      (fun _ st => _restoreHoveredGroups.Coherent s.hoveredGroupsId st ∧
        st.hud.isClickOpen = false)
      hstep fuel 0 { array := s.hoveredGroups, hud := s } ⟨hc0, hmode⟩
    rw [Nat.add_zero] at h
    have h0 : max (max s.hoveredGroups.length 11) 0 = max s.hoveredGroups.length 11 :=
      max_eq_left (Nat.zero_le _)
    rw [h0] at h
    exact h
  refine ⟨?_, hruns, fun hlen fuel => ?_, fun groupId st1 hlen hb => ?_⟩
  · obtain ⟨r, hloop, _, herr⟩ := restore_loop_inv find s.hoveredGroupsId
      (fun _ st => _restoreHoveredGroups.Coherent s.hoveredGroupsId st ∧
        st.hud.isClickOpen = false)
      hstep (max s.hoveredGroups.length 11) 0 { array := s.hoveredGroups, hud := s }
      ⟨hc0, hmode⟩ (le_refl _)
    have hany : ∀ fuel, max s.hoveredGroups.length 11 ≤ fuel →
        _restoreHoveredGroups.loop find s.hoveredGroupsId fuel 0
          { array := s.hoveredGroups, hud := s } = some r := by
      intro fuel hfuel
      have hsplit : fuel = max s.hoveredGroups.length 11 +
          (fuel - max s.hoveredGroups.length 11) := by omega
      rw [hsplit]
      exact restore_loop_fuel_mono _ _ _ _ _ _ _ hloop
    refine ⟨r, ?_, hany, fun e he => ?_⟩
    · unfold _restoreHoveredGroups
      split
      · rename_i hzero
        have h11 := hany 11 (by
          rw [hzero]
          exact le_refl _)
        have hnil : s.hoveredGroups = [] := List.length_eq_zero.1 hzero
        unfold _restoreHoveredGroups.loop at h11
        simp only [hnil, List.getElem?_nil] at h11
        exact h11
      · exact hloop
    · obtain ⟨i, st1, g, hi, _, hb⟩ := herr e he
      exact ⟨st1.hud.dom, g, restore_body_hover_error find _ st1 g e hi.2 hb⟩
  · have h := hruns fuel
    rw [max_eq_right hlen] at h
    exact h
  · exact (restore_body_hover_step find _ _ st1 groupId hc0 hmode hb).2.2.2 hlen

/-- C21, at three samples in hover mode.  With two identifiers recorded and
both in the new tree the body is run 11 times, the replayed opens being
replayed in turn until the iterated array holds 11 entries.  With 'g-inner'
recorded, a top-level group inside the top-level group 'g-outer', every
replayed open pushes two identifiers, and the body is still run 11 times.
With the empty identifier recorded the loop ends at its first run with the
error thrown by `$`. -/
theorem restore_hover_terminates_witness :
    sampleBoth.isClickOpen = false ∧
      (∃ r, _restoreHoveredGroups sampleFind sampleBoth = some r) ∧
      (∀ fuel, _restoreHoveredGroups.runs sampleFind sampleBoth.hoveredGroupsId fuel 0
        { array := sampleBoth.hoveredGroups, hud := sampleBoth } ≤ 11) ∧
      _restoreHoveredGroups.runs sampleFind sampleBoth.hoveredGroupsId 20 0
        { array := sampleBoth.hoveredGroups, hud := sampleBoth } = 11 ∧
      _restoreHoveredGroups.runs sampleFind sampleNested.hoveredGroupsId 20 0
        { array := sampleNested.hoveredGroups, hud := sampleNested } = 11 ∧
      (∀ fuel, _restoreHoveredGroups.runs sampleFind sampleEmptyId.hoveredGroupsId fuel 0
        { array := sampleEmptyId.hoveredGroups, hud := sampleEmptyId } ≤ 11) ∧
      _restoreHoveredGroups sampleFind sampleEmptyId
        = some (Except.error "Syntax error, unrecognized expression: #") := by
  obtain ⟨⟨r, h1, _⟩, _, h3, _⟩ := restore_hover_terminates sampleFind sampleBoth rfl
  exact ⟨rfl, ⟨r, h1⟩, h3 (by decide), by decide, by decide,
    (restore_hover_terminates sampleFind sampleEmptyId rfl).2.2.1 (by decide), rfl⟩

/-! ## Theorems: what the restoration opens -/

/-- The call `$('#' + groupId)` for an identifier of the form `[\w-]+`. -/
theorem jQuery_of_quick (find : Dom → String → Except String (List Nat)) (d : Dom)
    (g : String) (hq : isQuickId g = true) :
    jQuery find d g =
      (match Dom.getElementById d g with
       | some element => Except.ok [element]
       | none => Except.ok []) := by
  unfold jQuery
  rw [if_pos hq]

/-- The body of the loop of `_restoreHoveredGroups` for an identifier of the
form `[\w-]+` that is not in the document: the identifier is skipped. -/
theorem restore_body_absent (find : Dom → String → Except String (List Nat)) (arrayId : Nat)
    (st : _restoreHoveredGroups.State) (g : String) (hq : isQuickId g = true)
    (h : Dom.getElementById st.hud.dom g = none) :
    _restoreHoveredGroups.body find arrayId st g = Except.ok st := by
  unfold _restoreHoveredGroups.body
  rw [jQuery_of_quick find _ g hq, h]

/-- Listeners that leave the HUD as it is leave a coherent state of the loop
as it is. -/
theorem listener_of_noop (arrayId : Nat) (handler : Hud → Nat → Hud)
    (st : _restoreHoveredGroups.State) (a : Nat)
    (hc : _restoreHoveredGroups.Coherent arrayId st) (h : handler st.hud a = st.hud) :
    _restoreHoveredGroups.listener arrayId handler st a = st := by
  unfold _restoreHoveredGroups.listener
  rw [h]
  by_cases hid : st.hud.hoveredGroupsId = arrayId
  · rw [if_pos hid, hc.2 hid]
  · rw [if_neg hid]

/-- Along a path without top-level groups a triggered `mouseenter` runs no
listener. -/
theorem listeners_mouseenter_noop (arrayId : Nat) (path : List Nat)
    (st : _restoreHoveredGroups.State) (hc : _restoreHoveredGroups.Coherent arrayId st)
    (h : ∀ a ∈ path, Dom.hasClass st.hud.dom a "tah-tab-group" = false) :
    path.foldl (_restoreHoveredGroups.listener arrayId mouseenter) st = st := by
  induction path with
  | nil => rfl
  | cons a l ih =>
    rw [List.foldl_cons,
      listener_of_noop arrayId mouseenter st a hc
        (mouseenter_of_not_tab st.hud a (h a (List.mem_cons_self _ _)))]
    exact ih (fun b hb => h b (List.mem_cons_of_mem _ hb))

/-- The body of the loop of `_restoreHoveredGroups` in hover mode for an
identifier of the form `[\w-]+` of a top-level group that lies in no other
top-level group: the hover listener of the group is run, and no other. -/
theorem restore_body_hover (find : Dom → String → Except String (List Nat)) (arrayId : Nat)
    (st : _restoreHoveredGroups.State) (g : String) (e : Nat)
    (hc : _restoreHoveredGroups.Coherent arrayId st) (hmode : st.hud.isClickOpen = false)
    (hq : isQuickId g = true) (h : Dom.getElementById st.hud.dom g = some e)
    (houter : Dom.IsOuterTabGroup st.hud.dom e) :
    _restoreHoveredGroups.body find arrayId st g =
        Except.ok (_restoreHoveredGroups.listener arrayId mouseenter st e) ∧
      (_restoreHoveredGroups.listener arrayId mouseenter st e).hud = openGroup.body st.hud e := by
  have hhud : (_restoreHoveredGroups.listener arrayId mouseenter st e).hud
      = openGroup.body st.hud e := by
    show mouseenter st.hud e = _
    exact mouseenter_of_tab st.hud e hmode houter.1
  refine ⟨?_, hhud⟩
  have hlt : 0 < st.hud.dom.length := by
    have := (Dom.getElementById_some h).1
    omega
  have hc1 := (listener_mouseenter_step arrayId st e hc hmode).1
  unfold _restoreHoveredGroups.body
  rw [jQuery_of_quick find _ g hq, h]
  simp only [hmode, Bool.false_eq_true, if_false]
  unfold _restoreHoveredGroups.mouseenter
  rw [List.foldl_cons, List.foldl_nil, Dom.eventPath_eq_cons _ e hlt, List.foldl_cons,
    listeners_mouseenter_noop arrayId _ _ hc1]
  intro a ha
  rw [hhud, (openGroup_body_sameButShown st.hud e).2 a _ (by decide) (by decide)]
  exact houter.2 a ha

/-- The body of the loop of `_restoreHoveredGroups` in hover mode keeps the
invariant of the loop, when the recorded identifiers have the form `[\w-]+`
and those in the document are ids of top-level groups that lie in no other
top-level group. -/
theorem restore_hover_inv_step (find : Dom → String → Except String (List Nat)) (s : Hud)
    (hquick : ∀ id ∈ s.hoveredGroups, isQuickId id = true)
    (houter : ∀ id ∈ s.hoveredGroups, ∀ e, Dom.getElementById s.dom id = some e →
      Dom.IsOuterTabGroup s.dom e)
    (i : Nat) (st : _restoreHoveredGroups.State) (g : String)
    (hinv : _restoreHoveredGroups.HoverInv s i st) (hg : st.array[i]? = some g) :
    ∃ st1, _restoreHoveredGroups.body find s.hoveredGroupsId st g = Except.ok st1 ∧
      _restoreHoveredGroups.HoverInv s (i + 1) st1 := by
  obtain ⟨a1, a2, a3, ⟨t, a4, a4m⟩, a5, a6, a7⟩ := hinv
  have hilt : i < st.array.length := (List.getElem?_eq_some_iff.1 hg).1
  have hgmem : g ∈ s.hoveredGroups := by
    have hc : g ∈ st.array := List.getElem?_mem hg
    rw [a4] at hc
    rcases List.mem_append.1 hc with h | h
    · exact h
    · exact (a4m g h).1
  have htake : st.array.take (i + 1) = st.array.take i ++ [g] := by
    rw [List.take_succ, hg]
    rfl
  have hfind : Dom.getElementById st.hud.dom g = Dom.getElementById s.dom g :=
    Dom.getElementById_congr a1.1 g
  cases hfe : Dom.getElementById s.dom g with
  | none =>
    refine ⟨st, restore_body_absent find _ st g (hquick g hgmem) (hfind.trans hfe),
      a1, a2, a3, ⟨t, a4, a4m⟩, fun j => ?_, fun hid => ?_, a7⟩
    · rw [a5 j, htake]
      constructor
      · rintro (h | ⟨g1, h1, h2⟩)
        · exact Or.inl h
        · exact Or.inr ⟨g1, List.mem_append_left _ h1, h2⟩
      · rintro (h | ⟨g1, h1, h2⟩)
        · exact Or.inl h
        · rcases List.mem_append.1 h1 with h | h
          · exact Or.inr ⟨g1, h, h2⟩
          · rw [List.mem_singleton] at h
            rw [h, hfe] at h2
            exact absurd h2 (by simp)
    · rw [a6 hid, htake, List.filter_append]
      simp [hfe]
  | some e =>
    obtain ⟨he1, he2⟩ := Dom.getElementById_some hfe
    have houterx : Dom.IsOuterTabGroup st.hud.dom e := by
      obtain ⟨o1, o2⟩ := houter g hgmem e hfe
      refine ⟨?_, fun a ha => ?_⟩
      · rw [a1.2 e _ (by decide) (by decide)]
        exact o1
      · rw [a1.2 a _ (by decide) (by decide)]
        rw [Dom.eventPath_congr a1.1] at ha
        exact o2 a ha
    have hidx : Dom.idOf st.hud.dom e = g := by
      rw [(a1.1.2 e).2]
      exact he2
    obtain ⟨hb, hhud⟩ := restore_body_hover find s.hoveredGroupsId st g e a3 a2
      (hquick g hgmem) (hfind.trans hfe) houterx
    have harr : (_restoreHoveredGroups.listener s.hoveredGroupsId mouseenter st e).array =
        (if (openGroup.body st.hud e).hoveredGroupsId = s.hoveredGroupsId
          then (openGroup.body st.hud e).hoveredGroups else st.array) := by
      rw [← hhud]
      rfl
    have hc1 := (listener_mouseenter_step s.hoveredGroupsId st e a3 a2).1
    have o1 := openGroup_body_sameButShown st.hud e
    have odom := (openGroup_body_dom st.hud e).2.1
    have ohs := openGroup_body_hoveredGroups st.hud e
    have oid := openGroup_body_hoveredGroupsId st.hud e
    have ofr := (openGroup_body_frame st.hud e).1
    rw [hidx] at ohs
    have hpres : (Dom.getElementById s.dom g).isSome = true := by rw [hfe]; rfl
    have hhover : ∀ j, Dom.hasClass (openGroup.body st.hud e).dom j "hover" = true ↔
        (Dom.hasClass s.dom j "hover" = true ∨
          ∃ g1 ∈ st.array.take i ++ [g], Dom.getElementById s.dom g1 = some j) := by
      intro j
      rw [odom j "hover", a5 j]
      constructor
      · rintro ((h | ⟨g1, h1, h2⟩) | ⟨_, h, _⟩ | ⟨h, _⟩)
        · exact Or.inl h
        · exact Or.inr ⟨g1, List.mem_append_left _ h1, h2⟩
        · exact Or.inr ⟨g, List.mem_append_right _ (List.mem_singleton_self _),
            by rw [hfe, h]⟩
        · exact absurd h (by decide)
      · rintro (h | ⟨g1, h1, h2⟩)
        · exact Or.inl (Or.inl h)
        · rcases List.mem_append.1 h1 with h | h
          · exact Or.inl (Or.inr ⟨g1, h, h2⟩)
          · rw [List.mem_singleton] at h
            rw [h, hfe] at h2
            have hje : e = j := Option.some.inj h2
            refine Or.inr (Or.inl ⟨rfl, hje.symm, ?_⟩)
            rw [← hje, a1.1.1]
            exact he1
    refine ⟨_, hb, ?_⟩
    unfold _restoreHoveredGroups.HoverInv
    rw [hhud, harr]
    refine ⟨Dom.sameButShown_trans o1 a1, ofr.trans a2, ?_, ?_, ?_, ?_, ?_⟩
    · exact hc1
    · by_cases hid : (openGroup.body st.hud e).hoveredGroupsId = s.hoveredGroupsId
      · rw [if_pos hid]
        by_cases hlen : st.hud.hoveredGroups.length > 10
        · rw [if_pos hlen] at oid
          have := a3.1
          omega
        · rw [if_neg hlen] at oid ohs
          rw [ohs, a3.2 (oid.symm.trans hid), a4]
          refine ⟨t ++ [g], by rw [List.append_assoc], fun g1 hg1 => ?_⟩
          rcases List.mem_append.1 hg1 with h | h
          · exact a4m g1 h
          · rw [List.mem_singleton] at h
            rw [h]
            exact ⟨hgmem, hpres⟩
      · rw [if_neg hid]
        exact ⟨t, a4, a4m⟩
    · intro j
      rw [hhover j]
      by_cases hid : (openGroup.body st.hud e).hoveredGroupsId = s.hoveredGroupsId
      · rw [if_pos hid]
        by_cases hlen : st.hud.hoveredGroups.length > 10
        · rw [if_pos hlen] at oid
          have := a3.1
          omega
        · rw [if_neg hlen] at oid ohs
          rw [ohs, a3.2 (oid.symm.trans hid), List.take_append_of_le_length (by omega), htake]
      · rw [if_neg hid, htake]
    · intro hid
      rw [if_pos hid]
      by_cases hlen : st.hud.hoveredGroups.length > 10
      · rw [if_pos hlen] at oid
        have := a3.1
        omega
      · rw [if_neg hlen] at oid ohs
        have hal : st.hud.hoveredGroupsId = s.hoveredGroupsId := oid.symm.trans hid
        rw [ohs, a3.2 hal, List.take_append_of_le_length (by omega), htake,
          List.filter_append, List.length_append, List.length_append, a6 hal]
        simp [hfe]
        omega
    · intro hid g1 hg1
      rw [ohs] at hg1
      rcases List.mem_append.1 hg1 with h | h
      · by_cases hlen : st.hud.hoveredGroups.length > 10
        · rw [if_pos hlen] at h
          exact absurd h (List.not_mem_nil _)
        · rw [if_neg hlen] at h oid
          exact a7 (by rw [← oid]; exact hid) g1 h
      · rw [List.mem_singleton] at h
        rw [h]
        exact ⟨hgmem, hpres⟩

/-- In hover mode, when the recorded identifiers have the form `[\w-]+` and
those in the document are ids of top-level groups that lie in no other
top-level group, `_restoreHoveredGroups` ends without error, changes the
classes `hover` and `tah-hidden` only, and marks as open exactly the elements
of the recorded identifiers, besides those that were open before; and when
some recorded identifier is in the document, `hoveredGroups` holds afterwards
only recorded identifiers that are in the document. -/
theorem restore_hover_spec (find : Dom → String → Except String (List Nat)) (s : Hud)
    (hmode : s.isClickOpen = false)
    (hquick : ∀ id ∈ s.hoveredGroups, isQuickId id = true)
    (houter : ∀ id ∈ s.hoveredGroups, ∀ e, Dom.getElementById s.dom id = some e →
      Dom.IsOuterTabGroup s.dom e) :
    ∃ s1, _restoreHoveredGroups find s = some (Except.ok s1) ∧
      Dom.SameButShown s1.dom s.dom ∧
      (∀ j, Dom.hasClass s1.dom j "hover" = true ↔
        (Dom.hasClass s.dom j "hover" = true ∨
          ∃ id ∈ s.hoveredGroups, Dom.getElementById s.dom id = some j)) ∧
      ((∃ id ∈ s.hoveredGroups, (Dom.getElementById s.dom id).isSome = true) →
        ∀ id ∈ s1.hoveredGroups,
          id ∈ s.hoveredGroups ∧ (Dom.getElementById s.dom id).isSome = true) := by
  unfold _restoreHoveredGroups
  split
  · rename_i hlen
    have hnil : s.hoveredGroups = [] := List.length_eq_zero.1 hlen
    refine ⟨s, rfl, Dom.sameButShown_refl _, fun j => by simp [hnil], ?_⟩
    rintro ⟨id, hid, _⟩
    rw [hnil] at hid
    exact absurd hid (List.not_mem_nil _)
  · have hinv0 : _restoreHoveredGroups.HoverInv s 0 { array := s.hoveredGroups, hud := s } :=
      ⟨Dom.sameButShown_refl _, hmode, ⟨le_refl _, fun _ => rfl⟩, ⟨[], by simp, by simp⟩,
        fun j => by simp, fun _ => by simp, fun h => absurd rfl h⟩
    obtain ⟨r, hloop, hok, herr⟩ := restore_loop_inv find s.hoveredGroupsId
      (_restoreHoveredGroups.HoverInv s)
      (fun i st g st1 hi hg hb => by
        obtain ⟨st2, hb2, hi2⟩ := restore_hover_inv_step find s hquick houter i st g hi hg
        rw [hb2] at hb
        rw [← Except.ok.inj hb]
        exact ⟨hi2, (restore_body_hover_step find _ st st2 g hi.2.2.1 hi.2.1 hb2).2.2.1⟩)
      (max s.hoveredGroups.length 11) 0 { array := s.hoveredGroups, hud := s } hinv0
      (le_refl _)
    cases r with
    | error e =>
      obtain ⟨i, st1, g, hi, hg, hb⟩ := herr e rfl
      obtain ⟨st2, hb2, _⟩ := restore_hover_inv_step find s hquick houter i st1 g hi hg
      rw [hb2] at hb
      exact absurd hb (by simp)
    | ok x1 =>
      obtain ⟨i1, st1, hx, ⟨b1, _, b3, ⟨t, b4, b4m⟩, b5, b6, b7⟩, hend⟩ := hok x1 rfl
      have hall : st1.array.take i1 = st1.array :=
        List.take_of_length_le (List.getElem?_eq_none_iff.1 hend)
      rw [hall] at b5 b6
      rw [hx] at b1 b5 b6 b7
      refine ⟨x1, hloop, b1, fun j => ?_, ?_⟩
      · rw [b5 j, b4]
        constructor
        · rintro (h | ⟨g1, h1, h2⟩)
          · exact Or.inl h
          · rcases List.mem_append.1 h1 with h | h
            · exact Or.inr ⟨g1, h, h2⟩
            · exact Or.inr ⟨g1, (b4m g1 h).1, h2⟩
        · rintro (h | ⟨g1, h1, h2⟩)
          · exact Or.inl h
          · exact Or.inr ⟨g1, List.mem_append_left _ h1, h2⟩
      · rintro ⟨id, hid, hpres⟩
        by_cases hal : x1.hoveredGroupsId = s.hoveredGroupsId
        · exfalso
          have h6 := b6 hal
          have hft : (t.filter (fun g => (Dom.getElementById s.dom g).isSome)).length
              = t.length := by
            rw [List.filter_eq_self.2 (fun g hg => (b4m g hg).2)]
          have hpos : 0 < ((s.hoveredGroups).filter
              (fun g => (Dom.getElementById s.dom g).isSome)).length :=
            List.length_pos_of_mem (List.mem_filter.2 ⟨hid, hpres⟩)
          rw [b4, List.filter_append, List.length_append, List.length_append, hft] at h6
          omega
        · exact b7 hal

/-! ## Theorems: the restoration in click mode -/

/-- The array in `hoveredGroups` after the loop of `toggleGroup`: the ids of
the elements of the loop are filtered out. -/
theorem closeOthers_hoveredGroups (l : List Nat) (s : Hud) :
    (toggleGroup.closeOthers s l).hoveredGroups =
      s.hoveredGroups.filter (fun id => l.all (fun e => id != Dom.idOf s.dom e)) := by
  induction l generalizing s with
  | nil =>
    show s.hoveredGroups = _
    simp
  | cons e l ih =>
    have hstep : toggleGroup.closeOthers s (e :: l) =
        toggleGroup.closeOthers
          (_clearHoveredGroup { s with dom := Dom.removeClass s.dom e "hover" }
            (Dom.idOf s.dom e)) l := rfl
    rw [hstep, ih]
    show List.filter _ (s.hoveredGroups.filter (fun id => id != Dom.idOf s.dom e)) = _
    rw [List.filter_filter]
    apply List.filter_congr
    intro id _
    show (l.all (fun a => id != Dom.idOf (Dom.removeClass s.dom e "hover") a) &&
      (id != Dom.idOf s.dom e)) = _
    simp only [Dom.idOf_removeClass, List.all_cons, Bool.and_comm]

/-- An element that is no group button has no `click` listener of the group
buttons. -/
theorem clickGroupButton_of_not_button (x : Hud) (a : Nat)
    (h : Dom.hasClass x.dom a "tah-group-button" = false) : clickGroupButton x a = x := by
  unfold clickGroupButton
  simp [h]

/-- A click, while the HUD is rendering in click mode, on the button of an
open group leaves `hoveredGroups` as it is. -/
theorem clickGroupButton_open_hoveredGroups (x : Hud) (b e : Nat)
    (hmode : x.isClickOpen = true) (hr : x.rendering = true)
    (hbtn : Dom.hasClass x.dom b "tah-group-button" = true)
    (hp : Dom.parentElement x.dom b = some e)
    (hh : Dom.hasClass x.dom e "hover" = true) :
    (clickGroupButton x b).hoveredGroups = x.hoveredGroups := by
  have ht := toggleGroup_of_open
    { x with effects := x.effects ++ [Effect.bringToTop, Effect.blur b] } b e hmode hp hh
  have hr1 : ({ x with effects := x.effects ++ [Effect.bringToTop, Effect.blur b] } :
      Hud).rendering = true := hr
  have hm1 : ({ x with effects := x.effects ++ [Effect.bringToTop, Effect.blur b] } :
      Hud).isClickOpen = true := hmode
  rw [if_pos hr1] at ht
  unfold clickGroupButton
  rw [if_pos hbtn]
  dsimp only []
  rw [if_pos hm1, ht]
  rfl

/-- A click, in click mode, on the button of a closed top-level group that
lies in a container: the ids of the top-level groups of the container are
filtered out of `hoveredGroups`, then the id of the group is recorded by
`_setHoveredGroup`. -/
theorem clickGroupButton_closed_hoveredGroups (x : Hud) (b e c : Nat)
    (hmode : x.isClickOpen = true)
    (hbtn : Dom.hasClass x.dom b "tah-group-button" = true)
    (hp : Dom.parentElement x.dom b = some e) (hc : Dom.parentElement x.dom e = some c)
    (hh : Dom.hasClass x.dom e "hover" = false) :
    (clickGroupButton x b).hoveredGroups =
      (if (x.hoveredGroups.filter (fun id =>
            (Dom.querySelectorAll x.dom c "tah-tab-group").all
              (fun a => id != Dom.idOf x.dom a))).length > 10
        then []
        else x.hoveredGroups.filter (fun id =>
            (Dom.querySelectorAll x.dom c "tah-tab-group").all
              (fun a => id != Dom.idOf x.dom a))) ++ [Dom.idOf x.dom e] := by
  have ht := toggleGroup_of_closed
    { x with effects := x.effects ++ [Effect.bringToTop, Effect.blur b] } b e c hmode hp hh hc
  have hm1 : ({ x with effects := x.effects ++ [Effect.bringToTop, Effect.blur b] } :
      Hud).isClickOpen = true := hmode
  have hres : clickGroupButton x b =
      blur (openGroup.body
        (toggleGroup.closeOthers
          { x with effects := x.effects ++ [Effect.bringToTop, Effect.blur b] }
          (Dom.querySelectorAll x.dom c "tah-tab-group")) e) b := by
    unfold clickGroupButton
    rw [if_pos hbtn]
    dsimp only []
    rw [if_pos hm1, ht]
  have hco := closeOthers_hoveredGroups (Dom.querySelectorAll x.dom c "tah-tab-group")
    { x with effects := x.effects ++ [Effect.bringToTop, Effect.blur b] }
  have hst := (closeOthers_spec (Dom.querySelectorAll x.dom c "tah-tab-group")
    { x with effects := x.effects ++ [Effect.bringToTop, Effect.blur b] }).1
  have ohs := openGroup_body_hoveredGroups
    (toggleGroup.closeOthers
      { x with effects := x.effects ++ [Effect.bringToTop, Effect.blur b] }
      (Dom.querySelectorAll x.dom c "tah-tab-group")) e
  rw [hres]
  show (openGroup.body _ e).hoveredGroups = _
  rw [ohs, hco, (hst.2 e).2]

/-- The element `groupElement.find('.c')[0]` when one element is selected. -/
theorem jQuery.findFirst_singleton (d : Dom) (e : Nat) (c : String) :
    jQuery.findFirst d [e] c = Dom.findFirst d e c := by
  unfold jQuery.findFirst Dom.findFirst
  congr 1
  unfold Dom.querySelectorAll
  apply List.filter_congr
  intro j hj
  simp only [List.any_cons, List.any_nil, Bool.or_false, List.mem_filter, hj, true_and]
  cases Dom.hasClass d j c && Dom.isInsideFrom d e d.length j <;> simp

/-- Along a path without group buttons a click runs no listener of the group
buttons. -/
theorem listeners_click_noop (arrayId : Nat) (path : List Nat)
    (st : _restoreHoveredGroups.State) (hc : _restoreHoveredGroups.Coherent arrayId st)
    (h : ∀ a ∈ path, Dom.hasClass st.hud.dom a "tah-group-button" = false) :
    path.foldl (_restoreHoveredGroups.listener arrayId clickGroupButton) st = st := by
  induction path with
  | nil => rfl
  | cons a l ih =>
    rw [List.foldl_cons,
      listener_of_noop arrayId clickGroupButton st a hc
        (clickGroupButton_of_not_button st.hud a (h a (List.mem_cons_self _ _)))]
    exact ih (fun b hb => h b (List.mem_cons_of_mem _ hb))

/-- The body of the loop of `_restoreHoveredGroups` in click mode for an
identifier of the form `[\w-]+` of an element whose first button lies in no
other group button: the `click` listeners of the button are run, and no
other. -/
theorem restore_body_click (find : Dom → String → Except String (List Nat)) (arrayId : Nat)
    (st : _restoreHoveredGroups.State) (g : String) (e b : Nat)
    (hc : _restoreHoveredGroups.Coherent arrayId st) (hmode : st.hud.isClickOpen = true)
    (hq : isQuickId g = true) (h : Dom.getElementById st.hud.dom g = some e)
    (hb : Dom.findFirst st.hud.dom e "tah-group-button" = some b)
    (htail : ∀ a ∈ (Dom.eventPath st.hud.dom b).tail,
      Dom.hasClass st.hud.dom a "tah-group-button" = false)
    (hk : HoveredGroupsStep st.hud (clickGroupButton st.hud b))
    (hsame : Dom.SameButShown (clickGroupButton st.hud b).dom st.hud.dom) :
    _restoreHoveredGroups.body find arrayId st g =
      Except.ok (_restoreHoveredGroups.listener arrayId clickGroupButton st b) := by
  have hlt : 0 < st.hud.dom.length := by
    have := (Dom.getElementById_some h).1
    omega
  have hc1 := (listener_step arrayId clickGroupButton st b hc hk).1
  unfold _restoreHoveredGroups.body
  rw [jQuery_of_quick find _ g hq, h]
  simp only [hmode, if_true, jQuery.findFirst_singleton, hb]
  unfold _restoreHoveredGroups.click
  rw [Dom.eventPath_eq_cons _ b hlt, List.foldl_cons,
    listeners_click_noop arrayId _ _ hc1]
  intro a ha
  show Dom.hasClass (clickGroupButton st.hud b).dom a "tah-group-button" = false
  rw [hsame.2 a _ (by decide) (by decide)]
  exact htail a ha

/-- No element of the document has an id that `getElementById` does not find. -/
theorem Dom.getElementById_none {d : Dom} {id : String} (h : Dom.getElementById d id = none)
    (a : Nat) (ha : a < d.length) : Dom.idOf d a ≠ id := by
  unfold Dom.getElementById at h
  have := List.find?_eq_none.1 h a (List.mem_range.2 ha)
  simpa using this

/-- The elements found by `querySelectorAll` are elements of the document. -/
theorem Dom.lt_length_of_mem_querySelectorAll {d : Dom} {element a : Nat} {c : String}
    (h : a ∈ Dom.querySelectorAll d element c) : a < d.length := by
  unfold Dom.querySelectorAll at h
  exact List.mem_range.1 (List.mem_filter.1 h).1

/-- The body of the loop of `_restoreHoveredGroups` in click mode keeps the
invariant of the loop and the iterated array, when the recorded identifiers
have the form `[\w-]+` and those in the document are ids of groups that a
click can toggle. -/
theorem restore_click_inv_step (find : Dom → String → Except String (List Nat)) (s : Hud)
    (hquick : ∀ id ∈ s.hoveredGroups, isQuickId id = true)
    (hgroups : ∀ id ∈ s.hoveredGroups, ∀ e, Dom.getElementById s.dom id = some e →
      Dom.IsClickableGroup s.dom e)
    (i : Nat) (st : _restoreHoveredGroups.State) (g : String)
    (hinv : _restoreHoveredGroups.ClickInv s i st) (hg : st.array[i]? = some g) :
    ∃ st1, _restoreHoveredGroups.body find s.hoveredGroupsId st g = Except.ok st1 ∧
      _restoreHoveredGroups.ClickInv s (i + 1) st1 := by
  obtain ⟨a1, a2, a3, a4, a5, a6, a7, a8, a9⟩ := hinv
  rw [a5] at hg
  have hgmem : g ∈ s.hoveredGroups := List.getElem?_mem hg
  have htake : s.hoveredGroups.take (i + 1) = s.hoveredGroups.take i ++ [g] := by
    rw [List.take_succ, hg]
    rfl
  have hfind : Dom.getElementById st.hud.dom g = Dom.getElementById s.dom g :=
    Dom.getElementById_congr a1.1 g
  cases hfe : Dom.getElementById s.dom g with
  | none =>
    have hlast : Dom.lastPresent s.dom (s.hoveredGroups.take i ++ [g])
        = Dom.lastPresent s.dom (s.hoveredGroups.take i) := by
      rw [Dom.lastPresent_append]
      simp only [hfe]
    refine ⟨st, restore_body_absent find _ st g (hquick g hgmem) (hfind.trans hfe), ?_⟩
    unfold _restoreHoveredGroups.ClickInv
    rw [htake, hlast]
    refine ⟨a1, a2, a3, a4, a5, fun j h => ?_, a7, a8, a9⟩
    rcases a6 j h with h1 | ⟨g1, h1, h2⟩
    · exact Or.inl h1
    · exact Or.inr ⟨g1, List.mem_append_left _ h1, h2⟩
  | some e =>
    obtain ⟨htab, ⟨c0, hc0⟩, b, hbf, hbp, _, hnb⟩ := hgroups g hgmem e hfe
    obtain ⟨he1, he2⟩ := Dom.getElementById_some hfe
    have htabx : Dom.hasClass st.hud.dom e "tah-tab-group" = true := by
      rw [a1.2 e _ (by decide) (by decide)]
      exact htab
    have hcx : Dom.parentElement st.hud.dom e = some c0 := by
      rw [(a1.1.2 e).1]
      exact hc0
    have hbpx : Dom.parentElement st.hud.dom b = some e := by
      rw [(a1.1.2 b).1]
      exact hbp
    have hbfx : Dom.findFirst st.hud.dom e "tah-group-button" = some b := by
      rw [Dom.findFirst_congr "tah-group-button" a1.1
        (fun j => a1.2 j _ (by decide) (by decide)) e]
      exact hbf
    have hbtn : Dom.hasClass st.hud.dom b "tah-group-button" = true :=
      Dom.hasClass_of_findFirst hbfx
    have htailx : ∀ a ∈ (Dom.eventPath st.hud.dom b).tail,
        Dom.hasClass st.hud.dom a "tah-group-button" = false := by
      intro a ha
      rw [Dom.eventPath_congr a1.1] at ha
      rw [a1.2 a _ (by decide) (by decide)]
      exact hnb a ha
    have hidx : Dom.idOf st.hud.dom e = g := by
      rw [(a1.1.2 e).2]
      exact he2
    obtain ⟨k1, k2, k3, k4, k5, k6⟩ :=
      clickGroupButton_while_rendering st.hud b e c0 a2 a3 hbtn hbpx hcx htabx
    have hk : HoveredGroupsStep st.hud (clickGroupButton st.hud b) := by
      rcases k6 with ⟨h1, h2⟩ | h1
      · exact Or.inl ⟨h1, Or.inl h2⟩
      · exact Or.inr h1
    have hb := restore_body_click find s.hoveredGroupsId st g e b a4 a2 (hquick g hgmem)
      (hfind.trans hfe) hbfx htailx hk k1
    have hc1 := (listener_step s.hoveredGroupsId clickGroupButton st b a4 hk).1
    have hlast : Dom.lastPresent s.dom (s.hoveredGroups.take i ++ [g]) = some e := by
      rw [Dom.lastPresent_append]
      simp only [hfe]
    have hsub : ∀ g1 ∈ s.hoveredGroups.take i, g1 ∈ s.hoveredGroups :=
      fun g1 h1 => List.mem_of_mem_take h1
    refine ⟨_, hb, ?_⟩
    unfold _restoreHoveredGroups.ClickInv
    rw [htake, hlast]
    refine ⟨Dom.sameButShown_trans k1 a1, k2, k3, hc1, ?_, fun j h => ?_, fun e1 h => ?_,
      fun hfresh c1 hcommon j h => ?_, fun hlen11 c1 hcommon => ?_⟩
    · show (if (clickGroupButton st.hud b).hoveredGroupsId = s.hoveredGroupsId
          then (clickGroupButton st.hud b).hoveredGroups else st.array) = s.hoveredGroups
      split
      · rename_i h
        rcases k6 with ⟨h1, h2⟩ | h1
        · rw [h2, a4.2 (h1.symm.trans h)]
          exact a5
        · have := a4.1
          omega
      · exact a5
    · rcases k5 j h with h1 | ⟨h1, _⟩
      · exact Or.inr ⟨g, List.mem_append_right _ (List.mem_singleton_self _),
          by rw [hfe, h1]⟩
      · rcases a6 j h1 with h2 | ⟨g1, h2, h3⟩
        · exact Or.inl h2
        · exact Or.inr ⟨g1, List.mem_append_left _ h2, h3⟩
    · rw [← Option.some.inj h]
      exact k4
    · rcases k5 j h with h1 | ⟨h1, h2⟩
      · rw [h1]
      · have hlj := a8 hfresh c1 hcommon j h1
        rcases h2 with h2 | h2
        · have hle := a8 hfresh c1 hcommon e h2
          rw [hlj] at hle
          exact hle.symm
        · exfalso
          apply h2
          obtain ⟨g1, m1, m2⟩ := Dom.lastPresent_mem _ _ _ hlj
          have hg1 := hsub g1 m1
          have hcc : c1 = c0 := by
            have := hcommon g hgmem e hfe
            rw [hc0] at this
            exact (Option.some.inj this).symm
          have hpj : Dom.parentElement st.hud.dom j = some c0 := by
            rw [(a1.1.2 j).1, hcommon g1 hg1 j m2, hcc]
          have htj : Dom.hasClass st.hud.dom j "tah-tab-group" = true := by
            rw [a1.2 j _ (by decide) (by decide)]
            exact (hgroups g1 hg1 j m2).1
          exact Dom.mem_querySelectorAll_of_child st.hud.dom c0 j "tah-tab-group" hpj htj
    · have hshape := a9 hlen11 c1 hcommon
      show (clickGroupButton st.hud b).hoveredGroups = s.hoveredGroups ∨
        ∃ g1 ∈ s.hoveredGroups, (Dom.getElementById s.dom g1).isSome = true ∧
          (clickGroupButton st.hud b).hoveredGroups = absentIds s ++ [g1]
      cases hh : Dom.hasClass st.hud.dom e "hover" with
      | true =>
        rw [clickGroupButton_open_hoveredGroups st.hud b e a2 a3 hbtn hbpx hh]
        exact hshape
      | false =>
        have hcc : c1 = c0 := by
          have := hcommon g hgmem e hfe
          rw [hc0] at this
          exact (Option.some.inj this).symm
        have hPabs : ∀ id, Dom.getElementById s.dom id = none →
            (Dom.querySelectorAll st.hud.dom c0 "tah-tab-group").all
              (fun a => id != Dom.idOf st.hud.dom a) = true := by
          intro id hid
          rw [List.all_eq_true]
          intro a ha
          have halt : a < s.dom.length := by
            rw [← a1.1.1]
            exact Dom.lt_length_of_mem_querySelectorAll ha
          have hne := Dom.getElementById_none hid a halt
          rw [(a1.1.2 a).2]
          simp only [bne_iff_ne, ne_eq]
          exact fun h => hne h.symm
        have hPpres : ∀ id ∈ s.hoveredGroups, (Dom.getElementById s.dom id).isSome = true →
            (Dom.querySelectorAll st.hud.dom c0 "tah-tab-group").all
              (fun a => id != Dom.idOf st.hud.dom a) = false := by
          intro id hid hsome
          obtain ⟨e1, he1⟩ := Option.isSome_iff_exists.1 hsome
          have hp1 : Dom.parentElement st.hud.dom e1 = some c0 := by
            rw [(a1.1.2 e1).1, hcommon id hid e1 he1, hcc]
          have ht1 : Dom.hasClass st.hud.dom e1 "tah-tab-group" = true := by
            rw [a1.2 e1 _ (by decide) (by decide)]
            exact (hgroups id hid e1 he1).1
          have hmem := Dom.mem_querySelectorAll_of_child st.hud.dom c0 e1 "tah-tab-group" hp1 ht1
          have hid1 : Dom.idOf st.hud.dom e1 = id := by
            rw [(a1.1.2 e1).2]
            exact (Dom.getElementById_some he1).2
          cases hall : (Dom.querySelectorAll st.hud.dom c0 "tah-tab-group").all
              (fun a => id != Dom.idOf st.hud.dom a) with
          | false => rfl
          | true =>
            have := List.all_eq_true.1 hall e1 hmem
            rw [hid1] at this
            simp at this
        have hFs : s.hoveredGroups.filter (fun id =>
            (Dom.querySelectorAll st.hud.dom c0 "tah-tab-group").all
              (fun a => id != Dom.idOf st.hud.dom a)) = absentIds s := by
          unfold absentIds
          apply List.filter_congr
          intro id hid
          cases hget : Dom.getElementById s.dom id with
          | none => exact hPabs id hget
          | some e1 => exact hPpres id hid (by rw [hget]; rfl)
        have hFa : (absentIds s).filter (fun id =>
            (Dom.querySelectorAll st.hud.dom c0 "tah-tab-group").all
              (fun a => id != Dom.idOf st.hud.dom a)) = absentIds s := by
          rw [List.filter_eq_self]
          intro id hid
          unfold absentIds at hid
          have hnone := (List.mem_filter.1 hid).2
          exact hPabs id (Option.isNone_iff_eq_none.1 hnone)
        have hlenA : ¬ (absentIds s).length > 10 := by
          have : (absentIds s).length < s.hoveredGroups.length := by
            unfold absentIds
            rw [List.length_filter_lt_length_iff_exists]
            exact ⟨g, hgmem, by rw [hfe]; simp⟩
          omega
        have hF : st.hud.hoveredGroups.filter (fun id =>
            (Dom.querySelectorAll st.hud.dom c0 "tah-tab-group").all
              (fun a => id != Dom.idOf st.hud.dom a)) = absentIds s := by
          rcases hshape with h | ⟨g0, hg0, hs0, h⟩
          · rw [h]
            exact hFs
          · rw [h, List.filter_append, hFa]
            have : [g0].filter (fun id =>
                (Dom.querySelectorAll st.hud.dom c0 "tah-tab-group").all
                  (fun a => id != Dom.idOf st.hud.dom a)) = [] := by
              rw [List.filter_cons, hPpres g0 hg0 hs0]
              rfl
            rw [this, List.append_nil]
        rw [clickGroupButton_closed_hoveredGroups st.hud b e c0 a2 hbtn hbpx hcx hh, hF,
          if_neg hlenA, hidx]
        exact Or.inr ⟨g, hgmem, by rw [hfe]; rfl, rfl⟩

/-- In click mode, while the HUD is rendering, when the recorded identifiers
have the form `[\w-]+` and those in the document are ids of groups that a
click can toggle, `_restoreHoveredGroups` ends without error and changes the
classes `hover` and `tah-hidden` only; every element open afterwards was open
before or is the element of a recorded identifier; the element of the last
recorded identifier in the document is open; when no element was open before
and the recorded groups lie in one container, no other element is open; and
when at most 11 identifiers are recorded and the recorded groups lie in one
container, `hoveredGroups` holds afterwards what it held before, or the
recorded identifiers that are not in the document followed by one that is. -/
theorem restore_click_spec (find : Dom → String → Except String (List Nat)) (s : Hud)
    (hmode : s.isClickOpen = true) (hr : s.rendering = true)
    (hquick : ∀ id ∈ s.hoveredGroups, isQuickId id = true)
    (hgroups : ∀ id ∈ s.hoveredGroups, ∀ e, Dom.getElementById s.dom id = some e →
      Dom.IsClickableGroup s.dom e) :
    ∃ s1, _restoreHoveredGroups find s = some (Except.ok s1) ∧
      Dom.SameButShown s1.dom s.dom ∧
      (∀ j, Dom.hasClass s1.dom j "hover" = true →
        (Dom.hasClass s.dom j "hover" = true ∨
          ∃ id ∈ s.hoveredGroups, Dom.getElementById s.dom id = some j)) ∧
      (∀ e, Dom.lastPresent s.dom s.hoveredGroups = some e →
        Dom.hasClass s1.dom e "hover" = true) ∧
      ((∀ j, Dom.hasClass s.dom j "hover" = false) →
        ∀ c, CommonContainer s c →
          ∀ j, Dom.hasClass s1.dom j "hover" = true →
            Dom.lastPresent s.dom s.hoveredGroups = some j) ∧
      (s.hoveredGroups.length ≤ 11 →
        ∀ c, CommonContainer s c →
          (s1.hoveredGroups = s.hoveredGroups ∨
            ∃ g ∈ s.hoveredGroups, (Dom.getElementById s.dom g).isSome = true ∧
              s1.hoveredGroups = absentIds s ++ [g])) := by
  unfold _restoreHoveredGroups
  split
  · rename_i hlen
    have hnil : s.hoveredGroups = [] := List.length_eq_zero.1 hlen
    refine ⟨s, rfl, Dom.sameButShown_refl _, fun j h => Or.inl h, fun e h => ?_,
      fun hfresh c _ j h => ?_, fun _ _ _ => Or.inl rfl⟩
    · rw [hnil] at h
      exact absurd h (by simp [Dom.lastPresent])
    · rw [hfresh j] at h
      exact absurd h (by decide)
  · have hinv0 : _restoreHoveredGroups.ClickInv s 0 { array := s.hoveredGroups, hud := s } := by
      refine ⟨Dom.sameButShown_refl _, hmode, hr, ⟨le_refl _, fun _ => rfl⟩, rfl,
        fun j h => Or.inl h, fun e h => ?_, fun hfresh c _ j h => ?_, fun _ _ _ => Or.inl rfl⟩
      · exact absurd h (by simp [Dom.lastPresent])
      · rw [hfresh j] at h
        exact absurd h (by decide)
    obtain ⟨r, hloop, hok, herr⟩ := restore_loop_inv find s.hoveredGroupsId
      (_restoreHoveredGroups.ClickInv s)
      (fun i st g st1 hi hg hb => by
        obtain ⟨st2, hb2, hi2⟩ := restore_click_inv_step find s hquick hgroups i st g hi hg
        rw [hb2] at hb
        rw [← Except.ok.inj hb]
        refine ⟨hi2, ?_⟩
        rw [hi2.2.2.2.2.1, hi.2.2.2.2.1])
      (max s.hoveredGroups.length 11) 0 { array := s.hoveredGroups, hud := s } hinv0
      (le_refl _)
    cases r with
    | error e =>
      obtain ⟨i, st1, g, hi, hg, hb⟩ := herr e rfl
      obtain ⟨st2, hb2, _⟩ := restore_click_inv_step find s hquick hgroups i st1 g hi hg
      rw [hb2] at hb
      exact absurd hb (by simp)
    | ok x1 =>
      obtain ⟨i1, st1, hx, ⟨b1, _, _, _, b5, b6, b7, b8, b9⟩, hend⟩ := hok x1 rfl
      have hall : s.hoveredGroups.take i1 = s.hoveredGroups := by
        rw [b5] at hend
        exact List.take_of_length_le (List.getElem?_eq_none_iff.1 hend)
      rw [hall] at b6 b7 b8
      rw [hx] at b1 b6 b7 b8 b9
      exact ⟨x1, hloop, b1, b6, b7, b8, b9⟩

/-- When the recorded identifiers have the form `[\w-]+` and none of them is
in the document, `_restoreHoveredGroups` changes nothing, in either mode. -/
theorem restore_all_absent (find : Dom → String → Except String (List Nat)) (s : Hud)
    (hquick : ∀ id ∈ s.hoveredGroups, isQuickId id = true)
    (habs : ∀ id ∈ s.hoveredGroups, Dom.getElementById s.dom id = none) :
    _restoreHoveredGroups find s = some (Except.ok s) := by
  unfold _restoreHoveredGroups
  split
  · rfl
  · have hbody : ∀ g ∈ s.hoveredGroups,
        _restoreHoveredGroups.body find s.hoveredGroupsId
          { array := s.hoveredGroups, hud := s } g
          = Except.ok { array := s.hoveredGroups, hud := s } :=
      fun g hg => restore_body_absent find _ _ g (hquick g hg) (habs g hg)
    obtain ⟨r, hloop, hok, herr⟩ := restore_loop_inv find s.hoveredGroupsId
      (fun _ st => st = { array := s.hoveredGroups, hud := s })
      (fun i st g st1 hi hg hb => by
        rw [hi] at hg hb
        rw [hbody g (List.getElem?_mem hg)] at hb
        rw [← Except.ok.inj hb, hi]
        exact ⟨rfl, le_refl _⟩)
      (max s.hoveredGroups.length 11) 0 { array := s.hoveredGroups, hud := s } rfl
      (le_refl _)
    cases r with
    | error e =>
      obtain ⟨i, st1, g, hi, hg, hb⟩ := herr e rfl
      rw [hi] at hg hb
      rw [hbody g (List.getElem?_mem hg)] at hb
      exact absurd hb (by simp)
    | ok x1 =>
      obtain ⟨i1, st1, hx, hi, _⟩ := hok x1 rfl
      rw [hi] at hx
      rw [hloop, ← hx]

/-! ## Theorems: the claims on the restoration -/

/-- The element of the identifier recorded in `sampleMixed` that is in the
document. -/
theorem sampleMixed_elements (id : String) (hid : id ∈ sampleMixed.hoveredGroups) (e : Nat)
    (he : Dom.getElementById sampleMixed.dom id = some e) : e = 1 := by
  have h1 : Dom.getElementById sampleMixed.dom "group-weapons" = none := by decide
  have h3 : Dom.getElementById sampleMixed.dom "group-spells" = some 1 := by decide
  have hid2 : id = "group-weapons" ∨ id = "group-spells" := by
    simpa [sampleMixed] using hid
  rcases hid2 with h | h
  · rw [h, h1] at he
    exact absurd he (by simp)
  · rw [h, h3] at he
    exact (Option.some.inj he).symm

/-- C11, as the code has it: for recorded identifiers of the form `[\w-]+`
and a new tree in which no element is open yet.  In hover mode, when every
recorded identifier present in the tree is the id of a top-level group that
lies in no other top-level group, `_restoreHoveredGroups` ends without error
and afterwards the open elements are exactly the elements of the recorded
identifiers that are present in the tree, an absent identifier being skipped.
In click mode, while the HUD is rendering, when every recorded identifier
present is the id of a group that a click can toggle,
`_restoreHoveredGroups` ends without error, every open element is the element
of a recorded identifier, and the element of the last recorded identifier
present is open; but each replayed click closes the other top-level groups of
the container, so when the recorded groups lie in one container the only open
element is that last one. -/
theorem restore_opens_recorded_groups (find : Dom → String → Except String (List Nat))
    (s : Hud) (hfresh : ∀ j, Dom.hasClass s.dom j "hover" = false)
    (hquick : ∀ id ∈ s.hoveredGroups, isQuickId id = true) :
    (s.isClickOpen = false →
      (∀ id ∈ s.hoveredGroups, ∀ e, Dom.getElementById s.dom id = some e →
        Dom.IsOuterTabGroup s.dom e) →
      ∃ s1, _restoreHoveredGroups find s = some (Except.ok s1) ∧
        ∀ j, Dom.hasClass s1.dom j "hover" = true ↔
          ∃ id ∈ s.hoveredGroups, Dom.getElementById s.dom id = some j) ∧
    (s.isClickOpen = true → s.rendering = true →
      (∀ id ∈ s.hoveredGroups, ∀ e, Dom.getElementById s.dom id = some e →
        Dom.IsClickableGroup s.dom e) →
      ∃ s1, _restoreHoveredGroups find s = some (Except.ok s1) ∧
        (∀ j, Dom.hasClass s1.dom j "hover" = true →
          ∃ id ∈ s.hoveredGroups, Dom.getElementById s.dom id = some j) ∧
        (∀ e, Dom.lastPresent s.dom s.hoveredGroups = some e →
          Dom.hasClass s1.dom e "hover" = true) ∧
        (∀ c, CommonContainer s c →
          ∀ j, Dom.hasClass s1.dom j "hover" = true ↔
            Dom.lastPresent s.dom s.hoveredGroups = some j)) := by
  constructor
  · intro hmode houter
    obtain ⟨s1, h1, _, h3, _⟩ := restore_hover_spec find s hmode hquick houter
    refine ⟨s1, h1, fun j => ?_⟩
    rw [h3 j, hfresh j]
    simp
  · intro hmode hr hgroups
    obtain ⟨s1, h1, _, h3, h4, h5, _⟩ := restore_click_spec find s hmode hr hquick hgroups
    refine ⟨s1, h1, fun j h => ?_, h4, fun c hc j => ⟨h5 hfresh c hc j, h4 j⟩⟩
    rcases h3 j h with h6 | h6
    · rw [hfresh j] at h6
      exact absurd h6 (by decide)
    · exact h6

/-- C11, at the sample with 'group-weapons' and 'group-spells' recorded and
both in the new tree: in hover mode both are open afterwards, in click mode
only 'group-spells', the last one. -/
theorem restore_opens_recorded_groups_witness :
    (∃ s1, _restoreHoveredGroups sampleFind sampleBoth = some (Except.ok s1) ∧
      ∀ j, Dom.hasClass s1.dom j "hover" = true ↔
        ∃ id ∈ sampleBoth.hoveredGroups, Dom.getElementById sampleBoth.dom id = some j) ∧
    (∃ s1, _restoreHoveredGroups sampleFind sampleBothClick = some (Except.ok s1) ∧
      ∀ j, Dom.hasClass s1.dom j "hover" = true ↔
        Dom.lastPresent sampleBothClick.dom sampleBothClick.hoveredGroups = some j) := by
  have hfresh : ∀ j, Dom.hasClass sampleBoth.dom j "hover" = false :=
    Dom.hasClass_false_of_bounded _ _ (by decide)
  constructor
  · refine (restore_opens_recorded_groups sampleFind sampleBoth hfresh (by decide)).1 rfl ?_
    intro id hid e he
    rcases sampleBoth_elements id hid e he with h | h <;> rw [h] <;>
      exact ⟨by decide, by decide⟩
  · obtain ⟨s1, h1, _, _, h4⟩ :=
      (restore_opens_recorded_groups sampleFind sampleBothClick hfresh (by decide)).2 rfl rfl (by
        intro id hid e he
        rcases sampleBoth_elements id hid e he with h | h
        · rw [h]
          exact ⟨by decide, ⟨0, by decide⟩, 2, by decide, by decide, by decide, by decide⟩
        · rw [h]
          exact ⟨by decide, ⟨0, by decide⟩, 4, by decide, by decide, by decide, by decide⟩)
    refine ⟨s1, h1, h4 0 ?_⟩
    intro id hid e he
    rcases sampleBoth_elements id hid e he with h | h <;> rw [h] <;> decide

/-- C11 as stated fails in three ways.  In click mode, with 'group-weapons'
and 'group-spells' recorded and both present in the new tree, in which nothing
is open yet, after `_restoreHoveredGroups` the element of 'group-weapons' is
not open; only that of 'group-spells' is.  In hover mode, with 'g-inner'
recorded, a top-level group inside the top-level group 'g-outer', the element
of 'g-outer' is open afterwards although 'g-outer' is not recorded.  And with
the empty identifier recorded the restoration ends with the error thrown by
`$`. -/
theorem restore_misses_or_adds_groups :
    (sampleBothClick.hoveredGroups = ["group-weapons", "group-spells"] ∧
      Dom.getElementById sampleBothClick.dom "group-weapons" = some 1 ∧
      Dom.getElementById sampleBothClick.dom "group-spells" = some 3 ∧
      (List.range sampleBothClick.dom.length).all
        (fun j => !Dom.hasClass sampleBothClick.dom j "hover") = true ∧
      (_restoreHoveredGroups sampleFind sampleBothClick).map
          (fun r => r.toOption.map
            (fun s => (Dom.hasClass s.dom 1 "hover", Dom.hasClass s.dom 3 "hover")))
        = some (some (false, true))) ∧
    (sampleNested.isClickOpen = false ∧ sampleNested.hoveredGroups = ["g-inner"] ∧
      Dom.getElementById sampleNested.dom "g-outer" = some 1 ∧
      (List.range sampleNested.dom.length).all
        (fun j => !Dom.hasClass sampleNested.dom j "hover") = true ∧
      (_restoreHoveredGroups sampleFind sampleNested).map
          (fun r => r.toOption.map (fun s => Dom.hasClass s.dom 1 "hover"))
        = some (some true)) ∧
    (sampleEmptyId.hoveredGroups = [""] ∧
      _restoreHoveredGroups sampleFind sampleEmptyId
        = some (Except.error "Syntax error, unrecognized expression: #")) :=
  ⟨by decide, by decide, by decide, rfl⟩

/-- C12, as the code has it: for recorded identifiers of the form `[\w-]+`,
the restoration skips an identifier that is absent from the new tree and does
not remove it for that.  When none of the recorded identifiers is in the new
tree, `_restoreHoveredGroups` changes nothing, in either mode, and after
`setPosition` the set still holds every one of them.  In click mode, while the
HUD is rendering, with at most 11 identifiers recorded and the recorded groups
present being groups of one container that a click can toggle, every absent
identifier is still in the set afterwards.  In hover mode, when some recorded
identifier is present and those present are ids of top-level groups that lie
in no other top-level group, the replayed opens lengthen the set until
`_setHoveredGroup` puts a new array in its place, and afterwards the set holds
only identifiers that are present: the absent ones are gone. -/
theorem absent_ids_after_restore (find : Dom → String → Except String (List Nat)) (s : Hud)
    (hquick : ∀ id ∈ s.hoveredGroups, isQuickId id = true) :
    ((∀ id ∈ s.hoveredGroups, Dom.getElementById s.dom id = none) →
      _restoreHoveredGroups find s = some (Except.ok s) ∧
        (∀ h, s.hud = some h →
          setPosition find s
            = some (Except.ok { _setPositionFromFlag s with rendering := false })) ∧
        ({ _setPositionFromFlag s with rendering := false } : Hud).hoveredGroups
          = s.hoveredGroups) ∧
    (s.isClickOpen = true → s.rendering = true → s.hoveredGroups.length ≤ 11 →
      (∀ id ∈ s.hoveredGroups, ∀ e, Dom.getElementById s.dom id = some e →
        Dom.IsClickableGroup s.dom e) →
      ∀ c, CommonContainer s c →
        ∃ s1, _restoreHoveredGroups find s = some (Except.ok s1) ∧
          ∀ id ∈ s.hoveredGroups, Dom.getElementById s.dom id = none →
            id ∈ s1.hoveredGroups) ∧
    (s.isClickOpen = false →
      (∀ id ∈ s.hoveredGroups, ∀ e, Dom.getElementById s.dom id = some e →
        Dom.IsOuterTabGroup s.dom e) →
      (∃ id ∈ s.hoveredGroups, (Dom.getElementById s.dom id).isSome = true) →
      ∃ s1, _restoreHoveredGroups find s = some (Except.ok s1) ∧
        ∀ id ∈ s1.hoveredGroups,
          id ∈ s.hoveredGroups ∧ (Dom.getElementById s.dom id).isSome = true) := by
  refine ⟨fun habs => ?_, fun hmode hr hlen hgroups c hcommon => ?_,
    fun hmode houter hsome => ?_⟩
  · obtain ⟨f1, f2, _, _, _⟩ := setPositionFromFlag_frame s
    refine ⟨restore_all_absent find s hquick habs, fun h hh => ?_, f2⟩
    unfold setPosition
    rw [hh]
    have := restore_all_absent find (_setPositionFromFlag s)
      (by rw [f2]; exact hquick) (by rw [f1, f2]; exact habs)
    simp only [this]
  · obtain ⟨s1, h1, _, _, _, _, h6⟩ := restore_click_spec find s hmode hr hquick hgroups
    refine ⟨s1, h1, fun id hid hnone => ?_⟩
    have hmemA : id ∈ absentIds s := by
      unfold absentIds
      rw [List.mem_filter]
      exact ⟨hid, by rw [hnone]; rfl⟩
    rcases h6 hlen c hcommon with h | ⟨g, _, _, h⟩
    · rw [h]
      exact hid
    · rw [h]
      exact List.mem_append_left _ hmemA
  · obtain ⟨s1, h1, _, _, h4⟩ := restore_hover_spec find s hmode hquick houter
    exact ⟨s1, h1, h4 hsome⟩

/-- C12, at three samples.  With the tree of spells rendered while only
'group-weapons' is recorded, nothing changes.  With 'group-weapons' and
'group-spells' recorded, in click mode 'group-weapons' is still recorded
afterwards, and in hover mode it is not. -/
theorem absent_ids_after_restore_witness :
    (_restoreHoveredGroups sampleFind sampleStale = some (Except.ok sampleStale) ∧
      setPosition sampleFind sampleStale
        = some (Except.ok { _setPositionFromFlag sampleStale with rendering := false })) ∧
    (∃ s1, _restoreHoveredGroups sampleFind sampleMixedClick = some (Except.ok s1) ∧
      "group-weapons" ∈ s1.hoveredGroups) ∧
    (∃ s1, _restoreHoveredGroups sampleFind sampleMixed = some (Except.ok s1) ∧
      "group-weapons" ∉ s1.hoveredGroups) := by
  refine ⟨?_, ?_, ?_⟩
  · have h := (absent_ids_after_restore sampleFind sampleStale (by decide)).1 (by decide)
    exact ⟨h.1, h.2.1 { length := 1 } rfl⟩
  · obtain ⟨s1, h1, h2⟩ :=
      (absent_ids_after_restore sampleFind sampleMixedClick (by decide)).2.1 rfl rfl
        (by decide)
        (by
          intro id hid e he
          rw [sampleMixed_elements id hid e he]
          exact ⟨by decide, ⟨0, by decide⟩, 2, by decide, by decide, by decide, by decide⟩)
        0
        (by
          intro id hid e he
          rw [sampleMixed_elements id hid e he]
          decide)
    exact ⟨s1, h1, h2 "group-weapons" (by decide) (by decide)⟩
  · obtain ⟨s1, h1, h2⟩ :=
      (absent_ids_after_restore sampleFind sampleMixed (by decide)).2.2 rfl
        (by
          intro id hid e he
          rw [sampleMixed_elements id hid e he]
          exact ⟨by decide, by decide⟩)
        ⟨"group-spells", by decide, by decide⟩
    refine ⟨s1, h1, fun hmem => ?_⟩
    have := (h2 "group-weapons" hmem).2
    exact absurd this (by decide)

/-- C12 as stated fails: with the single id 'group-weapons' recorded and a new
tree that lacks it, the set is not empty after the restoration, in hover mode
and in click mode alike: it still holds 'group-weapons'. -/
theorem absent_id_stays_recorded :
    Dom.getElementById sampleStale.dom "group-weapons" = none ∧
      (setPosition sampleFind sampleStale).map
          (fun r => r.toOption.map (fun s => s.hoveredGroups))
        = some (some ["group-weapons"]) ∧
      (setPosition sampleFind { sampleStale with isClickOpen := true }).map
          (fun r => r.toOption.map (fun s => s.hoveredGroups))
        = some (some ["group-weapons"]) ∧
      (setPosition sampleFind sampleStale).map
          (fun r => r.toOption.map (fun s => s.hoveredGroups))
        ≠ some (some []) := by
  decide

end TokenActionHud
